import Mathlib

/-!
# ynoserver: room command handlers and message codec

A shallow embedding of `handlers.go` (the hub command handlers) and of
`server/server.go` (`buildMsg`, the separators), with theorems about them.

Conventions of the embedding.

* A Go `string` is a Lean `String`; `len(s)` is the length of its UTF-8
  encoding (`String.utf8ByteSize`), and a byte slice is a `List UInt8`.
* A Go `int` is an `Int`; `strconv.Atoi` keeps the 64-bit range check.
* A Go `map[int]T` is a function `Int → Option T` (`none` = key absent).
* A handler returns an `Outcome`: the sender after the call, the ordered
  trace of the calls it made to the outside (broadcasts, direct messages,
  collaborator calls) and the returned `error`.
* Functions and data of the repository that the handlers use but that are
  not in the embedded files are fields of `Env` (or arguments).
-/

namespace YnoServer

/-! ## Errors and `strconv.Atoi` -/

/-- The kind carried by a `*strconv.NumError`. -/
inductive NumErrKind where
  | errSyntax
  | errRange
  deriving DecidableEq, Repr

/-- The `error` values the handlers can return. -/
inductive Error where
  /-- `errLengthMismatch` of handlers.go. -/
  | lengthMismatch
  /-- A `*strconv.NumError` returned by `strconv.Atoi` on the given input. -/
  | num (input : String) (kind : NumErrKind)
  /-- An error made with `errors.New`, or returned by a collaborator. -/
  | other (text : String)
  deriving DecidableEq, Repr

/-- The digit loop of `strconv.ParseUint(s, 10, 64)`: `n` is the value read
so far. -/
def parseUintLoop : List Char → Nat → Except NumErrKind Nat
  | [], n => .ok n
  | c :: cs, n =>
    if !c.isDigit then .error .errSyntax
    else if n ≥ 1844674407370955162 then .error .errRange
    else
      let n1 := n * 10 + (c.toNat - 48)
      if n1 > 18446744073709551615 then .error .errRange
      else parseUintLoop cs n1

/-- The function `strconv.ParseUint(s, 10, 64)`; on a range error Go returns
the maximal value together with the error. -/
def parseUint (s : List Char) : Nat × Option NumErrKind :=
  match s with
  | [] => (0, some .errSyntax)
  | cs =>
    match parseUintLoop cs 0 with
    | .ok n => (n, none)
    | .error .errRange => (18446744073709551615, some .errRange)
    | .error .errSyntax => (0, some .errSyntax)

/-- The function `strconv.Atoi` on a 64-bit platform: an optional sign and
at least one decimal digit, the value within the range of `int`. -/
def atoi (s : String) : Except Error Int :=
  match s.data with
  | [] => .error (.num s .errSyntax)
  | c :: cs =>
    let neg := c == '-'
    let body := if c == '+' || c == '-' then cs else c :: cs
    match parseUint body with
    | (_, some .errSyntax) => .error (.num s .errSyntax)
    | (un, _) =>
      if !neg && un ≥ 9223372036854775808 then .error (.num s .errRange)
      else if neg && un > 9223372036854775808 then .error (.num s .errRange)
      else .ok (if neg then -(un : Int) else (un : Int))

deriving instance DecidableEq for Except

/-- The function `strconv.Itoa`. -/
def itoa (n : Int) : String := toString n

/-! ## Strings -/

/-- The predicate `unicode.IsSpace`. -/
def isSpace (c : Char) : Bool :=
  c.toNat ∈ [0x09, 0x0A, 0x0B, 0x0C, 0x0D, 0x20, 0x85, 0xA0, 0x1680, 0x2028, 0x2029,
    0x202F, 0x205F, 0x3000] || (0x2000 ≤ c.toNat && c.toNat ≤ 0x200A)

/-- The function `strings.TrimSpace`. -/
def trimSpace (s : String) : String :=
  ⟨((s.data.dropWhile isSpace).reverse.dropWhile isSpace).reverse⟩

/-- The Go expression `len(s)` for a string: the number of bytes. -/
def len (s : String) : Nat := s.utf8ByteSize

/-- The function `strings.Contains`, on the characters of valid UTF-8
strings. -/
def strContains (s sub : String) : Bool :=
  s.data.tails.any (fun t => sub.data.isPrefixOf t)

/-- The character class `[A-Za-z0-9]`: the ASCII letters and digits. -/
def isAsciiAlnum (c : Char) : Bool :=
  (decide ('A' ≤ c) && decide (c ≤ 'Z')) || (decide ('a' ≤ c) && decide (c ≤ 'z')) ||
    (decide ('0' ≤ c) && decide (c ≤ '9'))

/-- The function `isOkString` of server.go: a match of the regular
expression `^[A-Za-z0-9]+$`, one or more ASCII letters or digits and
nothing else. -/
def isOkString (str : String) : Bool :=
  !str.data.isEmpty && str.data.all isAsciiAlnum

/-- The Go conversion `[]byte(s)`. -/
def toBytes (s : String) : List UInt8 := s.data.flatMap String.utf8EncodeChar

/-! ## The message codec (server/server.go) -/

/-- The constant `delim`, the primary separator. -/
def delim : String := "\uffff"

/-- The constant `mdelim`, the secondary separator. -/
def mdelim : String := "\ufffe"

/-- One argument of the variadic `buildMsg(segments ...any)`, by dynamic
type. For the two map kinds the list gives the keys in the order in which
the runtime happens to iterate over the map. -/
inductive Segment where
  | byte (b : UInt8)
  | bytes (bs : List UInt8)
  | str (s : String)
  | strs (l : List String)
  | strSet (keys : List String)
  | int (n : Int)
  | ints (l : List Int)
  | intSet (keys : List Int)
  | bool (b : Bool)
  /-- A value of any other dynamic type (the `default` case). -/
  | unsupported
  deriving DecidableEq, Repr

/-- The inner loops of `buildMsg` over a list or map: each element, and the
primary separator `delim` after every element but the last. -/
def joinElems : List (List UInt8) → List UInt8
  | [] => []
  | [x] => x
  | x :: y :: rest => x ++ toBytes delim ++ joinElems (y :: rest)

/-- The bytes one `case` of the type switch of `buildMsg` appends; `none`
is the `default` case, which does `continue`. -/
def renderSegment : Segment → Option (List UInt8)
  | .byte b => some [b]
  | .bytes bs => some bs
  | .str s => some (toBytes s)
  | .strs l => some (joinElems (l.map toBytes))
  | .strSet keys => some (joinElems (keys.map toBytes))
  | .int n => some (toBytes (itoa n))
  | .ints l => some (joinElems (l.map (fun n => toBytes (itoa n))))
  | .intSet keys => some (joinElems (keys.map (fun n => toBytes (itoa n))))
  | .bool b => some (toBytes (if b then "1" else "0")).head?.toList
  | .unsupported => none

/-- The function `buildMsg`. The loop index is the position in the list:
`idx != len(segments)-1` holds exactly when segments remain. -/
def buildMsg : List Segment → List UInt8
  | [] => []
  | seg :: rest =>
    match renderSegment seg with
    | none => buildMsg rest
    | some bs => bs ++ (if rest.isEmpty then [] else toBytes delim) ++ buildMsg rest

/-- The function `bytes.Contains(b, sub)`. -/
def containsBytes (sub : List UInt8) : List UInt8 → Bool
  | [] => sub.isPrefixOf []
  | c :: cs => sub.isPrefixOf (c :: cs) || containsBytes sub cs

/-- The scan of `bytes.Split(s, sep)` for a non-empty separator: `skip` is
the number of bytes of a matched separator still to pass over and `cur` the
bytes of the current field, last first. -/
def splitLoop (sep : List UInt8) : List UInt8 → Nat → List UInt8 → List (List UInt8)
  | [], _, cur => [cur.reverse]
  | _ :: cs, skip + 1, cur => splitLoop sep cs skip cur
  | c :: cs, 0, cur =>
    if sep.isPrefixOf (c :: cs) then cur.reverse :: splitLoop sep cs (sep.length - 1) []
    else splitLoop sep cs 0 (c :: cur)

/-- Decoding of a frame: the fields between the occurrences of the primary
separator (`bytes.Split(message, delim)`). -/
def splitFields (message : List UInt8) : List (List UInt8) :=
  splitLoop (toBytes delim) message 0 []

/-- The fields of an ordered list or of a map inside a frame: one per
element, and a single empty field when there is no element. -/
def elemFields (elems : List (List UInt8)) : List (List UInt8) :=
  match elems with
  | [] => [[]]
  | e :: es => e :: es

/-- The fields a segment stands for in the frame that `buildMsg` makes: its
rendering for a byte, a byte block, a string, an integer or a boolean; its
elements, one field each, for a list or a map; none for a value of an
unsupported kind. -/
def segmentFields : Segment → List (List UInt8)
  | .byte b => [[b]]
  | .bytes bs => [bs]
  | .str s => [toBytes s]
  | .strs l => elemFields (l.map toBytes)
  | .strSet keys => elemFields (keys.map toBytes)
  | .int n => [toBytes (itoa n)]
  | .ints l => elemFields (l.map (fun n => toBytes (itoa n)))
  | .intSet keys => elemFields (keys.map (fun n => toBytes (itoa n)))
  | .bool b => [toBytes (if b then "1" else "0")]
  | .unsupported => []

/-- The segments of supported kinds among `segs`, in order: the list with
the segments of unsupported kinds removed. -/
def supportedOnly (segs : List Segment) : List Segment :=
  segs.filter (fun seg => decide (seg ≠ .unsupported))

/-- The case in which `buildMsg` leaves a separator at the end of the frame:
the last segment is of an unsupported kind and a supported segment stands
before it. -/
def trailingUnsupported (segs : List Segment) : Bool :=
  decide (segs.getLast? = some .unsupported) && !(supportedOnly segs).isEmpty

/-! ## Data model (the fields the handlers use) -/

/-- The struct `Picture`: the fields handlers.go reads and writes. -/
structure Picture where
  name : String
  useTransparentColor : Bool
  fixedToMap : Bool
  positionX : Int
  positionY : Int
  mapX : Int
  mapY : Int
  panX : Int
  panY : Int
  magnify : Int
  topTrans : Int
  bottomTrans : Int
  red : Int
  green : Int
  blue : Int
  saturation : Int
  effectMode : Int
  effectPower : Int
  deriving DecidableEq, Repr

/-- The value `&Picture{name: ..., useTransparentColor: ..., fixedToMap: ...}`:
every other field has the zero value. -/
def Picture.new (name : String) (useTransparentColor fixedToMap : Bool) : Picture :=
  { name := name, useTransparentColor := useTransparentColor, fixedToMap := fixedToMap,
    positionX := 0, positionY := 0, mapX := 0, mapY := 0, panX := 0, panY := 0,
    magnify := 0, topTrans := 0, bottomTrans := 0, red := 0, green := 0, blue := 0,
    saturation := 0, effectMode := 0, effectPower := 0 }

/-- Modelled from the spec: the match spec of a variable, which the absent
declaration of `Condition` holds: "either an exact value or an inclusive
range". -/
inductive VarSpec where
  | exact (v : Int)
  | range (lo hi : Int)
  deriving DecidableEq, Repr

/-- The struct `Condition`. The fields `ConditionId` to `TimeTrial` are the
ones handlers.go reads. The match specs (`SwitchValue`, `SwitchValues`,
`VarMatch`, `VarMatches`) are modelled from the spec ("for a switch it is a
boolean equality", one spec per chain position); only the modelled
`checkSwitch` and `checkVar` below read them. -/
structure Condition where
  ConditionId : String
  VarTrigger : Bool
  SwitchId : Int
  SwitchIds : List Int
  VarId : Int
  VarIds : List Int
  TimeTrial : Bool
  SwitchValue : Bool
  SwitchValues : List Bool
  VarMatch : VarSpec
  VarMatches : List VarSpec
  deriving DecidableEq, Repr

/-- The struct `MinigameConfig`: the fields handlers.go reads. -/
structure MinigameConfig where
  MinigameId : String
  VarId : Int
  SwitchId : Int
  SwitchValue : Bool
  deriving DecidableEq, Repr

/-- The struct `Hub`: the fields handlers.go reads. -/
structure Hub where
  roomId : Int
  conditions : List Condition
  minigameConfigs : List MinigameConfig
  deriving DecidableEq, Repr

/-- The struct `SessionClient`: the fields the hub handlers use. -/
structure SessionClient where
  id : Int
  uuid : String
  name : String
  systemName : String
  spriteName : String
  spriteIndex : Int
  muted : Bool
  deriving DecidableEq, Repr

/-- The struct `HubClient`: the fields handlers.go uses. `flash` is the
array `[5]int` as five fields; `minigameScores` is indexed by the position
of the minigame config. -/
structure HubClient where
  sClient : SessionClient
  hub : Hub
  valid : Bool
  x : Int
  y : Int
  facing : Int
  spd : Int
  flash0 : Int
  flash1 : Int
  flash2 : Int
  flash3 : Int
  flash4 : Int
  repeatingFlash : Bool
  hidden : Bool
  syncCoords : Bool
  pictures : Int → Option Picture
  switchCache : Int → Option Bool
  varCache : Int → Option Int
  minigameScores : Nat → Int

/-- The Go statement `m[k] = v`. -/
def mapSet {α : Type} (m : Int → Option α) (k : Int) (v : α) : Int → Option α :=
  fun j => if j = k then some v else m j

/-- The Go statement `delete(m, k)`. -/
def mapDelete {α : Type} (m : Int → Option α) (k : Int) : Int → Option α :=
  fun j => if j = k then none else m j

/-- The Go expression `l[i]` on a slice: `none` when the index is out of
range (the run-time panic). -/
def index {α : Type} (l : List α) (i : Int) : Option α :=
  if i < 0 then none else l.get? i.toNat

/-- A call a handler makes to the outside, in the order of the calls. -/
inductive Effect where
  /-- The call `h.broadcast(sender, segments...)`: the segments go to the
  members of the room, the sender excluded. -/
  | broadcast (segments : List Segment)
  /-- The call `sender.sendMsg(segments...)`: a direct message to the sender. -/
  | sendMsg (segments : List Segment)
  /-- The call `checkHubConditions(h, sender, trigger, value)`; the function
  is not in the sources, and what it does inside is not part of the trace. -/
  | checkHubConditions (trigger value : String)
  /-- The call `tryWritePlayerTag(uuid, conditionId)`. -/
  | tryWritePlayerTag (uuid conditionId : String)
  /-- The call `tryWritePlayerTimeTrial(uuid, roomId, value)`. -/
  | tryWritePlayerTimeTrial (uuid : String) (roomId value : Int)
  /-- The call `tryWritePlayerMinigameScore(uuid, minigameId, score)`. -/
  | tryWritePlayerMinigameScore (uuid minigameId : String) (score : Int)
  /-- The call `h.handleValidClient(sender)`; the method is not in the
  sources, and what it does inside is not part of the trace. -/
  | handleValidClient
  /-- The call `sender.sClient.sendMsg(segments...)`: a direct message to the
  sender on its session connection. -/
  | sessionSendMsg (segments : List Segment)
  /-- The call `tryCompleteEventVm(periodId, uuid, mapId, eventId)`. -/
  | tryCompleteEventVm (periodId : Int) (uuid : String) (mapId eventId : Int)
  deriving DecidableEq, Repr

/-- How a handler call ends: it returns an `error` (`none` is `nil`), or a
run-time panic stops it. -/
inductive Exit where
  | returned (err : Option Error)
  | panicked
  deriving DecidableEq, Repr

/-- What a handler call leaves behind. -/
structure Outcome where
  sender : HubClient
  effects : List Effect
  exit : Exit

/-- The broadcasts among the effects, in order. -/
def broadcasts (effects : List Effect) : List (List Segment) :=
  effects.filterMap (fun e => match e with | .broadcast segs => some segs | _ => none)

/-- The answer of a persistence call `(bool, error)`. -/
structure WriteResult where
  success : Bool
  err : Option Error
  deriving DecidableEq, Repr

/-- The answer of `tryCompleteEventVm`, `(exp int, err error)`. -/
structure ExpResult where
  exp : Int
  err : Option Error
  deriving DecidableEq, Repr

/-- The configuration, the global data and the functions of the repository
that handlers.go uses and that are declared elsewhere. `σ` is the state of
the persistence collaborator; its calls take and return that state. -/
structure Env (σ : Type) where
  /-- The field `config.gameName`. -/
  gameName : String
  globalConditions : List Condition
  isValidSprite : String → Bool
  isValidSystem : String → Bool → Bool
  isValidSound : String → Bool
  isValidPicName : String → Bool
  /-- The method `(c *Condition) checkVar(varId, value) (bool, int)`. -/
  checkVar : Condition → Int → Int → Bool × Int
  /-- The method `(c *Condition) checkSwitch(switchId, value) (bool, int)`. -/
  checkSwitch : Condition → Int → Bool → Bool × Int
  checkConditionCoords : Condition → HubClient → Bool
  tryWritePlayerTag : σ → String → String → σ × WriteResult
  tryWritePlayerTimeTrial : σ → String → Int → Int → σ × WriteResult
  tryWritePlayerMinigameScore : σ → String → String → Int → σ
  /-- The method `(h *Hub) processMsg(msg, sender)`, the dispatcher. -/
  processMsg : Hub → String → HubClient → Outcome
  /-- The global `currentEventPeriodId`. -/
  currentEventPeriodId : Int
  /-- The global `currentEventVmMapId`. -/
  currentEventVmMapId : Int
  /-- The global `currentEventVmEventId`. -/
  currentEventVmEventId : Int
  tryCompleteEventVm : σ → Int → String → Int → Int → σ × ExpResult
  /-- The state of the persistence collaborator after a call
  `checkHubConditions(h, sender, trigger, value)` made in the given state. -/
  checkHubConditionsDb : σ → Hub → HubClient → String → String → σ

/-! ## The handlers of handlers.go -/

/-- An `Outcome` without effect: the handler returns `err`. -/
def reject (sender : HubClient) (err : Option Error) : Outcome :=
  { sender := sender, effects := [], exit := .returned err }

/-- The handler `handleM` (commands `m` and `tp`). -/
def handleM (_h : Hub) (msg : List String) (sender : HubClient) : Outcome :=
  match msg with
  | [cmd, f1, f2] =>
    match atoi f1 with
    | .error e => reject sender (some e)
    | .ok x =>
      if x < 0 then reject sender none
      else
        match atoi f2 with
        | .error e => reject sender (some e)
        | .ok y =>
          if y < 0 then reject sender none
          else
            let sender := { sender with x := x, y := y }
            if cmd = "m" then
              { sender := sender
                effects :=
                  (if sender.syncCoords then [Effect.checkHubConditions "coords" ""] else []) ++
                  [Effect.broadcast [.unsupported, .str "m", .int sender.sClient.id,
                    .strs [f1, f2]]]
                exit := .returned none }
            else
              { sender := sender
                effects := [Effect.checkHubConditions "teleport" ""]
                exit := .returned none }
  | _ => reject sender (some .lengthMismatch)

/-- The handler `handleRp` (command `rp`). -/
def handleRp (_h : Hub) (msg : List String) (sender : HubClient) : Outcome :=
  match msg with
  | [_, f1] =>
    match atoi f1 with
    | .error e => reject sender (some e)
    | .ok picId =>
      if picId < 1 then reject sender none
      else
        { sender := { sender with pictures := mapDelete sender.pictures picId }
          effects := [Effect.broadcast [.str "rp", .int sender.sClient.id, .str f1]]
          exit := .returned none }
  | _ => reject sender (some .lengthMismatch)

/-- The handler `handleSay` (command `say`). -/
def handleSay (_h : Hub) (msg : List String) (sender : HubClient) : Outcome :=
  if sender.sClient.muted then reject sender none
  else
    match msg with
    | [_, f1] =>
      let msgContents := trimSpace f1
      if sender.sClient.name = "" || sender.sClient.systemName = "" || msgContents = "" ||
          len msgContents > 150 then
        reject sender none
      else
        { sender := sender
          effects := [Effect.broadcast [.str "say", .int sender.sClient.id, .str msgContents]]
          exit := .returned none }
    | _ => reject sender (some .lengthMismatch)

/-- One validated numeric field: the Go lines
`v, errconv := strconv.Atoi(s); if errconv != nil || !ok(v) { return errconv }`.
The error side is the value the handler returns: `some e` for a parse
failure, `none` (the nil `errconv`) for a parsed value out of range. -/
def parseField (s : String) (ok : Int → Bool) : Except (Option Error) Int :=
  match atoi s with
  | .error e => .error (some e)
  | .ok v => if ok v then .ok v else .error none

/-- The local variables `picId` to `effectPower` of `handleP`. -/
structure PicArgs where
  picId : Int
  positionX : Int
  positionY : Int
  mapX : Int
  mapY : Int
  panX : Int
  panY : Int
  magnify : Int
  topTrans : Int
  bottomTrans : Int
  red : Int
  green : Int
  blue : Int
  saturation : Int
  effectMode : Int
  effectPower : Int
  deriving DecidableEq, Repr

/-- The field `msg[i]` of a message whose length has been checked. -/
def field (msg : List String) (i : Nat) : String := msg.getD i ""

/-- The validation of `msg[1]` to `msg[16]` in `handleP`, in source order. -/
def parsePicArgs (msg : List String) : Except (Option Error) PicArgs := do
  let picId ← parseField (field msg 1) (fun v => decide (1 ≤ v))
  let positionX ← parseField (field msg 2) (fun _ => true)
  let positionY ← parseField (field msg 3) (fun _ => true)
  let mapX ← parseField (field msg 4) (fun _ => true)
  let mapY ← parseField (field msg 5) (fun _ => true)
  let panX ← parseField (field msg 6) (fun _ => true)
  let panY ← parseField (field msg 7) (fun _ => true)
  let magnify ← parseField (field msg 8) (fun v => decide (0 ≤ v))
  let topTrans ← parseField (field msg 9) (fun v => decide (0 ≤ v))
  let bottomTrans ← parseField (field msg 10) (fun v => decide (0 ≤ v))
  let red ← parseField (field msg 11) (fun v => decide (0 ≤ v) && decide (v ≤ 200))
  let green ← parseField (field msg 12) (fun v => decide (0 ≤ v) && decide (v ≤ 200))
  let blue ← parseField (field msg 13) (fun v => decide (0 ≤ v) && decide (v ≤ 200))
  let saturation ← parseField (field msg 14) (fun v => decide (0 ≤ v) && decide (v ≤ 200))
  let effectMode ← parseField (field msg 15) (fun v => decide (0 ≤ v))
  let effectPower ← parseField (field msg 16) (fun _ => true)
  return { picId, positionX, positionY, mapX, mapY, panX, panY, magnify, topTrans,
           bottomTrans, red, green, blue, saturation, effectMode, effectPower }

/-- The assignments `pic.positionX = positionX` to
`pic.effectPower = effectPower` of `handleP`. -/
def Picture.assign (pic : Picture) (a : PicArgs) : Picture :=
  { pic with
    positionX := a.positionX, positionY := a.positionY, mapX := a.mapX, mapY := a.mapY,
    panX := a.panX, panY := a.panY, magnify := a.magnify, topTrans := a.topTrans,
    bottomTrans := a.bottomTrans, red := a.red, blue := a.blue, green := a.green,
    saturation := a.saturation, effectMode := a.effectMode, effectPower := a.effectPower }

/-- The end of `handleP`: the assignments to `pic`, the broadcast of the
command and `sender.pictures[picId] = pic`. -/
def applyPicture (msg : List String) (a : PicArgs) (pic : Picture) (sender : HubClient)
    (effects : List Effect) : Outcome :=
  { sender := { sender with pictures := mapSet sender.pictures a.picId (pic.assign a) }
    effects := effects ++
      [Effect.broadcast [.str (field msg 0), .int sender.sClient.id, .strs (msg.drop 1)]]
    exit := .returned none }

/-- The handler `handleP` (commands `p` and `ap`). An empty `msg` makes
`msg[0]` panic. -/
def handleP {σ : Type} (env : Env σ) (h : Hub) (msg : List String) (sender : HubClient) :
    Outcome :=
  match msg with
  | [] => { sender := sender, effects := [], exit := .panicked }
  | cmd :: _ =>
    let isShow := cmd == "ap"
    let msgLength := if isShow then 20 else 18
    if msg.length ≠ msgLength then reject sender (some .lengthMismatch)
    else
      let pre := if isShow then [Effect.checkHubConditions "picture" (field msg 17)] else []
      if isShow && !env.isValidPicName (field msg 17) then
        { sender := sender, effects := pre, exit := .returned none }
      else
        match parsePicArgs msg with
        | .error e => { sender := sender, effects := pre, exit := .returned e }
        | .ok a =>
          if isShow then
            let picName := field msg 17
            if picName = "" then { sender := sender, effects := pre, exit := .returned none }
            else
              match parseField (field msg 18) (fun v => decide (0 ≤ v) && decide (v ≤ 1)) with
              | .error e => { sender := sender, effects := pre, exit := .returned e }
              | .ok useTransparentColorBin =>
                match parseField (field msg 19) (fun v => decide (0 ≤ v) && decide (v ≤ 1)) with
                | .error e => { sender := sender, effects := pre, exit := .returned e }
                | .ok fixedToMapBin =>
                  let pic := Picture.new picName (useTransparentColorBin == 1)
                    (fixedToMapBin == 1)
                  match sender.pictures a.picId with
                  | some _ =>
                    let rp := env.processMsg h ("rp" ++ delim ++ field msg 1) sender
                    match rp.exit with
                    | .returned none => applyPicture msg a pic rp.sender (pre ++ rp.effects)
                    | rpExit => { sender := rp.sender, effects := pre ++ rp.effects,
                                  exit := rpExit }
                  | none => applyPicture msg a pic sender pre
          else
            match sender.pictures a.picId with
            | some pic =>
              match parseField (field msg 17) (fun v => decide (0 ≤ v)) with
              | .error e => { sender := sender, effects := pre, exit := .returned e }
              | .ok _ => applyPicture msg a pic sender pre
            | none => { sender := sender, effects := pre, exit := .returned none }

/-! ### `handleSs` and `handleSv` -/

/-- The state in the middle of a handler: the collaborator state, the
effects so far and, once the handler has left (a `return` with a non-nil
error, or a panic), how it left. -/
structure Step (σ : Type) where
  db : σ
  effects : List Effect
  left : Option Exit

/-- A `for ... range` loop whose body may leave the handler. -/
def forEach {σ α : Type} (body : σ → α → Step σ) : σ → List α → Step σ
  | db, [] => { db := db, effects := [], left := none }
  | db, a :: rest =>
    let s := body db a
    match s.left with
    | some e => { db := s.db, effects := s.effects, left := some e }
    | none =>
      let r := forEach body s.db rest
      { db := r.db, effects := s.effects ++ r.effects, left := r.left }

/-- The Go expression `m[k]` on a `map[int]int`: zero when the key is absent. -/
def mapGetD (m : Int → Option Int) (k : Int) : Int := (m k).getD 0

/-- The block that awards a tag, written four times in handlers.go:
`if !c.TimeTrial { if checkConditionCoords(c, sender) { success, err :=
tryWritePlayerTag(...); if err != nil { return err }; if success {
sender.sendMsg("b") } } } else if config.gameName == "2kki" {
sender.sendMsg("ss", "1430", "0") }`. -/
def awardTag {σ : Type} (env : Env σ) (sender : HubClient) (db : σ) (c : Condition) : Step σ :=
  if !c.TimeTrial then
    if env.checkConditionCoords c sender then
      let r := env.tryWritePlayerTag db sender.sClient.uuid c.ConditionId
      let call := Effect.tryWritePlayerTag sender.sClient.uuid c.ConditionId
      match r.2.err with
      | some e => { db := r.1, effects := [call], left := some (.returned (some e)) }
      | none =>
        { db := r.1
          effects := call :: (if r.2.success then [Effect.sendMsg [.str "b"]] else [])
          left := none }
    else { db := db, effects := [], left := none }
  else if env.gameName = "2kki" then
    { db := db, effects := [Effect.sendMsg [.str "ss", .str "1430", .str "0"]], left := none }
  else { db := db, effects := [], left := none }

/-- The computation of `validVars` in `handleSs`. -/
def validVars {σ : Type} (env : Env σ) (sender : HubClient) (c : Condition) : Bool :=
  if c.VarTrigger then
    if c.VarId > 0 then
      match sender.varCache c.VarId with
      | some value => (env.checkVar c c.VarId value).1
      | none => false
    else if c.VarIds.length > 0 then
      c.VarIds.all (fun vId =>
        match sender.varCache vId with
        | some value => (env.checkVar c vId value).1
        | none => false)
    else true
  else true

/-- The branch of `handleSs` taken once the switch side matched at its last
step: the award, or the hint `sv` for the first variable. -/
def ssFire {σ : Type} (env : Env σ) (sender : HubClient) (db : σ) (c : Condition) : Step σ :=
  if c.VarTrigger || (c.VarId == 0 && c.VarIds.length == 0) then awardTag env sender db c
  else
    let varId := if c.VarIds.length > 0 then c.VarIds.headD 0 else c.VarId
    { db := db, effects := [Effect.sendMsg [.str "sv", .int varId, .str "0"]], left := none }

/-- The body of the loop over the conditions in `handleSs`. -/
def ssCondition {σ : Type} (env : Env σ) (sender : HubClient) (switchId : Int) (value : Bool)
    (db : σ) (c : Condition) : Step σ :=
  if validVars env sender c then
    if switchId = c.SwitchId then
      if (env.checkSwitch c switchId value).1 then ssFire env sender db c
      else { db := db, effects := [], left := none }
    else if c.SwitchIds.length > 0 then
      let r := env.checkSwitch c switchId value
      if r.1 then
        if r.2 = (c.SwitchIds.length : Int) - 1 then ssFire env sender db c
        else
          match index c.SwitchIds (r.2 + 1) with
          | some next =>
            { db := db, effects := [Effect.sendMsg [.str "ss", .int next, .str "0"]],
              left := none }
          | none => { db := db, effects := [], left := some .panicked }
      else { db := db, effects := [], left := none }
    else { db := db, effects := [], left := none }
  else { db := db, effects := [], left := none }

/-- The body of the loop over the minigame configs in `handleSs`; `m` is
the loop index. -/
def ssMinigame {σ : Type} (env : Env σ) (sender : HubClient) (switchId : Int) (value : Bool)
    (db : σ) (entry : Nat × MinigameConfig) : Step σ :=
  let m := entry.1
  let minigame := entry.2
  if minigame.SwitchId = switchId && minigame.SwitchValue = value &&
      sender.minigameScores m < mapGetD sender.varCache minigame.VarId then
    { db := env.tryWritePlayerMinigameScore db sender.sClient.uuid minigame.MinigameId
        (mapGetD sender.varCache minigame.VarId)
      effects := [Effect.tryWritePlayerMinigameScore sender.sClient.uuid minigame.MinigameId
        (mapGetD sender.varCache minigame.VarId)]
      left := none }
  else { db := db, effects := [], left := none }

/-- The handler `handleSs` (command `ss`); `db` is the state of the
persistence collaborator before the call, and the state after it is
returned with the outcome. -/
def handleSs {σ : Type} (env : Env σ) (h : Hub) (db : σ) (msg : List String)
    (sender : HubClient) : Outcome × σ :=
  match msg with
  | [_, f1, f2] =>
    match atoi f1 with
    | .error e => (reject sender (some e), db)
    | .ok switchId =>
      match parseField f2 (fun v => decide (0 ≤ v) && decide (v ≤ 1)) with
      | .error e => (reject sender e, db)
      | .ok valueBin =>
        let value := valueBin == 1
        let sender := { sender with switchCache := mapSet sender.switchCache switchId value }
        if switchId = 1430 && env.gameName = "2kki" then
          ({ sender := sender
             effects := if value then [Effect.sendMsg [.str "sv", .str "88", .str "0"]] else []
             exit := .returned none }, db)
        else
          let mg := forEach (ssMinigame env sender switchId value) db
            sender.hub.minigameConfigs.enum
          let cs := forEach (ssCondition env sender switchId value) mg.db
            (env.globalConditions ++ h.conditions)
          ({ sender := sender
             effects := mg.effects ++ cs.effects
             exit := cs.left.getD (.returned none) }, cs.db)
  | _ => (reject sender (some .lengthMismatch), db)

/-- The loop of `handleSv` for the elapsed-time variable 88. -/
def svTimeTrial {σ : Type} (env : Env σ) (h : Hub) (sender : HubClient) (value : Int)
    (db : σ) (c : Condition) : Step σ :=
  if c.TimeTrial && decide (value < 3600) then
    if env.checkConditionCoords c sender then
      let r := env.tryWritePlayerTimeTrial db sender.sClient.uuid h.roomId value
      let call := Effect.tryWritePlayerTimeTrial sender.sClient.uuid h.roomId value
      match r.2.err with
      | some e => { db := r.1, effects := [call], left := some (.returned (some e)) }
      | none =>
        { db := r.1
          effects := call :: (if r.2.success then [Effect.sendMsg [.str "b"]] else [])
          left := none }
    else { db := db, effects := [], left := none }
  else { db := db, effects := [], left := none }

/-- The body of the loop over the minigame configs in `handleSv`. -/
def svMinigame {σ : Type} (env : Env σ) (sender : HubClient) (varId value : Int)
    (db : σ) (entry : Nat × MinigameConfig) : Step σ :=
  let m := entry.1
  let minigame := entry.2
  if minigame.VarId = varId && sender.minigameScores m < value then
    if minigame.SwitchId > 0 then
      { db := db, effects := [Effect.sendMsg [.str "ss", .int minigame.SwitchId, .str "0"]],
        left := none }
    else
      { db := env.tryWritePlayerMinigameScore db sender.sClient.uuid minigame.MinigameId value
        effects := [Effect.tryWritePlayerMinigameScore sender.sClient.uuid
          minigame.MinigameId value]
        left := none }
  else { db := db, effects := [], left := none }

/-- The computation of `validSwitches` in `handleSv`. -/
def validSwitches {σ : Type} (env : Env σ) (sender : HubClient) (c : Condition) : Bool :=
  if !c.VarTrigger then
    if c.SwitchId > 0 then
      match sender.switchCache c.SwitchId with
      | some value => (env.checkSwitch c c.SwitchId value).1
      | none => false
    else if c.SwitchIds.length > 0 then
      c.SwitchIds.all (fun sId =>
        match sender.switchCache sId with
        | some value => (env.checkSwitch c sId value).1
        | none => false)
    else true
  else true

/-- The branch of `handleSv` taken once the variable side matched at its
last step: the award, or the hint `ss` for the first switch. -/
def svFire {σ : Type} (env : Env σ) (sender : HubClient) (db : σ) (c : Condition) : Step σ :=
  if !c.VarTrigger || (c.SwitchId == 0 && c.SwitchIds.length == 0) then
    awardTag env sender db c
  else
    let switchId := if c.SwitchIds.length > 0 then c.SwitchIds.headD 0 else c.SwitchId
    { db := db, effects := [Effect.sendMsg [.str "ss", .int switchId, .str "0"]], left := none }

/-- The body of the loop over the conditions in `handleSv`. -/
def svCondition {σ : Type} (env : Env σ) (sender : HubClient) (varId value : Int)
    (db : σ) (c : Condition) : Step σ :=
  if validSwitches env sender c then
    if varId = c.VarId then
      if (env.checkVar c varId value).1 then svFire env sender db c
      else { db := db, effects := [], left := none }
    else if c.VarIds.length > 0 then
      let r := env.checkVar c varId value
      if r.1 then
        if r.2 = (c.VarIds.length : Int) - 1 then svFire env sender db c
        else
          match index c.VarIds (r.2 + 1) with
          | some next =>
            { db := db, effects := [Effect.sendMsg [.str "sv", .int next, .str "0"]],
              left := none }
          | none => { db := db, effects := [], left := some .panicked }
      else { db := db, effects := [], left := none }
    else { db := db, effects := [], left := none }
  else { db := db, effects := [], left := none }

/-- The handler `handleSv` (command `sv`). -/
def handleSv {σ : Type} (env : Env σ) (h : Hub) (db : σ) (msg : List String)
    (sender : HubClient) : Outcome × σ :=
  match msg with
  | [_, f1, f2] =>
    match atoi f1 with
    | .error e => (reject sender (some e), db)
    | .ok varId =>
      match atoi f2 with
      | .error e => (reject sender (some e), db)
      | .ok value =>
        let sender := { sender with varCache := mapSet sender.varCache varId value }
        let conditions := env.globalConditions ++ h.conditions
        if varId = 88 && env.gameName = "2kki" then
          let tt := forEach (svTimeTrial env h sender value) db conditions
          ({ sender := sender, effects := tt.effects,
             exit := tt.left.getD (.returned none) }, tt.db)
        else
          let mg := forEach (svMinigame env sender varId value) db
            sender.hub.minigameConfigs.enum
          let cs := forEach (svCondition env sender varId value) mg.db conditions
          ({ sender := sender
             effects := mg.effects ++ cs.effects
             exit := cs.left.getD (.returned none) }, cs.db)
  | _ => (reject sender (some .lengthMismatch), db)

/-! ### The other hub handlers -/

/-- The handler `handleIdent` (command `ident`). -/
def handleIdent (_h : Hub) (msg : List String) (sender : HubClient) : Outcome :=
  match msg with
  | [_] =>
    { sender := { sender with valid := true }
      effects := [Effect.sendMsg [.str "ident"], Effect.handleValidClient]
      exit := .returned none }
  | _ => reject sender (some .lengthMismatch)

/-- The handler `handleF` (command `f`). -/
def handleF (_h : Hub) (msg : List String) (sender : HubClient) : Outcome :=
  match msg with
  | [_, f1] =>
    match parseField f1 (fun v => decide (0 ≤ v) && decide (v ≤ 3)) with
    | .error e => reject sender e
    | .ok facing =>
      { sender := { sender with facing := facing }
        effects := [Effect.broadcast [.str "f", .int sender.sClient.id, .str f1]]
        exit := .returned none }
  | _ => reject sender (some .lengthMismatch)

/-- The handler `handleSpd` (command `spd`). -/
def handleSpd (_h : Hub) (msg : List String) (sender : HubClient) : Outcome :=
  match msg with
  | [_, f1] =>
    match atoi f1 with
    | .error e => reject sender (some e)
    | .ok spd =>
      if spd < 0 || spd > 10 then reject sender none
      else
        { sender := { sender with spd := spd }
          effects := [Effect.broadcast [.str "spd", .int sender.sClient.id, .str f1]]
          exit := .returned none }
  | _ => reject sender (some .lengthMismatch)

/-- The second test of `handleSpr`, which rejects the sprite name: in the
game `2kki` a name with none of the listed substrings, or (in any game) the
name of the `zenmaigaharaten_kisekae` outside room 176. -/
def spriteRestricted {σ : Type} (env : Env σ) (h : Hub) (name : String) : Bool :=
  (decide (env.gameName = "2kki") &&
    (!strContains name "syujinkou" && !strContains name "effect" &&
      !strContains name "yukihitsuji_game" && !strContains name "zenmaigaharaten_kisekae" &&
      !strContains name "主人公" && !strContains name "#null")) ||
  (strContains name "zenmaigaharaten_kisekae" && decide (h.roomId ≠ 176))

/-- The handler `handleSpr` (command `spr`). -/
def handleSpr {σ : Type} (env : Env σ) (h : Hub) (msg : List String) (sender : HubClient) :
    Outcome :=
  match msg with
  | [_, f1, f2] =>
    if !env.isValidSprite f1 then reject sender none
    else if spriteRestricted env h f1 then reject sender none
    else
      match parseField f2 (fun v => decide (0 ≤ v)) with
      | .error e => reject sender e
      | .ok index =>
        { sender := { sender with
            sClient := { sender.sClient with spriteName := f1, spriteIndex := index } }
          effects := [Effect.broadcast [.str "spr", .int sender.sClient.id, .strs [f1, f2]]]
          exit := .returned none }
  | _ => reject sender (some .lengthMismatch)

/-- The validation of `msg[1]` to `msg[5]` in `handleFl`, in source order:
red, green, blue, power, frames. -/
def parseFlash (f1 f2 f3 f4 f5 : String) :
    Except (Option Error) (Int × Int × Int × Int × Int) := do
  let red ← parseField f1 (fun v => decide (0 ≤ v) && decide (v ≤ 255))
  let green ← parseField f2 (fun v => decide (0 ≤ v) && decide (v ≤ 255))
  let blue ← parseField f3 (fun v => decide (0 ≤ v) && decide (v ≤ 255))
  let power ← parseField f4 (fun v => decide (0 ≤ v))
  let frames ← parseField f5 (fun v => decide (0 ≤ v))
  return (red, green, blue, power, frames)

/-- The handler `handleFl` (commands `fl` and `rfl`). -/
def handleFl (_h : Hub) (msg : List String) (sender : HubClient) : Outcome :=
  match msg with
  | [cmd, f1, f2, f3, f4, f5] =>
    match parseFlash f1 f2 f3 f4 f5 with
    | .error e => reject sender e
    | .ok (red, green, blue, power, frames) =>
      { sender :=
          if cmd = "rfl" then
            { sender with flash0 := red, flash1 := green, flash2 := blue, flash3 := power,
                          flash4 := frames, repeatingFlash := true }
          else sender
        effects := [Effect.broadcast [.str cmd, .int sender.sClient.id,
          .strs [f1, f2, f3, f4, f5]]]
        exit := .returned none }
  | _ => reject sender (some .lengthMismatch)

/-- The handler `handleRrfl` (command `rrfl`), which takes no message. -/
def handleRrfl (_h : Hub) (sender : HubClient) : Outcome :=
  { sender := { sender with repeatingFlash := false, flash0 := 0, flash1 := 0, flash2 := 0,
                            flash3 := 0, flash4 := 0 }
    effects := [Effect.broadcast [.str "rrfl", .int sender.sClient.id]]
    exit := .returned none }

/-- The handler `handleH` (command `h`). -/
def handleH (_h : Hub) (msg : List String) (sender : HubClient) : Outcome :=
  match msg with
  | [cmd, f1] =>
    match parseField f1 (fun v => decide (0 ≤ v) && decide (v ≤ 1)) with
    | .error e => reject sender e
    | .ok hiddenBin =>
      { sender := { sender with hidden := hiddenBin == 1 }
        effects := [Effect.broadcast [.str cmd, .int sender.sClient.id, .str f1]]
        exit := .returned none }
  | _ => reject sender (some .lengthMismatch)

/-- The handler `handleSys` (command `sys`). -/
def handleSys {σ : Type} (env : Env σ) (_h : Hub) (msg : List String) (sender : HubClient) :
    Outcome :=
  match msg with
  | [_, f1] =>
    if !env.isValidSystem f1 false then reject sender none
    else
      { sender := { sender with sClient := { sender.sClient with systemName := f1 } }
        effects := [Effect.broadcast [.str "sys", .int sender.sClient.id, .str f1]]
        exit := .returned none }
  | _ => reject sender (some .lengthMismatch)

/-- The validation of `msg[2]` to `msg[4]` in `handleSe`, in source order:
volume, tempo, balance. -/
def parseSound (f2 f3 f4 : String) : Except (Option Error) (Int × Int × Int) := do
  let volume ← parseField f2 (fun v => decide (0 ≤ v) && decide (v ≤ 100))
  let tempo ← parseField f3 (fun v => decide (10 ≤ v) && decide (v ≤ 400))
  let balance ← parseField f4 (fun v => decide (0 ≤ v) && decide (v ≤ 100))
  return (volume, tempo, balance)

/-- The handler `handleSe` (command `se`). -/
def handleSe {σ : Type} (env : Env σ) (_h : Hub) (msg : List String) (sender : HubClient) :
    Outcome :=
  match msg with
  | [_, f1, f2, f3, f4] =>
    if !env.isValidSound f1 then reject sender none
    else
      match parseSound f2 f3 f4 with
      | .error e => reject sender e
      | .ok _ =>
        { sender := sender
          effects := [Effect.broadcast [.str "se", .int sender.sClient.id,
            .strs [f1, f2, f3, f4]]]
          exit := .returned none }
  | _ => reject sender (some .lengthMismatch)

/-- The handler `handleSev` (command `sev`); `db` is the state of the
persistence collaborator before the call. -/
def handleSev {σ : Type} (env : Env σ) (h : Hub) (db : σ) (msg : List String)
    (sender : HubClient) : Outcome × σ :=
  match msg with
  | [_, f1, f2] =>
    match parseField f2 (fun v => decide (0 ≤ v) && decide (v ≤ 1)) with
    | .error e => (reject sender e, db)
    | .ok actionBin =>
      let triggerType := if actionBin = 1 then "eventAction" else "event"
      let pre := [Effect.checkHubConditions triggerType f1]
      let db1 := env.checkHubConditionsDb db h sender triggerType f1
      if sender.hub.roomId ≠ env.currentEventVmMapId then
        ({ sender := sender, effects := pre, exit := .returned none }, db1)
      else
        match atoi f1 with
        | .error e => ({ sender := sender, effects := pre, exit := .returned (some e) }, db1)
        | .ok eventIdInt =>
          if env.currentEventVmEventId ≠ eventIdInt then
            ({ sender := sender, effects := pre, exit := .returned none }, db1)
          else
            let r := env.tryCompleteEventVm db1 env.currentEventPeriodId sender.sClient.uuid
              env.currentEventVmMapId env.currentEventVmEventId
            let call := Effect.tryCompleteEventVm env.currentEventPeriodId sender.sClient.uuid
              env.currentEventVmMapId env.currentEventVmEventId
            match r.2.err with
            | some e =>
              ({ sender := sender, effects := pre ++ [call], exit := .returned (some e) }, r.1)
            | none =>
              ({ sender := sender
                 effects := pre ++ [call] ++
                   (if r.2.exp > -1 then [Effect.sessionSendMsg [.str "vm", .int r.2.exp]]
                    else [])
                 exit := .returned none }, r.1)
  | _ => (reject sender (some .lengthMismatch), db)

/-! ### The session handler `handleName` -/

/-- What a session handler call leaves behind. -/
structure SessionOutcome where
  sender : SessionClient
  effects : List Effect
  exit : Exit
  deriving DecidableEq, Repr

/-- The handler `handleName` (command `name`). The pointer `sender.hClient`
is the argument `hClient` (`none` is nil: the client is in no room); the
broadcast is the one of the hub of `hClient`, with `hClient` excluded. -/
def handleName (msg : List String) (sender : SessionClient) (hClient : Option HubClient) :
    SessionOutcome :=
  match hClient with
  | none => { sender := sender, effects := [], exit := .returned none }
  | some _ =>
    match msg with
    | [_, f1] =>
      if sender.name ≠ "" || !isOkString f1 || len f1 > 12 then
        { sender := sender, effects := [], exit := .returned none }
      else
        { sender := { sender with name := f1 }
          effects := [Effect.broadcast [.str "name", .int sender.id, .str f1]]
          exit := .returned none }
    | _ => { sender := sender, effects := [], exit := .returned (some .lengthMismatch) }

/-- A sequence of `name` commands of one client that stays in a room, one
after the other. -/
def runNames (hClient : HubClient) : List (List String) → SessionClient → SessionClient
  | [], sender => sender
  | msg :: rest, sender => runNames hClient rest (handleName msg sender (some hClient)).sender

/-! ### The session handler `handlePt` -/

/-- The struct `Party`, whose declaration is not in the sources: the two
fields that `handlePt` uses; `other` stands for the fields it does not
touch. -/
structure Party (ρ : Type) where
  OwnerUuid : String
  Pass : String
  other : ρ

/-- The functions `handlePt` calls and that are declared elsewhere. -/
structure PartyEnv (ρ : Type) where
  /-- The function `getPlayerPartyId(uuid) (int, error)`. -/
  getPlayerPartyId : String → Except Error Int
  /-- The function `getPartyData(uuid)`, which gives the party and an error. -/
  getPartyData : String → Except Error (Party ρ)
  /-- The call `json.Marshal(partyData)`. -/
  jsonMarshal : Party ρ → Except Error (List UInt8)

/-- The handler `handlePt` (command `pt`). -/
def handlePt {ρ : Type} (env : PartyEnv ρ) (sender : SessionClient) : SessionOutcome :=
  match env.getPlayerPartyId sender.uuid with
  | .error e => { sender := sender, effects := [], exit := .returned (some e) }
  | .ok partyId =>
    if partyId = 0 then
      { sender := sender, effects := []
        exit := .returned (some (.other "player not in a party")) }
    else
      match env.getPartyData sender.uuid with
      | .error e => { sender := sender, effects := [], exit := .returned (some e) }
      | .ok partyData =>
        let partyData :=
          if sender.uuid ≠ partyData.OwnerUuid then { partyData with Pass := "" } else partyData
        match env.jsonMarshal partyData with
        | .error e => { sender := sender, effects := [], exit := .returned (some e) }
        | .ok partyDataJson =>
          { sender := sender
            effects := [Effect.sessionSendMsg [.str "pt", .bytes partyDataJson]]
            exit := .returned none }

/-! ## The moderation endpoints of server/admin.go -/

/-- What the endpoints read of a `*http.Request`: the header `Authorization`
and the query parameters (`Get` gives the empty string for a parameter that
is absent). -/
structure AdminRequest where
  authorization : String
  query : String → String

/-- A call an endpoint makes, in the order of the calls. -/
inductive AdminEffect where
  /-- The call `handleError(w, r, message)`. -/
  | handleError (message : String)
  /-- The call `handleInternalError(w, r, err)`. -/
  | handleInternalError (err : Error)
  /-- The call `tryBanPlayer(senderUuid, recipientUuid)`. -/
  | tryBanPlayer (senderUuid recipientUuid : String)
  /-- The call `tryMutePlayer(senderUuid, recipientUuid)`. -/
  | tryMutePlayer (senderUuid recipientUuid : String)
  /-- The call `tryUnbanPlayer(senderUuid, recipientUuid)`. -/
  | tryUnbanPlayer (senderUuid recipientUuid : String)
  /-- The call `tryUnmutePlayer(senderUuid, recipientUuid)`. -/
  | tryUnmutePlayer (senderUuid recipientUuid : String)
  /-- The call `w.Write(body)`. -/
  | write (body : String)
  deriving DecidableEq, Repr

/-- The functions the endpoints call and that are declared elsewhere. -/
structure AdminEnv where
  /-- The function `getPlayerDataFromToken`: the results the endpoints keep,
  the uuid and the rank of the caller. -/
  getPlayerDataFromToken : String → String × Int
  /-- The function `getUuidFromName(name) (uuid string, err error)`. -/
  getUuidFromName : String → String × Option Error
  tryBanPlayer : String → String → Option Error
  tryMutePlayer : String → String → Option Error
  tryUnbanPlayer : String → String → Option Error
  tryUnmutePlayer : String → String → Option Error

/-- The block `if uuidParam == "" { ... }`, which is the same text in the four
endpoints: `some` is a `return` inside the block, with the calls made, and
`none` means that the function goes on after the block. The statement
`uuidParam, err := getUuidFromName(userParam)` declares a new `uuidParam`
inside the block, so the block leaves the variable `uuidParam` of the
function as it was. -/
def uuidParamBlock (env : AdminEnv) (r : AdminRequest) (uuidParam : String) :
    Option (List AdminEffect) :=
  if uuidParam = "" then
    let userParam := r.query "user"
    if userParam = "" then some [.handleError "uuid or user not specified"]
    else
      let inner := env.getUuidFromName userParam
      match inner.2 with
      | some err => some [.handleInternalError err]
      | none => if inner.1 = "" then some [.handleError "invalid user specified"] else none
  else none

/-- The endpoint `adminBan`. -/
def adminBan (env : AdminEnv) (r : AdminRequest) : List AdminEffect :=
  let uuid := (env.getPlayerDataFromToken r.authorization).1
  let rank := (env.getPlayerDataFromToken r.authorization).2
  if rank = 0 then [.handleError "access denied"]
  else
    let uuidParam := r.query "uuid"
    match uuidParamBlock env r uuidParam with
    | some out => out
    | none =>
      match env.tryBanPlayer uuid uuidParam with
      | some err => [.tryBanPlayer uuid uuidParam, .handleInternalError err]
      | none => [.tryBanPlayer uuid uuidParam, .write "ok"]

/-- The endpoint `adminMute`. -/
def adminMute (env : AdminEnv) (r : AdminRequest) : List AdminEffect :=
  let uuid := (env.getPlayerDataFromToken r.authorization).1
  let rank := (env.getPlayerDataFromToken r.authorization).2
  if rank = 0 then [.handleError "access denied"]
  else
    let uuidParam := r.query "uuid"
    match uuidParamBlock env r uuidParam with
    | some out => out
    | none =>
      match env.tryMutePlayer uuid uuidParam with
      | some err => [.tryMutePlayer uuid uuidParam, .handleInternalError err]
      | none => [.tryMutePlayer uuid uuidParam, .write "ok"]

/-- The endpoint `adminUnban`. -/
def adminUnban (env : AdminEnv) (r : AdminRequest) : List AdminEffect :=
  let uuid := (env.getPlayerDataFromToken r.authorization).1
  let rank := (env.getPlayerDataFromToken r.authorization).2
  if rank = 0 then [.handleError "access denied"]
  else
    let uuidParam := r.query "uuid"
    match uuidParamBlock env r uuidParam with
    | some out => out
    | none =>
      match env.tryUnbanPlayer uuid uuidParam with
      | some err => [.tryUnbanPlayer uuid uuidParam, .handleInternalError err]
      | none => [.tryUnbanPlayer uuid uuidParam, .write "ok"]

/-- The endpoint `adminUnmute`. -/
def adminUnmute (env : AdminEnv) (r : AdminRequest) : List AdminEffect :=
  let uuid := (env.getPlayerDataFromToken r.authorization).1
  let rank := (env.getPlayerDataFromToken r.authorization).2
  if rank = 0 then [.handleError "access denied"]
  else
    let uuidParam := r.query "uuid"
    match uuidParamBlock env r uuidParam with
    | some out => out
    | none =>
      match env.tryUnmutePlayer uuid uuidParam with
      | some err => [.tryUnmutePlayer uuid uuidParam, .handleInternalError err]
      | none => [.tryUnmutePlayer uuid uuidParam, .write "ok"]

/-! ### The absent helpers, modelled from the spec -/

/-- The acceptance of a value by a variable match spec: equality, or
membership in the inclusive range. -/
def VarSpec.accepts : VarSpec → Int → Bool
  | .exact v, value => decide (value = v)
  | .range lo hi, value => decide (lo ≤ value) && decide (value ≤ hi)

/-- The first position of `id` in a chain, with the spec at that position. -/
def chainFind {α : Type} : List Int → List α → Int → Nat → Option (Nat × α)
  | [], _, _, _ => none
  | _ :: _, [], _, _ => none
  | i :: ids, v :: vs, id, k => if i = id then some (k, v) else chainFind ids vs id (k + 1)

/-- Modelled from the spec: `checkSwitch`, which is not in the sources. "If
the driving side is a single id equal to `switchId` and its match spec
accepts `newValue`: this condition fires. If the driving side is a chain
containing `switchId` at some position `k`: accept only if `newValue`
matches the spec at position `k` itself (i.e., `checkSwitch` reports which
position matched)"; "for a switch it is a boolean equality". -/
def checkSwitch (c : Condition) (switchId : Int) (value : Bool) : Bool × Int :=
  if switchId = c.SwitchId then (decide (c.SwitchValue = value), 0)
  else
    match chainFind c.SwitchIds c.SwitchValues switchId 0 with
    | some (k, required) => if required = value then (true, (k : Int)) else (false, 0)
    | none => (false, 0)

/-- Modelled from the spec: `checkVar`, which is not in the sources; the
counterpart of `checkSwitch` for variables ("symmetric for variable
writes"), a match spec being "either an exact value or an inclusive
range". -/
def checkVar (c : Condition) (varId : Int) (value : Int) : Bool × Int :=
  if varId = c.VarId then (c.VarMatch.accepts value, 0)
  else
    match chainFind c.VarIds c.VarMatches varId 0 with
    | some (k, required) => if required.accepts value then (true, (k : Int)) else (false, 0)
    | none => (false, 0)

/-- The decoding of a frame into its fields, on characters: the function
`strings.Split(frame, delim)` for the one-character separator `delim`;
`cur` holds the characters of the current field, last first. -/
def splitOnDelim : List Char → List Char → List String
  | [], cur => [⟨cur.reverse⟩]
  | c :: cs, cur =>
    if c = '\uffff' then ⟨cur.reverse⟩ :: splitOnDelim cs [] else splitOnDelim cs (c :: cur)

/-- Modelled from the spec: the route of the dispatcher `processMsg` (which
is not in the sources) for an erase frame: "Codec decodes a command →
dispatched to a handler". The frame is split into its fields and the fields
of an `rp` command go to `handleRp`; frames of other commands are not
routed by this model. -/
def processErase (h : Hub) (frame : String) (sender : HubClient) : Outcome :=
  match splitOnDelim frame.data [] with
  | "rp" :: args => handleRp h ("rp" :: args) sender
  | _ => reject sender (some (.other "not an erase frame"))

/-- Modelled from the spec: the tag award of the persistence collaborator,
`tryWritePlayerTag(uuid, conditionId) → (newlyAwarded bool, err)`, "safe to
invoke multiple times for the same pair without duplicate effect, returning
whether this call was the one that newly wrote it". The state is the list of
the pairs written so far. -/
def tagStore (db : List (String × String)) (uuid conditionId : String) :
    List (String × String) × WriteResult :=
  if (uuid, conditionId) ∈ db then (db, { success := false, err := none })
  else ((uuid, conditionId) :: db, { success := true, err := none })

/-- In the words of the claims: `msg` is a valid 20-field show command for
the picture id `picId`, and `pic` is the picture it describes, field by
field (name, both flags, position, map anchor, pan, magnify,
transparencies, tint, effect mode and power). -/
structure ValidShow {σ : Type} (env : Env σ) (msg : List String) (picId : Int)
    (pic : Picture) : Prop where
  length : msg.length = 20
  command : field msg 0 = "ap"
  id_parses : atoi (field msg 1) = .ok picId
  id_pos : 1 ≤ picId
  positionX : atoi (field msg 2) = .ok pic.positionX
  positionY : atoi (field msg 3) = .ok pic.positionY
  mapX : atoi (field msg 4) = .ok pic.mapX
  mapY : atoi (field msg 5) = .ok pic.mapY
  panX : atoi (field msg 6) = .ok pic.panX
  panY : atoi (field msg 7) = .ok pic.panY
  magnify : atoi (field msg 8) = .ok pic.magnify
  magnify_range : 0 ≤ pic.magnify
  topTrans : atoi (field msg 9) = .ok pic.topTrans
  topTrans_range : 0 ≤ pic.topTrans
  bottomTrans : atoi (field msg 10) = .ok pic.bottomTrans
  bottomTrans_range : 0 ≤ pic.bottomTrans
  red : atoi (field msg 11) = .ok pic.red
  red_range : 0 ≤ pic.red ∧ pic.red ≤ 200
  green : atoi (field msg 12) = .ok pic.green
  green_range : 0 ≤ pic.green ∧ pic.green ≤ 200
  blue : atoi (field msg 13) = .ok pic.blue
  blue_range : 0 ≤ pic.blue ∧ pic.blue ≤ 200
  saturation : atoi (field msg 14) = .ok pic.saturation
  saturation_range : 0 ≤ pic.saturation ∧ pic.saturation ≤ 200
  effectMode : atoi (field msg 15) = .ok pic.effectMode
  effectMode_range : 0 ≤ pic.effectMode
  effectPower : atoi (field msg 16) = .ok pic.effectPower
  name : field msg 17 = pic.name
  name_allowed : env.isValidPicName pic.name = true
  name_nonempty : pic.name ≠ ""
  useTransparentColor :
    atoi (field msg 18) = .ok (if pic.useTransparentColor then 1 else 0)
  fixedToMap : atoi (field msg 19) = .ok (if pic.fixedToMap then 1 else 0)

/-! ### Reading a trace with the answers of the persistence collaborator -/

/-- The badge notices of a trace matched against the answers of the
collaborator. The trace is read from the collaborator state `db`, each
persistence call being made again in the state reached; `pending` says that
the entry just read is a `tryWritePlayerTag` or `tryWritePlayerTimeTrial`
call answered `(true, nil)`, for which the badge notice `b` is due. The
reading fails (`none`) when a due notice does not come next, or when a
notice `b` comes that is not due; otherwise it yields the collaborator state
at the end of the trace. So it succeeds exactly when every call that newly
awarded is followed at once by one notice and there is no other notice. -/
def badgeReplay {σ : Type} (env : Env σ) : σ → Bool → List Effect → Option σ
  | db, pending, [] => if pending then none else some db
  | db, pending, e :: rest =>
    match e with
    | .sendMsg segs =>
      if segs = [.str "b"] then
        if pending then badgeReplay env db false rest else none
      else if pending then none else badgeReplay env db false rest
    | .tryWritePlayerTag u c =>
      if pending then none
      else
        badgeReplay env (env.tryWritePlayerTag db u c).1
          ((env.tryWritePlayerTag db u c).2.success &&
            (env.tryWritePlayerTag db u c).2.err.isNone) rest
    | .tryWritePlayerTimeTrial u r v =>
      if pending then none
      else
        badgeReplay env (env.tryWritePlayerTimeTrial db u r v).1
          ((env.tryWritePlayerTimeTrial db u r v).2.success &&
            (env.tryWritePlayerTimeTrial db u r v).2.err.isNone) rest
    | .tryWritePlayerMinigameScore u g s =>
      if pending then none
      else badgeReplay env (env.tryWritePlayerMinigameScore db u g s) false rest
    | _ => if pending then none else badgeReplay env db false rest

/-- The errors of the collaborator in a trace matched against the way the
handler ended. The trace is read from the collaborator state `db`, each
persistence call being made again in the state reached; at the first
`tryWritePlayerTag` or `tryWritePlayerTimeTrial` call that answers with an
error, the trace must end and `exit` must be the return of that very
error. -/
def errorReplay {σ : Type} (env : Env σ) (exit : Exit) : σ → List Effect → Bool
  | _, [] => true
  | db, e :: rest =>
    match e with
    | .tryWritePlayerTag u c =>
      match (env.tryWritePlayerTag db u c).2.err with
      | some err => rest.isEmpty && decide (exit = .returned (some err))
      | none => errorReplay env exit (env.tryWritePlayerTag db u c).1 rest
    | .tryWritePlayerTimeTrial u r v =>
      match (env.tryWritePlayerTimeTrial db u r v).2.err with
      | some err => rest.isEmpty && decide (exit = .returned (some err))
      | none => errorReplay env exit (env.tryWritePlayerTimeTrial db u r v).1 rest
    | .tryWritePlayerMinigameScore u g s =>
      errorReplay env exit (env.tryWritePlayerMinigameScore db u g s) rest
    | _ => errorReplay env exit db rest

/-- A stretch of a handler read by `errorReplay`, from the collaborator
state `db`: when the handler goes on after it, the stretch holds no failing
call and leads to the state `s.db`; when the handler leaves in it, the
stretch ends at the failing call whose error is returned (or holds no
failing call at all). -/
def Step.errorsStop {σ : Type} (env : Env σ) (db : σ) (s : Step σ) : Prop :=
  (s.left = none → ∀ (exit : Exit) (rest : List Effect),
    errorReplay env exit db (s.effects ++ rest) = errorReplay env exit s.db rest) ∧
  (∀ x, s.left = some x → errorReplay env x db s.effects = true)

/-! ### Valid commands, in the words of the command table of the spec -/

/-- The field parses as an integer that satisfies `ok`. -/
def fieldOk (s : String) (ok : Int → Bool) : Bool :=
  match atoi s with
  | .ok v => ok v
  | .error _ => false

/-- Commands `m` and `tp`: 3 fields, x and y integers `≥ 0`. -/
def validMove (msg : List String) : Bool :=
  match msg with
  | [_, x, y] => fieldOk x (fun v => decide (0 ≤ v)) && fieldOk y (fun v => decide (0 ≤ v))
  | _ => false

/-- Command `f`: 2 fields, facing in `[0,3]`. -/
def validFacing (msg : List String) : Bool :=
  match msg with
  | [_, f] => fieldOk f (fun v => decide (0 ≤ v) && decide (v ≤ 3))
  | _ => false

/-- Command `spd`: 2 fields, speed in `[0,10]`. -/
def validSpeed (msg : List String) : Bool :=
  match msg with
  | [_, s] => fieldOk s (fun v => decide (0 ≤ v) && decide (v ≤ 10))
  | _ => false

/-- Command `spr`: 3 fields, name allow-listed and not restricted by the
deployment profile, index `≥ 0`. -/
def validSprite {σ : Type} (env : Env σ) (h : Hub) (msg : List String) : Bool :=
  match msg with
  | [_, name, i] =>
    env.isValidSprite name && !spriteRestricted env h name &&
      fieldOk i (fun v => decide (0 ≤ v))
  | _ => false

/-- Commands `fl` and `rfl`: 6 fields, r, g, b in `[0,255]`, power `≥ 0`,
frames `≥ 0`. -/
def validFlash (msg : List String) : Bool :=
  match msg with
  | [_, r, g, b, p, f] =>
    fieldOk r (fun v => decide (0 ≤ v) && decide (v ≤ 255)) &&
    fieldOk g (fun v => decide (0 ≤ v) && decide (v ≤ 255)) &&
    fieldOk b (fun v => decide (0 ≤ v) && decide (v ≤ 255)) &&
    fieldOk p (fun v => decide (0 ≤ v)) && fieldOk f (fun v => decide (0 ≤ v))
  | _ => false

/-- Command `h`: 2 fields, hidden in `{0,1}`. -/
def validHidden (msg : List String) : Bool :=
  match msg with
  | [_, f] => fieldOk f (fun v => decide (0 ≤ v) && decide (v ≤ 1))
  | _ => false

/-- Command `sys`: 2 fields, system name allow-listed. -/
def validSystem {σ : Type} (env : Env σ) (msg : List String) : Bool :=
  match msg with
  | [_, name] => env.isValidSystem name false
  | _ => false

/-- Command `se`: 5 fields, name allow-listed, volume in `[0,100]`, tempo in
`[10,400]`, balance in `[0,100]`. -/
def validSound {σ : Type} (env : Env σ) (msg : List String) : Bool :=
  match msg with
  | [_, name, v, t, b] =>
    env.isValidSound name &&
    fieldOk v (fun v => decide (0 ≤ v) && decide (v ≤ 100)) &&
    fieldOk t (fun v => decide (10 ≤ v) && decide (v ≤ 400)) &&
    fieldOk b (fun v => decide (0 ≤ v) && decide (v ≤ 100))
  | _ => false

/-- Command `rp`: 2 fields, picture id an integer `≥ 1`. -/
def validErase (msg : List String) : Bool :=
  match msg with
  | [_, i] => fieldOk i (fun v => decide (1 ≤ v))
  | _ => false

/-- The fields 1 to 16 of a picture command (`p` or `ap`): the id an integer
`≥ 1`; position, map anchor and pan integers; magnify, top and bottom
transparency `≥ 0`; red, green, blue and saturation in `[0,200]`; effect mode
`≥ 0`; effect power an integer. -/
def validPicFields (msg : List String) : Bool :=
  fieldOk (field msg 1) (fun v => decide (1 ≤ v)) &&
  fieldOk (field msg 2) (fun _ => true) &&
  fieldOk (field msg 3) (fun _ => true) &&
  fieldOk (field msg 4) (fun _ => true) &&
  fieldOk (field msg 5) (fun _ => true) &&
  fieldOk (field msg 6) (fun _ => true) &&
  fieldOk (field msg 7) (fun _ => true) &&
  fieldOk (field msg 8) (fun v => decide (0 ≤ v)) &&
  fieldOk (field msg 9) (fun v => decide (0 ≤ v)) &&
  fieldOk (field msg 10) (fun v => decide (0 ≤ v)) &&
  fieldOk (field msg 11) (fun v => decide (0 ≤ v) && decide (v ≤ 200)) &&
  fieldOk (field msg 12) (fun v => decide (0 ≤ v) && decide (v ≤ 200)) &&
  fieldOk (field msg 13) (fun v => decide (0 ≤ v) && decide (v ≤ 200)) &&
  fieldOk (field msg 14) (fun v => decide (0 ≤ v) && decide (v ≤ 200)) &&
  fieldOk (field msg 15) (fun v => decide (0 ≤ v)) &&
  fieldOk (field msg 16) (fun _ => true)

/-- The fields of a show command (`ap`) after the command name: the fields 1
to 16 of a picture command, the overlay name allow-listed and not empty, and
both flags in `{0,1}`. -/
def validShowFields {σ : Type} (env : Env σ) (msg : List String) : Bool :=
  env.isValidPicName (field msg 17) && validPicFields msg && decide (field msg 17 ≠ "") &&
  fieldOk (field msg 18) (fun v => decide (0 ≤ v) && decide (v ≤ 1)) &&
  fieldOk (field msg 19) (fun v => decide (0 ≤ v) && decide (v ≤ 1))

/-! ### The ranges of the client state -/

/-- The ranges of a stored picture: magnify, top and bottom transparency and
effect mode `≥ 0`; red, green, blue and saturation in `[0,200]`. -/
def pictureInRange (p : Picture) : Prop :=
  0 ≤ p.magnify ∧ 0 ≤ p.topTrans ∧ 0 ≤ p.bottomTrans ∧ 0 ≤ p.effectMode ∧
  (0 ≤ p.red ∧ p.red ≤ 200) ∧ (0 ≤ p.green ∧ p.green ≤ 200) ∧
  (0 ≤ p.blue ∧ p.blue ≤ 200) ∧ (0 ≤ p.saturation ∧ p.saturation ≤ 200)

/-- The ranges of the client state: coordinates `≥ 0`, facing in `[0,3]`,
speed in `[0,10]`, stored flash red, green and blue in `[0,255]` with power
and frames `≥ 0`, every key of the picture map `≥ 1` and every stored picture
in range. -/
def clientInRange (s : HubClient) : Prop :=
  0 ≤ s.x ∧ 0 ≤ s.y ∧ (0 ≤ s.facing ∧ s.facing ≤ 3) ∧ (0 ≤ s.spd ∧ s.spd ≤ 10) ∧
  (0 ≤ s.flash0 ∧ s.flash0 ≤ 255) ∧ (0 ≤ s.flash1 ∧ s.flash1 ≤ 255) ∧
  (0 ≤ s.flash2 ∧ s.flash2 ≤ 255) ∧ 0 ≤ s.flash3 ∧ 0 ≤ s.flash4 ∧
  ∀ (k : Int) (p : Picture), s.pictures k = some p → 1 ≤ k ∧ pictureInRange p

/-! ## Concrete data for the instances below -/

/-- A condition driven by the switch chain 1, 2, 3 (each to be set to true),
without variable side, time trial or coordinate gate. -/
def chainCondition : Condition :=
  { ConditionId := "chain", VarTrigger := false, SwitchId := 0, SwitchIds := [1, 2, 3],
    VarId := 0, VarIds := [], TimeTrial := false, SwitchValue := false,
    SwitchValues := [true, true, true], VarMatch := .exact 0, VarMatches := [] }

/-- A switch-triggered condition (`VarTrigger` unset): switch 5 set to true,
with the requirement that variable 7 equals 3. -/
def gatedCondition : Condition :=
  { ConditionId := "gated", VarTrigger := false, SwitchId := 5, SwitchIds := [],
    VarId := 7, VarIds := [], TimeTrial := false, SwitchValue := true,
    SwitchValues := [], VarMatch := .exact 3, VarMatches := [] }

/-- A room with the given conditions and no minigame. -/
def roomWith (conditions : List Condition) : Hub :=
  { roomId := 1, conditions := conditions, minigameConfigs := [] }

/-- A freshly connected client of the given room: named, not muted, at the
origin, with no picture and empty switch and variable caches. -/
def freshClient (hub : Hub) : HubClient :=
  { sClient := { id := 7, uuid := "u7", name := "ann", systemName := "sys",
                 spriteName := "", spriteIndex := 0, muted := false }
    hub := hub, valid := true, x := 0, y := 0, facing := 0, spd := 0
    flash0 := 0, flash1 := 0, flash2 := 0, flash3 := 0, flash4 := 0
    repeatingFlash := false, hidden := false, syncCoords := false
    pictures := fun _ => none, switchCache := fun _ => none, varCache := fun _ => none
    minigameScores := fun _ => 0 }

/-- An environment: no global condition, every name valid, the modelled
`checkSwitch` and `checkVar`, a coordinate gate that always passes and the
modelled tag store. -/
def exampleEnv : Env (List (String × String)) :=
  { gameName := "2kki", globalConditions := []
    isValidSprite := fun _ => true, isValidSystem := fun _ _ => true
    isValidSound := fun _ => true, isValidPicName := fun _ => true
    checkVar := checkVar, checkSwitch := checkSwitch
    checkConditionCoords := fun _ _ => true
    tryWritePlayerTag := tagStore
    tryWritePlayerTimeTrial := fun db _ _ _ => (db, { success := false, err := none })
    tryWritePlayerMinigameScore := fun db _ _ _ => db
    processMsg := processErase
    currentEventPeriodId := 1, currentEventVmMapId := 1, currentEventVmEventId := 5
    tryCompleteEventVm := fun db _ _ _ _ => (db, { exp := 10, err := none })
    checkHubConditionsDb := fun db _ _ _ _ => db }

/-- A picture, for clients that already show one. -/
def oldPicture : Picture :=
  { name := "old", useTransparentColor := true, fixedToMap := true,
    positionX := 1, positionY := 2, mapX := 3, mapY := 4, panX := 5, panY := 6,
    magnify := 7, topTrans := 8, bottomTrans := 9, red := 10, green := 11, blue := 12,
    saturation := 13, effectMode := 14, effectPower := 15 }

/-- A show command for picture 4. -/
def showCommand : List String :=
  ["ap", "4", "10", "20", "30", "40", "50", "60", "100", "0", "0", "100", "110", "120",
   "130", "1", "2", "cloud", "1", "0"]

/-- The picture `showCommand` describes. -/
def shownPicture : Picture :=
  { name := "cloud", useTransparentColor := true, fixedToMap := false,
    positionX := 10, positionY := 20, mapX := 30, mapY := 40, panX := 50, panY := 60,
    magnify := 100, topTrans := 0, bottomTrans := 0, red := 100, green := 110, blue := 120,
    saturation := 130, effectMode := 1, effectPower := 2 }

/-- A move command for picture 9 with every field valid. -/
def moveCommand : List String :=
  ["p", "9", "10", "20", "30", "40", "50", "60", "100", "0", "0", "100", "110", "120",
   "130", "1", "2", "30"]

/-- A client that shows `oldPicture` at id 4. -/
def clientWithPicture : HubClient :=
  { freshClient (roomWith []) with pictures := mapSet (fun _ => none) 4 oldPicture }

/-- A chat message of 51 characters and 153 bytes. -/
def longChat : String := ⟨List.replicate 51 '€'⟩

/-- A muted client. -/
def mutedClient : HubClient :=
  { freshClient (roomWith []) with
    sClient := { (freshClient (roomWith [])).sClient with muted := true } }

/-- A session client without a name. -/
def namelessSession : SessionClient :=
  { id := 7, uuid := "u7", name := "", systemName := "sys", spriteName := "",
    spriteIndex := 0, muted := false }

/-- A tag store that fails with an error for the condition `broken` and is
the modelled tag store otherwise. -/
def failingTagStore (db : List (String × String)) (uuid conditionId : String) :
    List (String × String) × WriteResult :=
  if conditionId = "broken" then (db, { success := false, err := some (.other "db down") })
  else tagStore db uuid conditionId

/-- The example environment with the failing tag store. -/
def failingEnv : Env (List (String × String)) :=
  { exampleEnv with tryWritePlayerTag := failingTagStore }

/-- A condition on switch 5 set to true, without variable side. -/
def switchCondition (conditionId : String) : Condition :=
  { ConditionId := conditionId, VarTrigger := false, SwitchId := 5, SwitchIds := [],
    VarId := 0, VarIds := [], TimeTrial := false, SwitchValue := true,
    SwitchValues := [], VarMatch := .exact 0, VarMatches := [] }

/-- A time-trial condition. -/
def timeTrialCondition : Condition :=
  { ConditionId := "trial", VarTrigger := false, SwitchId := 0, SwitchIds := [],
    VarId := 0, VarIds := [], TimeTrial := true, SwitchValue := false,
    SwitchValues := [], VarMatch := .exact 0, VarMatches := [] }

/-- A party environment: every player is in party 3, owned by `u1`, with the
given password; the serialisation writes the owner and the password. -/
def examplePartyEnv (pass : String) : PartyEnv Unit :=
  { getPlayerPartyId := fun _ => .ok 3
    getPartyData := fun _ => .ok { OwnerUuid := "u1", Pass := pass, other := () }
    jsonMarshal := fun p => .ok (toBytes (p.OwnerUuid ++ ":" ++ p.Pass)) }

/-- The session client that owns the party of `examplePartyEnv`. -/
def ownerSession : SessionClient :=
  { namelessSession with uuid := "u1" }

/-- An environment for the endpoints: the token `admin-token` belongs to the
moderator `admin` of rank 1, the name `bob` resolves to the uuid `u-bob`, and
every moderation operation succeeds. -/
def exampleAdminEnv : AdminEnv :=
  { getPlayerDataFromToken := fun token => if token = "admin-token" then ("admin", 1) else ("", 0)
    getUuidFromName := fun name => if name = "bob" then ("u-bob", none) else ("", none)
    tryBanPlayer := fun _ _ => none, tryMutePlayer := fun _ _ => none
    tryUnbanPlayer := fun _ _ => none, tryUnmutePlayer := fun _ _ => none }

/-- The request of the moderator with the parameter `user=bob` and no `uuid`. -/
def requestByName : AdminRequest :=
  { authorization := "admin-token", query := fun key => if key = "user" then "bob" else "" }

/-- The request of the moderator with the parameter `uuid=u-bob`. -/
def requestByUuid : AdminRequest :=
  { authorization := "admin-token", query := fun key => if key = "uuid" then "u-bob" else "" }

/-- A variable-gated condition with `VarTrigger` set: switch 5 set to true
awards the tag once variable 7 equals 3. -/
def varGatedCondition : Condition :=
  { ConditionId := "vargated", VarTrigger := true, SwitchId := 5, SwitchIds := [],
    VarId := 7, VarIds := [], TimeTrial := false, SwitchValue := true,
    SwitchValues := [], VarMatch := .exact 3, VarMatches := [] }

/-- A client of the room of `varGatedCondition` whose variable 7 is 3. -/
def clientWithVar : HubClient :=
  { freshClient (roomWith [varGatedCondition]) with varCache := mapSet (fun _ => none) 7 3 }

/-- The example show command with the picture id 0, which the validation
rejects. -/
def rejectedShowCommand : List String :=
  ["ap", "0", "10", "20", "30", "40", "50", "60", "100", "0", "0", "100", "110", "120",
   "130", "1", "2", "cloud", "1", "0"]

/-- The chain 1430, 2, 3 (each to be set to true), without variable side. -/
def chainFrom1430 : Condition :=
  { chainCondition with ConditionId := "chain1430", SwitchIds := [1430, 2, 3] }

/-- The chain 5, 6, 7 (each to be set to true), without variable side. -/
def chainFrom5 : Condition :=
  { chainCondition with ConditionId := "chain5", SwitchIds := [5, 6, 7] }

/-! ## Theorems -/

/-! ### Movement (`handleM`) -/

/-- C3, as the code has it: a 3-field command whose coordinates parse as
integers `x, y ≥ 0` is accepted and stores exactly `(x, y)`. For `m` the
trace holds exactly one broadcast, with segments the (skipped) sender, the
name `m`, the sender id and the two coordinate fields, encoded by `buildMsg`
as `m`, id, x, y joined by the primary separator. For any other command
name (`tp`) the handler only evaluates the `teleport` condition class and
issues no broadcast. -/
theorem handleM_valid (h : Hub) (cmd f1 f2 : String) (sender : HubClient) (x y : Int)
    (hx : atoi f1 = .ok x) (hx0 : 0 ≤ x) (hy : atoi f2 = .ok y) (hy0 : 0 ≤ y) :
    (handleM h [cmd, f1, f2] sender).sender.x = x ∧
    (handleM h [cmd, f1, f2] sender).sender.y = y ∧
    (handleM h [cmd, f1, f2] sender).exit = .returned none ∧
    (cmd = "m" →
      broadcasts (handleM h [cmd, f1, f2] sender).effects =
        [[.unsupported, .str "m", .int sender.sClient.id, .strs [f1, f2]]] ∧
      buildMsg [.unsupported, .str "m", .int sender.sClient.id, .strs [f1, f2]] =
        toBytes "m" ++ toBytes delim ++ toBytes (itoa sender.sClient.id) ++ toBytes delim ++
          toBytes f1 ++ toBytes delim ++ toBytes f2) ∧
    (cmd ≠ "m" →
      (handleM h [cmd, f1, f2] sender).effects = [Effect.checkHubConditions "teleport" ""] ∧
      broadcasts (handleM h [cmd, f1, f2] sender).effects = []) := by
  have hx1 : ¬ x < 0 := by omega
  have hy1 : ¬ y < 0 := by omega
  refine ⟨?_, ?_, ?_, ?_, ?_⟩
  · simp only [handleM, hx, hy, hx1, hy1, if_false]
    split <;> rfl
  · simp only [handleM, hx, hy, hx1, hy1, if_false]
    split <;> rfl
  · simp only [handleM, hx, hy, hx1, hy1, if_false]
    split <;> rfl
  · intro hm
    subst hm
    constructor
    · simp only [handleM, hx, hy, hx1, hy1, if_false, if_true]
      cases sender.syncCoords <;> simp [broadcasts]
    · simp [buildMsg, renderSegment, joinElems, List.append_assoc]
  · intro hm
    simp [handleM, hx, hy, hx1, hy1, hm, broadcasts]

/-- C3, witness: the command `m 3 4` of a fresh client. -/
theorem handleM_valid_witness :
    (handleM (roomWith []) ["m", "3", "4"] (freshClient (roomWith []))).sender.x = 3 ∧
    broadcasts (handleM (roomWith []) ["m", "3", "4"] (freshClient (roomWith []))).effects =
      [[.unsupported, .str "m", .int 7, .strs ["3", "4"]]] :=
  have w := handleM_valid (roomWith []) "m" "3" "4" (freshClient (roomWith [])) 3 4
    (by decide) (by decide) (by decide) (by decide)
  ⟨w.1, (w.2.2.2.1 rfl).1⟩

/-- C3, counterexample: the valid command `tp 3 4` stores the coordinates
but no broadcast is issued, so the other members of the room receive no
teleport echo. -/
theorem handleM_tp_no_broadcast :
    atoi "3" = .ok 3 ∧ atoi "4" = .ok 4 ∧
    (handleM (roomWith []) ["tp", "3", "4"] (freshClient (roomWith []))).sender.x = 3 ∧
    (handleM (roomWith []) ["tp", "3", "4"] (freshClient (roomWith []))).sender.y = 4 ∧
    broadcasts (handleM (roomWith []) ["tp", "3", "4"] (freshClient (roomWith []))).effects
      = [] := by
  decide

/-! ### Pictures: erase and move of an absent id -/

/-- Deleting an absent key leaves a map as it is. -/
theorem mapDelete_absent {α : Type} (m : Int → Option α) (k : Int) (hk : m k = none) :
    mapDelete m k = m := by
  funext j
  unfold mapDelete
  split
  · next hj => rw [hj, hk]
  · rfl

/-- C5, as the code has it: an erase command whose id is an integer `≥ 1`
without entry in the sender's pictures returns nil and leaves the client
state unchanged, but it is echoed all the same: the trace is exactly one
broadcast `rp`, sender id, id field. -/
theorem handleRp_absent (h : Hub) (cmd f1 : String) (sender : HubClient) (picId : Int)
    (hid : atoi f1 = .ok picId) (h1 : 1 ≤ picId) (habs : sender.pictures picId = none) :
    (handleRp h [cmd, f1] sender).effects =
      [Effect.broadcast [.str "rp", .int sender.sClient.id, .str f1]] ∧
    (handleRp h [cmd, f1] sender).exit = .returned none ∧
    (handleRp h [cmd, f1] sender).sender = sender := by
  have h1n : ¬ picId < 1 := by omega
  refine ⟨?_, ?_, ?_⟩
  · simp only [handleRp, hid, h1n, if_false]
  · simp only [handleRp, hid, h1n, if_false]
  · simp only [handleRp, hid, h1n, if_false, mapDelete_absent _ _ habs]

/-- C5, witness: `rp 5` of a fresh client, which shows no picture. -/
theorem handleRp_absent_witness :
    (handleRp (roomWith []) ["rp", "5"] (freshClient (roomWith []))).effects =
      [Effect.broadcast [.str "rp", .int 7, .str "5"]] :=
  (handleRp_absent (roomWith []) "rp" "5" (freshClient (roomWith [])) 5
    (by decide) (by decide) rfl).1

/-- C5, counterexample: `rp 5` of a client that has no picture 5 issues a
broadcast. -/
theorem handleRp_absent_broadcasts :
    atoi "5" = .ok 5 ∧ (freshClient (roomWith [])).pictures 5 = none ∧
    broadcasts (handleRp (roomWith []) ["rp", "5"] (freshClient (roomWith []))).effects ≠
      [] := by
  decide


/-- A validated field is accepted exactly when it parses and is in range. -/
theorem parseField_ok_iff (s : String) (ok : Int → Bool) (v : Int) :
    parseField s ok = .ok v ↔ atoi s = .ok v ∧ ok v = true := by
  unfold parseField
  cases hs : atoi s with
  | error e => simp
  | ok w =>
    by_cases hw : ok w = true
    · simp only [hw, if_true, Except.ok.injEq]
      constructor
      · intro hwv; subst hwv; exact ⟨rfl, hw⟩
      · intro hwv; exact hwv.1
    · simp only [hw]
      constructor
      · intro hwv; cases hwv
      · intro hwv
        have : w = v := by simpa using hwv.1
        subst this
        exact absurd hwv.2 hw

/-- A validated field yields a non-nil error only when it does not parse. -/
theorem parseField_error_some (s : String) (ok : Int → Bool) (e : Error) :
    parseField s ok = .error (some e) → atoi s = .error e := by
  unfold parseField
  cases hs : atoi s with
  | error e2 => simp
  | ok w =>
    by_cases hw : ok w = true <;> simp [hw]

/-- When a sequence of two steps succeeds, both steps do. -/
theorem bind_ok {ε α β : Type} (x : Except ε α) (f : α → Except ε β) (b : β) :
    (x >>= f) = .ok b ↔ ∃ a, x = .ok a ∧ f a = .ok b := by
  cases x <;> simp [bind, Except.bind]

/-- When a sequence of two steps fails, the first fails or the second does. -/
theorem bind_error {ε α β : Type} (x : Except ε α) (f : α → Except ε β) (e : ε) :
    (x >>= f) = .error e ↔ x = .error e ∨ ∃ a, x = .ok a ∧ f a = .error e := by
  cases x <;> simp [bind, Except.bind]

/-- The picture id that the validation of `handleP` accepts is the parsed
field 1, and it is at least 1. -/
theorem parsePicArgs_picId (msg : List String) (a : PicArgs) (h : parsePicArgs msg = .ok a) :
    atoi (field msg 1) = .ok a.picId ∧ 1 ≤ a.picId := by
  unfold parsePicArgs at h
  simp only [bind_ok, parseField_ok_iff, pure, Except.pure, Except.ok.injEq] at h
  obtain ⟨v1, ⟨h1, h1r⟩, h⟩ := h
  obtain ⟨v2, _, v3, _, v4, _, v5, _, v6, _, v7, _, v8, _, v9, _, v10, _, v11, _, v12, _,
    v13, _, v14, _, v15, _, v16, _, h⟩ := h
  subst h
  exact ⟨h1, by simpa using h1r⟩

/-- A non-nil error of the validation of `handleP` is the parse error of one
of the fields 1 to 16. -/
theorem parsePicArgs_error (msg : List String) (e : Error)
    (h : parsePicArgs msg = .error (some e)) :
    ∃ i, 1 ≤ i ∧ i ≤ 16 ∧ atoi (field msg i) = .error e := by
  unfold parsePicArgs at h
  simp only [bind_error, pure, Except.pure] at h
  iterate 16
    rcases h with h | ⟨_, _, h⟩
    · refine ⟨_, ?_, ?_, parseField_error_some _ _ _ h⟩ <;> omega
  cases h

/-- C6, as the code has it: an 18-field move command whose id is an integer
(`≥ 1` or not) without entry in the sender's pictures issues no broadcast (it makes
no call at all) and leaves the client state unchanged. The fields 2 to 16
are validated before the lookup, so the handler returns nil or the parse
error of one of these fields; when they all parse as integers it returns
nil. -/
theorem handleP_move_absent {σ : Type} (env : Env σ) (h : Hub) (msg : List String)
    (sender : HubClient) (picId : Int)
    (hlen : msg.length = 18) (hcmd : field msg 0 = "p")
    (hid : atoi (field msg 1) = .ok picId) (habs : sender.pictures picId = none) :
    (handleP env h msg sender).effects = [] ∧
    (handleP env h msg sender).sender = sender ∧
    ((handleP env h msg sender).exit = .returned none ∨
      ∃ i e, 2 ≤ i ∧ i ≤ 16 ∧ atoi (field msg i) = .error e ∧
        (handleP env h msg sender).exit = .returned (some e)) ∧
    ((∀ i, 2 ≤ i → i ≤ 16 → ∃ v, atoi (field msg i) = .ok v) →
      (handleP env h msg sender).exit = .returned none) := by
  obtain ⟨cmd, rest, rfl⟩ : ∃ cmd rest, msg = cmd :: rest := by
    cases msg with
    | nil => simp at hlen
    | cons c r => exact ⟨c, r, rfl⟩
  have hc : cmd = "p" := by simpa [field] using hcmd
  subst hc
  have key : handleP env h ("p" :: rest) sender =
      match parsePicArgs ("p" :: rest) with
      | .error e => { sender := sender, effects := [], exit := .returned e }
      | .ok _ => { sender := sender, effects := [], exit := .returned none } := by
    unfold handleP
    have hne : ("p" == "ap") = false := by decide
    simp only [hne, hlen]
    cases hp : parsePicArgs ("p" :: rest) with
    | error e => simp
    | ok a =>
      have ha := (parsePicArgs_picId _ _ hp).1
      rw [hid] at ha
      have hpa : a.picId = picId := by simpa using ha.symm
      simp [hpa, habs]
  rw [key]
  cases hp : parsePicArgs ("p" :: rest) with
  | ok a => simp
  | error e =>
    cases e with
    | none => simp
    | some err =>
      obtain ⟨i, hi1, hi16, hie⟩ := parsePicArgs_error _ _ hp
      have hi2 : 2 ≤ i := by
        rcases Nat.lt_or_ge i 2 with hlt | hge
        · have : i = 1 := by omega
          subst this
          rw [hid] at hie
          cases hie
        · exact hge
      refine ⟨rfl, rfl, Or.inr ⟨i, err, hi2, hi16, hie, rfl⟩, ?_⟩
      intro hall
      obtain ⟨v, hv⟩ := hall i hi2 hi16
      rw [hv] at hie
      cases hie

/-- C6, witness: a valid move of picture 9 by a fresh client, which shows no
picture. -/
theorem handleP_move_absent_witness :
    (handleP exampleEnv (roomWith []) moveCommand (freshClient (roomWith []))).effects = [] ∧
    (handleP exampleEnv (roomWith []) moveCommand (freshClient (roomWith []))).sender =
      freshClient (roomWith []) :=
  have w := handleP_move_absent exampleEnv (roomWith []) moveCommand
    (freshClient (roomWith [])) 9 (by decide) (by decide) (by decide) rfl
  ⟨w.1, w.2.1⟩

/-- C6, counterexample: an 18-field move command for the absent picture 1
whose field 2 is not a number returns an error. -/
theorem handleP_move_absent_error :
    atoi "1" = .ok 1 ∧ (freshClient (roomWith [])).pictures 1 = none ∧
    (handleP exampleEnv (roomWith [])
      ["p", "1", "x", "0", "0", "0", "0", "0", "0", "0", "0", "0", "0", "0", "0", "0", "0", "0"]
      (freshClient (roomWith []))).exit = .returned (some (.num "x" .errSyntax)) := by
  decide

/-! ### Chat (`handleSay`) -/

/-- The UTF-8 encoding of a list of characters has at least one byte per
character. -/
theorem length_le_utf8ByteSize_go (cs : List Char) :
    cs.length ≤ String.utf8ByteSize.go cs := by
  induction cs with
  | nil => simp [String.utf8ByteSize.go]
  | cons c cs ih =>
    have hc := Char.utf8Size_pos c
    simp only [String.utf8ByteSize.go, List.length_cons]
    omega

/-- A string has at least as many bytes as characters. -/
theorem length_le_len (s : String) : s.length ≤ len s := by
  cases s with
  | mk cs => exact length_le_utf8ByteSize_go cs

/-- C7: whatever the command and the sender, `handleSay` makes no call to
the outside, hence issues no broadcast, when the sender's name or system
name is empty or when the trimmed message (field 1) has more than 150
characters. -/
theorem handleSay_rejects (h : Hub) (msg : List String) (sender : HubClient)
    (hrej : sender.sClient.name = "" ∨ sender.sClient.systemName = "" ∨
      150 < (trimSpace (field msg 1)).length) :
    (handleSay h msg sender).effects = [] ∧
    broadcasts (handleSay h msg sender).effects = [] := by
  have key : (handleSay h msg sender).effects = [] := by
    unfold handleSay
    split
    · rfl
    · split
      · next c f1 =>
        have hf : field [c, f1] 1 = f1 := rfl
        rw [hf] at hrej
        have hcond : (decide (sender.sClient.name = "") || decide (sender.sClient.systemName = "")
            || decide (trimSpace f1 = "") || decide (len (trimSpace f1) > 150)) = true := by
          rcases hrej with hn | hs | hl
          · simp [hn]
          · simp [hs]
          · have := length_le_len (trimSpace f1)
            have h150 : len (trimSpace f1) > 150 := by omega
            simp [h150]
        simp only [hcond, if_true, reject]
      · rfl
  rw [key]
  exact ⟨rfl, rfl⟩

set_option maxRecDepth 8000 in
/-- C7, witness: a chat message of 151 characters. -/
theorem handleSay_rejects_witness :
    (handleSay (roomWith []) ["say", ⟨List.replicate 151 'a'⟩]
      (freshClient (roomWith []))).effects = [] :=
  (handleSay_rejects (roomWith []) ["say", ⟨List.replicate 151 'a'⟩]
    (freshClient (roomWith [])) (Or.inr (Or.inr (by decide)))).1

/-- C8, as the code has it: for an unmuted sender with non-empty name and
system name, a 2-field say command whose trimmed message is non-empty and
at most 150 bytes long in UTF-8 (`len` counts bytes) yields exactly one
call to the outside, the broadcast of `say`, sender id, trimmed message;
nil is returned and the sender is unchanged. -/
theorem handleSay_accepts (h : Hub) (cmd f1 : String) (sender : HubClient)
    (hmuted : sender.sClient.muted = false) (hname : sender.sClient.name ≠ "")
    (hsys : sender.sClient.systemName ≠ "") (hne : trimSpace f1 ≠ "")
    (hlen : len (trimSpace f1) ≤ 150) :
    (handleSay h [cmd, f1] sender).effects =
      [Effect.broadcast [.str "say", .int sender.sClient.id, .str (trimSpace f1)]] ∧
    (handleSay h [cmd, f1] sender).exit = .returned none ∧
    (handleSay h [cmd, f1] sender).sender = sender := by
  have h150 : ¬ len (trimSpace f1) > 150 := by omega
  simp [handleSay, hmuted, hname, hsys, hne, h150]

/-- C8, witness: `say hello` (with blanks around) of a fresh client. -/
theorem handleSay_accepts_witness :
    (handleSay (roomWith []) ["say", " hello "] (freshClient (roomWith []))).effects =
      [Effect.broadcast [.str "say", .int 7, .str "hello"]] :=
  (handleSay_accepts (roomWith []) "say" " hello " (freshClient (roomWith []))
    rfl (by decide) (by decide) (by decide) (by decide)).1

/-- C8, counterexample: a message of 51 characters, each of three bytes, is
non-empty and at most 150 characters long, and an unmuted, named sender
gets no broadcast for it. -/
theorem handleSay_counts_bytes :
    (freshClient (roomWith [])).sClient.muted = false ∧
    (freshClient (roomWith [])).sClient.name ≠ "" ∧
    (freshClient (roomWith [])).sClient.systemName ≠ "" ∧
    trimSpace longChat ≠ "" ∧ (trimSpace longChat).length = 51 ∧
    broadcasts (handleSay (roomWith []) ["say", longChat] (freshClient (roomWith []))).effects
      = [] := by
  decide

/-! ### The codec (`buildMsg`) -/

/-- The bytes of the primary separator, U+FFFF in UTF-8. -/
theorem toBytes_delim : toBytes delim = [239, 191, 191] := by decide

/-- The inner loop of `buildMsg` is the library function `intercalate` with
the primary separator. -/
theorem joinElems_eq_intercalate (xs : List (List UInt8)) :
    joinElems xs = (toBytes delim).intercalate xs := by
  induction xs with
  | nil => rfl
  | cons x rest ih =>
    cases rest with
    | nil => simp [joinElems, List.intercalate]
    | cons y rest =>
      rw [joinElems, ih]
      simp [List.intercalate, List.intersperse, List.append_assoc]

/-- Joining two non-empty lists of fields. -/
theorem joinElems_append (xs ys : List (List UInt8)) (hx : xs ≠ []) (hy : ys ≠ []) :
    joinElems (xs ++ ys) = joinElems xs ++ toBytes delim ++ joinElems ys := by
  induction xs with
  | nil => exact absurd rfl hx
  | cons x rest ih =>
    cases rest with
    | nil =>
      cases ys with
      | nil => exact absurd rfl hy
      | cons y ys => simp [joinElems]
    | cons z rest =>
      have := ih (by simp)
      simp only [List.cons_append] at this ⊢
      rw [joinElems, this, joinElems]
      simp [List.append_assoc]

/-- The fields of a list are never none, and joining them gives back the
joined elements. -/
theorem elemFields_spec (elems : List (List UInt8)) :
    elemFields elems ≠ [] ∧ joinElems (elemFields elems) = joinElems elems := by
  cases elems with
  | nil => exact ⟨by simp [elemFields], rfl⟩
  | cons e es => exact ⟨by simp [elemFields], rfl⟩

/-- A supported segment renders as its fields joined by the primary
separator, and has at least one field. -/
theorem renderSegment_fields (seg : Segment) (hs : seg ≠ .unsupported) :
    segmentFields seg ≠ [] ∧ renderSegment seg = some (joinElems (segmentFields seg)) := by
  cases seg with
  | unsupported => exact absurd rfl hs
  | byte b => exact ⟨by simp [segmentFields], rfl⟩
  | bytes bs => exact ⟨by simp [segmentFields], rfl⟩
  | str s => exact ⟨by simp [segmentFields], rfl⟩
  | int n => exact ⟨by simp [segmentFields], rfl⟩
  | bool b => cases b <;> exact ⟨by simp [segmentFields], by decide⟩
  | strs l =>
    exact ⟨(elemFields_spec _).1, by simp [renderSegment, segmentFields, (elemFields_spec _).2]⟩
  | strSet l =>
    exact ⟨(elemFields_spec _).1, by simp [renderSegment, segmentFields, (elemFields_spec _).2]⟩
  | ints l =>
    exact ⟨(elemFields_spec _).1, by simp [renderSegment, segmentFields, (elemFields_spec _).2]⟩
  | intSet l =>
    exact ⟨(elemFields_spec _).1, by simp [renderSegment, segmentFields, (elemFields_spec _).2]⟩

/-- The frame of supported segments is the fields of all segments, in order,
joined by the primary separator. -/
theorem buildMsg_eq_joinElems (segs : List Segment) (hsup : ∀ seg ∈ segs, seg ≠ .unsupported) :
    buildMsg segs = joinElems (segs.flatMap segmentFields) := by
  induction segs with
  | nil => rfl
  | cons seg rest ih =>
    have hseg := renderSegment_fields seg (hsup seg (List.mem_cons_self _ _))
    have ihr := ih (fun s hs => hsup s (List.mem_cons_of_mem _ hs))
    rw [buildMsg, hseg.2]
    cases rest with
    | nil => simp [buildMsg]
    | cons r rest =>
      have hr := renderSegment_fields r (hsup r (by simp))
      have hne : (r :: rest).flatMap segmentFields ≠ [] := by
        simp only [List.flatMap_cons]
        intro habs
        exact hr.1 (List.append_eq_nil.mp habs).1
      rw [List.flatMap_cons, joinElems_append _ _ hseg.1 hne, ihr]
      simp

/-- The scan at a byte outside a matched separator. -/
theorem splitLoop_cons_zero (sep : List UInt8) (c : UInt8) (cs cur : List UInt8) :
    splitLoop sep (c :: cs) 0 cur =
      if sep.isPrefixOf (c :: cs) then cur.reverse :: splitLoop sep cs (sep.length - 1) []
      else splitLoop sep cs 0 (c :: cur) := rfl

/-- The scan at a byte inside a matched separator. -/
theorem splitLoop_cons_succ (sep : List UInt8) (c : UInt8) (cs cur : List UInt8) (k : Nat) :
    splitLoop sep (c :: cs) (k + 1) cur = splitLoop sep cs k cur := rfl

/-- Passing over the rest of a matched separator. -/
theorem splitLoop_skip (sep a rest cur : List UInt8) :
    splitLoop sep (a ++ rest) a.length cur = splitLoop sep rest 0 cur := by
  induction a with
  | nil =>
    cases rest with
    | nil => rfl
    | cons r rs => rfl
  | cons x a ih =>
    rw [List.cons_append, List.length_cons, splitLoop_cons_succ]
    exact ih

/-- At a separator the current field ends. -/
theorem splitLoop_sep (sep rest cur : List UInt8) (hsep : sep ≠ []) :
    splitLoop sep (sep ++ rest) 0 cur = cur.reverse :: splitLoop sep rest 0 [] := by
  cases sep with
  | nil => exact absurd rfl hsep
  | cons c s =>
    have hp : (c :: s).isPrefixOf (c :: (s ++ rest)) = true := by
      rw [List.isPrefixOf_iff_prefix]
      exact List.prefix_append (c :: s) rest
    rw [List.cons_append, splitLoop_cons_zero, if_pos hp, List.length_cons,
      Nat.add_sub_cancel, splitLoop_skip]

/-- A field in which, followed by `tail`, no separator begins is read as a
whole. -/
theorem splitLoop_field (sep f tail cur : List UInt8)
    (hfree : ∀ q, q ≠ [] → q <:+ f → sep.isPrefixOf (q ++ tail) = false) :
    splitLoop sep (f ++ tail) 0 cur = splitLoop sep tail 0 (f.reverse ++ cur) := by
  induction f generalizing cur with
  | nil => rfl
  | cons x f ih =>
    have hx := hfree (x :: f) (by simp) (List.suffix_refl _)
    rw [List.cons_append] at hx
    rw [List.cons_append, splitLoop_cons_zero, hx, if_neg (by simp), ih]
    · simp
    · intro q hq hsuf
      exact hfree q hq (List.suffix_cons_iff.mpr (Or.inr hsuf))

/-- In bytes that do not contain the separator, no suffix starts with it. -/
theorem containsBytes_false (sep f : List UInt8) (hf : containsBytes sep f = false) :
    ∀ q, q <:+ f → sep.isPrefixOf q = false := by
  induction f with
  | nil =>
    intro q hq
    have : q = [] := List.suffix_nil.mp hq
    subst this
    simpa [containsBytes] using hf
  | cons x f ih =>
    intro q hq
    simp only [containsBytes, Bool.or_eq_false_iff] at hf
    rcases List.suffix_cons_iff.mp hq with rfl | hq2
    · exact hf.1
    · exact ih hf.2 q hq2

/-- The primary separator does not overlap itself: after bytes that do not
start with it, no separator begins before the next one. -/
theorem delim_no_overlap (q rest : List UInt8) (hq : q ≠ [])
    (hfree : (toBytes delim).isPrefixOf q = false) :
    (toBytes delim).isPrefixOf (q ++ (toBytes delim ++ rest)) = false ∧
    (toBytes delim).isPrefixOf (q ++ []) = false := by
  rw [toBytes_delim] at hfree ⊢
  refine ⟨?_, by simpa using hfree⟩
  match q, hq, hfree with
  | [a], _, _ => simp [List.isPrefixOf]
  | [a, b], _, _ => simp [List.isPrefixOf]
  | a :: b :: c :: q2, _, hfree =>
    simp only [List.isPrefixOf, List.cons_append, Bool.and_true] at hfree ⊢
    exact hfree

/-- Splitting joined fields that do not contain the separator gives the
fields back. -/
theorem splitLoop_joinElems (f : List UInt8) (fs : List (List UInt8)) (cur : List UInt8)
    (hfree : ∀ g ∈ f :: fs, containsBytes (toBytes delim) g = false) :
    splitLoop (toBytes delim) (joinElems (f :: fs)) 0 cur = (cur.reverse ++ f) :: fs := by
  induction fs generalizing f cur with
  | nil =>
    have hf := containsBytes_false _ _ (hfree f (by simp))
    have := splitLoop_field (toBytes delim) f [] cur (fun q hq hsuf =>
      (delim_no_overlap q [] hq (hf q hsuf)).2)
    simp only [List.append_nil] at this
    simp [joinElems, this, splitLoop]
  | cons g gs ih =>
    have hf := containsBytes_false _ _ (hfree f (by simp))
    have hstep := splitLoop_field (toBytes delim) f (toBytes delim ++ joinElems (g :: gs)) cur
      (fun q hq hsuf => (delim_no_overlap q _ hq (hf q hsuf)).1)
    have hsep : toBytes delim ≠ [] := by rw [toBytes_delim]; simp
    rw [joinElems, List.append_assoc, hstep, splitLoop_sep _ _ _ hsep,
      ih g [] (fun x hx => hfree x (List.mem_cons_of_mem _ hx))]
    simp

/-- C9, as the code has it: for a non-empty list of segments of supported
kinds whose fields do not contain the primary separator, splitting the frame
of `buildMsg` on the primary separator yields the fields of the segments in
the original order: one field, its rendering, for each string, integer or
boolean (and byte or byte block), and for each list one field per element
(a single empty field for an empty list), since list elements are joined by
the same separator as the segments. -/
theorem splitFields_buildMsg (segs : List Segment) (hne : segs ≠ [])
    (hsup : ∀ seg ∈ segs, seg ≠ .unsupported)
    (hfree : ∀ seg ∈ segs, ∀ f ∈ segmentFields seg, containsBytes (toBytes delim) f = false) :
    splitFields (buildMsg segs) = segs.flatMap segmentFields := by
  rw [buildMsg_eq_joinElems segs hsup, splitFields]
  cases hfl : segs.flatMap segmentFields with
  | nil =>
    cases segs with
    | nil => exact absurd rfl hne
    | cons s rest =>
      have hs := (renderSegment_fields s (hsup s (by simp))).1
      simp only [List.flatMap_cons] at hfl
      exact absurd (List.append_eq_nil.mp hfl).1 hs
  | cons f fs =>
    have hall : ∀ g ∈ f :: fs, containsBytes (toBytes delim) g = false := by
      intro g hg
      rw [← hfl] at hg
      obtain ⟨seg, hseg, hgs⟩ := List.mem_flatMap.mp hg
      exact hfree seg hseg g hgs
    simpa using splitLoop_joinElems f fs [] hall

/-- C9, witness: the frame of a move echo, a string, an integer and a list
of two strings, splits into four fields. -/
theorem splitFields_buildMsg_witness :
    splitFields (buildMsg [.str "m", .int 7, .bool true, .strs ["3", "4"]]) =
      [toBytes "m", toBytes "7", toBytes "1", toBytes "3", toBytes "4"] :=
  splitFields_buildMsg [.str "m", .int 7, .bool true, .strs ["3", "4"]] (by decide)
    (by decide) (by decide)

/-- C9, counterexample: three segments, a string, an integer and an ordered
list of two strings, none containing a separator, split into four fields,
not into one field per segment. -/
theorem splitFields_buildMsg_list_flattened :
    containsBytes (toBytes delim) (toBytes "m") = false ∧
    containsBytes (toBytes delim) (toBytes (itoa 7)) = false ∧
    containsBytes (toBytes delim) (toBytes "3") = false ∧
    containsBytes (toBytes delim) (toBytes "4") = false ∧
    containsBytes (toBytes mdelim) (buildMsg [.str "m", .int 7, .strs ["3", "4"]]) = false ∧
    [Segment.str "m", .int 7, .strs ["3", "4"]].length = 3 ∧
    splitFields (buildMsg [.str "m", .int 7, .strs ["3", "4"]]) =
      [toBytes "m", toBytes "7", toBytes "3", toBytes "4"] := by
  decide

/-- C10, as the code has it: `buildMsg` joins the elements of an ordered
string list or integer list, in list order, by the primary separator
`delim`, the separator that also joins the top-level segments: a list
segment alone renders as its elements interleaved with `delim`, and a frame
of supported segments is the renderings interleaved with `delim`. -/
theorem buildMsg_lists_use_delim :
    (∀ l : List String,
      buildMsg [.strs l] = (toBytes delim).intercalate (l.map toBytes)) ∧
    (∀ l : List Int,
      buildMsg [.ints l] = (toBytes delim).intercalate (l.map (fun n => toBytes (itoa n)))) ∧
    (∀ a b : String, buildMsg [.strs [a, b]] = toBytes a ++ toBytes delim ++ toBytes b) ∧
    (∀ (segs : List Segment) (renderings : List (List UInt8)),
      segs.map renderSegment = renderings.map some →
      buildMsg segs = (toBytes delim).intercalate renderings) := by
  refine ⟨?_, ?_, ?_, ?_⟩
  · intro l
    simp [buildMsg, renderSegment, joinElems_eq_intercalate]
  · intro l
    simp [buildMsg, renderSegment, joinElems_eq_intercalate]
  · intro a b
    simp [buildMsg, renderSegment, joinElems]
  · intro segs renderings hmap
    rw [← joinElems_eq_intercalate]
    induction segs generalizing renderings with
    | nil =>
      cases renderings with
      | nil => rfl
      | cons r rs => simp at hmap
    | cons seg rest ih =>
      cases renderings with
      | nil => simp at hmap
      | cons r rs =>
        simp only [List.map_cons, List.cons.injEq] at hmap
        rw [buildMsg, hmap.1, ih rs hmap.2]
        cases rest with
        | nil =>
          cases rs with
          | nil => simp [joinElems]
          | cons r2 rs => simp at hmap
        | cons s2 rest =>
          cases rs with
          | nil => simp at hmap
          | cons r2 rs => simp [joinElems]

/-- C10, counterexample: the list of the two strings `a` and `b` is rendered
with the primary separator U+FFFF between them, not with the secondary
separator U+FFFE. -/
theorem buildMsg_list_not_mdelim :
    buildMsg [.strs ["a", "b"]] = toBytes "a" ++ toBytes delim ++ toBytes "b" ∧
    buildMsg [.strs ["a", "b"]] ≠ toBytes "a" ++ toBytes mdelim ++ toBytes "b" ∧
    buildMsg [.ints [1, 2]] ≠ toBytes "1" ++ toBytes mdelim ++ toBytes "2" := by
  decide

/-! ### Pictures: show at an occupied id -/

/-- The validation of `handleP` accepts a valid show command, with the
values of the picture it describes. -/
theorem parsePicArgs_of_validShow {σ : Type} (env : Env σ) (msg : List String) (picId : Int)
    (pic : Picture) (hv : ValidShow env msg picId pic) :
    parsePicArgs msg = .ok
      { picId := picId, positionX := pic.positionX, positionY := pic.positionY,
        mapX := pic.mapX, mapY := pic.mapY, panX := pic.panX, panY := pic.panY,
        magnify := pic.magnify, topTrans := pic.topTrans, bottomTrans := pic.bottomTrans,
        red := pic.red, green := pic.green, blue := pic.blue, saturation := pic.saturation,
        effectMode := pic.effectMode, effectPower := pic.effectPower } := by
  have p1 := (parseField_ok_iff (field msg 1) (fun v => decide (1 ≤ v)) picId).mpr
    ⟨hv.id_parses, by simp [hv.id_pos]⟩
  have p2 := (parseField_ok_iff (field msg 2) (fun _ => true) _).mpr ⟨hv.positionX, rfl⟩
  have p3 := (parseField_ok_iff (field msg 3) (fun _ => true) _).mpr ⟨hv.positionY, rfl⟩
  have p4 := (parseField_ok_iff (field msg 4) (fun _ => true) _).mpr ⟨hv.mapX, rfl⟩
  have p5 := (parseField_ok_iff (field msg 5) (fun _ => true) _).mpr ⟨hv.mapY, rfl⟩
  have p6 := (parseField_ok_iff (field msg 6) (fun _ => true) _).mpr ⟨hv.panX, rfl⟩
  have p7 := (parseField_ok_iff (field msg 7) (fun _ => true) _).mpr ⟨hv.panY, rfl⟩
  have p8 := (parseField_ok_iff (field msg 8) (fun v => decide (0 ≤ v)) _).mpr
    ⟨hv.magnify, by simp [hv.magnify_range]⟩
  have p9 := (parseField_ok_iff (field msg 9) (fun v => decide (0 ≤ v)) _).mpr
    ⟨hv.topTrans, by simp [hv.topTrans_range]⟩
  have p10 := (parseField_ok_iff (field msg 10) (fun v => decide (0 ≤ v)) _).mpr
    ⟨hv.bottomTrans, by simp [hv.bottomTrans_range]⟩
  have p11 := (parseField_ok_iff (field msg 11)
    (fun v => decide (0 ≤ v) && decide (v ≤ 200)) _).mpr
    ⟨hv.red, by simp [hv.red_range.1, hv.red_range.2]⟩
  have p12 := (parseField_ok_iff (field msg 12)
    (fun v => decide (0 ≤ v) && decide (v ≤ 200)) _).mpr
    ⟨hv.green, by simp [hv.green_range.1, hv.green_range.2]⟩
  have p13 := (parseField_ok_iff (field msg 13)
    (fun v => decide (0 ≤ v) && decide (v ≤ 200)) _).mpr
    ⟨hv.blue, by simp [hv.blue_range.1, hv.blue_range.2]⟩
  have p14 := (parseField_ok_iff (field msg 14)
    (fun v => decide (0 ≤ v) && decide (v ≤ 200)) _).mpr
    ⟨hv.saturation, by simp [hv.saturation_range.1, hv.saturation_range.2]⟩
  have p15 := (parseField_ok_iff (field msg 15) (fun v => decide (0 ≤ v)) _).mpr
    ⟨hv.effectMode, by simp [hv.effectMode_range]⟩
  have p16 := (parseField_ok_iff (field msg 16) (fun _ => true) _).mpr ⟨hv.effectPower, rfl⟩
  simp only [parsePicArgs, p1, p2, p3, p4, p5, p6, p7, p8, p9, p10, p11, p12, p13, p14, p15,
    p16, bind, Except.bind, pure, Except.pure]

/-- C4: when picture `picId` is present and `msg` is a valid show command
for it, and the dispatcher hands the erase frame `rp`, id to `handleRp`,
then `handleP` broadcasts the erase echo (rp, sender id, id) and then the
show echo (ap, sender id, the arguments of the command), in that order and
no other broadcast, after one evaluation of the `picture` condition class;
it returns nil, and the picture stored at `picId` is exactly the picture
the command describes, whatever the old picture was; the other pictures are
untouched. -/
theorem handleP_show_replaces {σ : Type} (env : Env σ) (h : Hub) (msg : List String)
    (sender : HubClient) (picId : Int) (pic old : Picture)
    (hv : ValidShow env msg picId pic) (hold : sender.pictures picId = some old)
    (hroute : env.processMsg h ("rp" ++ delim ++ field msg 1) sender =
      handleRp h ["rp", field msg 1] sender) :
    (handleP env h msg sender).effects =
      [Effect.checkHubConditions "picture" pic.name,
       Effect.broadcast [.str "rp", .int sender.sClient.id, .str (field msg 1)],
       Effect.broadcast [.str "ap", .int sender.sClient.id, .strs (msg.drop 1)]] ∧
    broadcasts (handleP env h msg sender).effects =
      [[.str "rp", .int sender.sClient.id, .str (field msg 1)],
       [.str "ap", .int sender.sClient.id, .strs (msg.drop 1)]] ∧
    (handleP env h msg sender).exit = .returned none ∧
    (handleP env h msg sender).sender.pictures picId = some pic ∧
    (∀ j, j ≠ picId → (handleP env h msg sender).sender.pictures j = sender.pictures j) := by
  obtain ⟨cmd, rest, rfl⟩ : ∃ cmd rest, msg = cmd :: rest := by
    cases msg with
    | nil => exact absurd hv.length (by simp)
    | cons c r => exact ⟨c, r, rfl⟩
  have hc : cmd = "ap" := by simpa [field] using hv.command
  subst hc
  have hargs := parsePicArgs_of_validShow env _ picId pic hv
  have hname := hv.name
  have hlen := hv.length
  have hallowed : env.isValidPicName (field ("ap" :: rest) 17) = true := by
    rw [hname]; exact hv.name_allowed
  have hne : ¬ field ("ap" :: rest) 17 = "" := by rw [hname]; exact hv.name_nonempty
  have p18 := (parseField_ok_iff (field ("ap" :: rest) 18)
    (fun v => decide (0 ≤ v) && decide (v ≤ 1)) _).mpr
    ⟨hv.useTransparentColor, by cases pic.useTransparentColor <;> decide⟩
  have p19 := (parseField_ok_iff (field ("ap" :: rest) 19)
    (fun v => decide (0 ≤ v) && decide (v ≤ 1)) _).mpr
    ⟨hv.fixedToMap, by cases pic.fixedToMap <;> decide⟩
  have hrp : handleRp h ["rp", field ("ap" :: rest) 1] sender =
      { sender := { sender with pictures := mapDelete sender.pictures picId }
        effects := [Effect.broadcast [.str "rp", .int sender.sClient.id,
          .str (field ("ap" :: rest) 1)]]
        exit := .returned none } := by
    have h1n : ¬ picId < 1 := by have := hv.id_pos; omega
    simp only [handleRp, hv.id_parses, h1n, if_false]
  have hpic : (Picture.new pic.name (((if pic.useTransparentColor then 1 else 0) : Int) == 1)
      (((if pic.fixedToMap then 1 else 0) : Int) == 1)).assign
      { picId := picId, positionX := pic.positionX, positionY := pic.positionY,
        mapX := pic.mapX, mapY := pic.mapY, panX := pic.panX, panY := pic.panY,
        magnify := pic.magnify, topTrans := pic.topTrans, bottomTrans := pic.bottomTrans,
        red := pic.red, green := pic.green, blue := pic.blue, saturation := pic.saturation,
        effectMode := pic.effectMode, effectPower := pic.effectPower } = pic := by
    cases pic with
    | mk n t f =>
      cases t <;> cases f <;> rfl
  have key : handleP env h ("ap" :: rest) sender =
      { sender := { sender with pictures := mapSet (mapDelete sender.pictures picId) picId pic }
        effects :=
          [Effect.checkHubConditions "picture" pic.name,
           Effect.broadcast [.str "rp", .int sender.sClient.id, .str (field ("ap" :: rest) 1)],
           Effect.broadcast [.str "ap", .int sender.sClient.id, .strs rest]]
        exit := .returned none } := by
    unfold handleP
    have hap : ("ap" == "ap") = true := by decide
    simp only [hap, hlen, if_true, ne_eq, not_true_eq_false, if_false, hallowed, Bool.not_true,
      Bool.and_false, Bool.false_eq_true, hargs, hne, p18, p19, hold, hroute, hrp,
      applyPicture, hpic, hname]
    simp [field, hv.name_allowed, hv.name_nonempty]
  rw [key]
  refine ⟨rfl, rfl, rfl, ?_, ?_⟩
  · simp [mapSet]
  · intro j hj
    simp [mapSet, mapDelete, hj]

/-- The example show command is valid and describes the example picture. -/
theorem validShow_showCommand : ValidShow exampleEnv showCommand 4 shownPicture := by
  constructor <;> decide

/-- C4, witness: a client that shows `oldPicture` at id 4 sends the example
show command for id 4. -/
theorem handleP_show_replaces_witness :
    broadcasts (handleP exampleEnv (roomWith []) showCommand clientWithPicture).effects =
      [[.str "rp", .int 7, .str "4"], [.str "ap", .int 7, .strs (showCommand.drop 1)]] ∧
    (handleP exampleEnv (roomWith []) showCommand clientWithPicture).sender.pictures 4 =
      some shownPicture :=
  have w := handleP_show_replaces exampleEnv (roomWith []) showCommand clientWithPicture
    4 shownPicture oldPicture validShow_showCommand rfl rfl
  ⟨w.2.1, w.2.2.2.1⟩

/-! ### Conditions (`handleSs`, `handleSv`) -/

/-- An effect of a loop is an effect of one run of its body. -/
theorem forEach_effects_mem {σ α : Type} (body : σ → α → Step σ) (db : σ) (l : List α)
    (e : Effect) (he : e ∈ (forEach body db l).effects) :
    ∃ db2 a, a ∈ l ∧ e ∈ (body db2 a).effects := by
  induction l generalizing db with
  | nil => simp [forEach] at he
  | cons a rest ih =>
    unfold forEach at he
    cases hl : (body db a).left with
    | some x =>
      simp only [hl] at he
      exact ⟨db, a, List.mem_cons_self _ _, he⟩
    | none =>
      simp only [hl, List.mem_append] at he
      rcases he with he | he
      · exact ⟨db, a, List.mem_cons_self _ _, he⟩
      · obtain ⟨db2, b, hb, hbe⟩ := ih _ he
        exact ⟨db2, b, List.mem_cons_of_mem _ hb, hbe⟩

/-- A loop over one element runs its body once. -/
theorem forEach_singleton {σ α : Type} (body : σ → α → Step σ) (db : σ) (a : α) :
    (forEach body db [a]).effects = (body db a).effects ∧
    (forEach body db [a]).left = (body db a).left ∧
    (forEach body db [a]).db = (body db a).db := by
  unfold forEach
  cases hl : (body db a).left with
  | some x => simp [hl]
  | none => simp [hl, forEach]

/-- The minigame loop of `handleSs` only writes minigame scores. -/
theorem ssMinigame_effects {σ : Type} (env : Env σ) (sender : HubClient) (switchId : Int)
    (value : Bool) (db : σ) (entry : Nat × MinigameConfig) (e : Effect)
    (he : e ∈ (ssMinigame env sender switchId value db entry).effects) :
    ∃ u g s, e = Effect.tryWritePlayerMinigameScore u g s := by
  simp only [ssMinigame] at he
  split at he
  · simp only [List.mem_singleton] at he
    exact ⟨_, _, _, he⟩
  · simp at he

/-- The minigame loop of `handleSv` sends hints and writes minigame scores. -/
theorem svMinigame_effects {σ : Type} (env : Env σ) (sender : HubClient) (varId value : Int)
    (db : σ) (entry : Nat × MinigameConfig) (e : Effect)
    (he : e ∈ (svMinigame env sender varId value db entry).effects) :
    (∃ u g s, e = Effect.tryWritePlayerMinigameScore u g s) ∨ ∃ segs, e = Effect.sendMsg segs := by
  simp only [svMinigame] at he
  split at he
  · split at he
    · simp only [List.mem_singleton] at he
      exact Or.inr ⟨_, he⟩
    · simp only [List.mem_singleton] at he
      exact Or.inl ⟨_, _, _, he⟩
  · simp at he

/-- The effects of `handleSs` on a valid command outside the time-trial
switch: the minigame loop, then the loop over the conditions, both run on
the sender with the updated cache. -/
theorem handleSs_effects {σ : Type} (env : Env σ) (h : Hub) (db : σ) (cmd f1 f2 : String)
    (sender : HubClient) (switchId valueBin : Int)
    (hid : atoi f1 = .ok switchId) (hbin : atoi f2 = .ok valueBin)
    (hrange : 0 ≤ valueBin ∧ valueBin ≤ 1)
    (hspecial : ¬ (switchId = 1430 ∧ env.gameName = "2kki")) :
    (handleSs env h db [cmd, f1, f2] sender).1.effects =
      (forEach (ssMinigame env
          { sender with switchCache := mapSet sender.switchCache switchId (valueBin == 1) }
          switchId (valueBin == 1)) db sender.hub.minigameConfigs.enum).effects ++
      (forEach (ssCondition env
          { sender with switchCache := mapSet sender.switchCache switchId (valueBin == 1) }
          switchId (valueBin == 1))
        (forEach (ssMinigame env
          { sender with switchCache := mapSet sender.switchCache switchId (valueBin == 1) }
          switchId (valueBin == 1)) db sender.hub.minigameConfigs.enum).db
        (env.globalConditions ++ h.conditions)).effects := by
  have p2 := (parseField_ok_iff f2 (fun v => decide (0 ≤ v) && decide (v ≤ 1)) valueBin).mpr
    ⟨hbin, by simp [hrange.1, hrange.2]⟩
  have hsp : (decide (switchId = 1430) && decide (env.gameName = "2kki")) = false := by
    simpa using hspecial
  simp only [handleSs, hid, p2, hsp]
  rfl

/-- The effects of `handleSv` on a valid command outside the elapsed-time
variable: the minigame loop, then the loop over the conditions, both run on
the sender with the updated cache. -/
theorem handleSv_effects {σ : Type} (env : Env σ) (h : Hub) (db : σ) (cmd f1 f2 : String)
    (sender : HubClient) (varId value : Int)
    (hid : atoi f1 = .ok varId) (hval : atoi f2 = .ok value)
    (hspecial : ¬ (varId = 88 ∧ env.gameName = "2kki")) :
    (handleSv env h db [cmd, f1, f2] sender).1.effects =
      (forEach (svMinigame env
          { sender with varCache := mapSet sender.varCache varId value }
          varId value) db sender.hub.minigameConfigs.enum).effects ++
      (forEach (svCondition env
          { sender with varCache := mapSet sender.varCache varId value }
          varId value)
        (forEach (svMinigame env
          { sender with varCache := mapSet sender.varCache varId value }
          varId value) db sender.hub.minigameConfigs.enum).db
        (env.globalConditions ++ h.conditions)).effects := by
  have hsp : (decide (varId = 88) && decide (env.gameName = "2kki")) = false := by
    simpa using hspecial
  simp only [handleSv, hid, hval, hsp]
  rfl

/-- The award block calls `tryWritePlayerTag` for the condition when the
condition is no time trial and its coordinate gate passes. -/
theorem awardTag_calls {σ : Type} (env : Env σ) (sender : HubClient) (db : σ) (c : Condition)
    (htt : c.TimeTrial = false) (hcoords : env.checkConditionCoords c sender = true) :
    Effect.tryWritePlayerTag sender.sClient.uuid c.ConditionId ∈
      (awardTag env sender db c).effects := by
  simp only [awardTag, htt, hcoords, Bool.not_false, if_true]
  split <;> simp

/-- A call of `tryWritePlayerTag` in the award block is for the sender and
the condition at hand, which is no time trial and whose coordinate gate
passes. -/
theorem awardTag_tag {σ : Type} (env : Env σ) (sender : HubClient) (db : σ) (c : Condition)
    (u cid : String) (hmem : Effect.tryWritePlayerTag u cid ∈ (awardTag env sender db c).effects) :
    u = sender.sClient.uuid ∧ cid = c.ConditionId ∧ c.TimeTrial = false ∧
    env.checkConditionCoords c sender = true := by
  unfold awardTag at hmem
  cases htt : c.TimeTrial with
  | true =>
    simp only [htt, Bool.not_true, Bool.false_eq_true, if_false] at hmem
    split at hmem <;> simp at hmem
  | false =>
    cases hco : env.checkConditionCoords c sender with
    | false => simp [htt, hco] at hmem
    | true =>
      simp only [htt, hco, Bool.not_false, if_true] at hmem
      split at hmem
      · simp only [List.mem_singleton, Effect.tryWritePlayerTag.injEq] at hmem
        exact ⟨hmem.1, hmem.2, rfl, rfl⟩
      · simp only [List.mem_cons, Effect.tryWritePlayerTag.injEq] at hmem
        rcases hmem with hmem | hmem
        · exact ⟨hmem.1, hmem.2, rfl, rfl⟩
        · split at hmem <;> simp at hmem

/-- A call of `tryWritePlayerTag` in the body of the loop of `handleSs`: the
gate `validVars` holds, the condition has `VarTrigger` set or no variable
side, and the switch side matches at its last step. -/
theorem ssCondition_tag {σ : Type} (env : Env σ) (sender : HubClient) (switchId : Int)
    (value : Bool) (db : σ) (c : Condition) (u cid : String)
    (hmem : Effect.tryWritePlayerTag u cid ∈ (ssCondition env sender switchId value db c).effects) :
    u = sender.sClient.uuid ∧ cid = c.ConditionId ∧ validVars env sender c = true ∧
    (c.VarTrigger = true ∨ (c.VarId = 0 ∧ c.VarIds = [])) ∧
    c.TimeTrial = false ∧ env.checkConditionCoords c sender = true ∧
    ((switchId = c.SwitchId ∧ (env.checkSwitch c switchId value).1 = true) ∨
      (switchId ≠ c.SwitchId ∧ c.SwitchIds ≠ [] ∧
        env.checkSwitch c switchId value = (true, (c.SwitchIds.length : Int) - 1))) := by
  have fire : ∀ dbx, Effect.tryWritePlayerTag u cid ∈ (ssFire env sender dbx c).effects →
      u = sender.sClient.uuid ∧ cid = c.ConditionId ∧
      (c.VarTrigger = true ∨ (c.VarId = 0 ∧ c.VarIds = [])) ∧
      c.TimeTrial = false ∧ env.checkConditionCoords c sender = true := by
    intro dbx hf
    unfold ssFire at hf
    split at hf
    · next hcond =>
      obtain ⟨h1, h2, h3, h4⟩ := awardTag_tag env sender dbx c u cid hf
      refine ⟨h1, h2, ?_, h3, h4⟩
      simp only [Bool.or_eq_true, Bool.and_eq_true, beq_iff_eq, List.length_eq_zero] at hcond
      exact hcond
    · simp at hf
  unfold ssCondition at hmem
  cases hg : validVars env sender c with
  | false => simp [hg] at hmem
  | true =>
    simp only [hg, if_true] at hmem
    by_cases hs : switchId = c.SwitchId
    · simp only [hs, if_true] at hmem
      split at hmem
      · next hv =>
        obtain ⟨h1, h2, h3, h4, h5⟩ := fire _ hmem
        exact ⟨h1, h2, rfl, h3, h4, h5, Or.inl ⟨hs, by rw [hs]; exact hv⟩⟩
      · simp at hmem
    · simp only [hs, if_false] at hmem
      split at hmem
      · next hl =>
        have hne : c.SwitchIds ≠ [] := List.length_pos.mp hl
        rcases hr : env.checkSwitch c switchId value with ⟨b, k⟩
        rw [hr] at hmem
        cases b with
        | false => simp at hmem
        | true =>
          simp only [if_true] at hmem
          split at hmem
          · next hk =>
            obtain ⟨h1, h2, h3, h4, h5⟩ := fire _ hmem
            exact ⟨h1, h2, rfl, h3, h4, h5, Or.inr ⟨hs, hne, by rw [hk]⟩⟩
          · split at hmem <;> simp at hmem
      · simp at hmem

/-- A call of `tryWritePlayerTag` in the body of the loop of `handleSv`: the
gate `validSwitches` holds, the condition has `VarTrigger` unset or no
switch side, and the variable side matches at its last step. -/
theorem svCondition_tag {σ : Type} (env : Env σ) (sender : HubClient) (varId value : Int)
    (db : σ) (c : Condition) (u cid : String)
    (hmem : Effect.tryWritePlayerTag u cid ∈ (svCondition env sender varId value db c).effects) :
    u = sender.sClient.uuid ∧ cid = c.ConditionId ∧ validSwitches env sender c = true ∧
    (c.VarTrigger = false ∨ (c.SwitchId = 0 ∧ c.SwitchIds = [])) ∧
    c.TimeTrial = false ∧ env.checkConditionCoords c sender = true ∧
    ((varId = c.VarId ∧ (env.checkVar c varId value).1 = true) ∨
      (varId ≠ c.VarId ∧ c.VarIds ≠ [] ∧
        env.checkVar c varId value = (true, (c.VarIds.length : Int) - 1))) := by
  have fire : ∀ dbx, Effect.tryWritePlayerTag u cid ∈ (svFire env sender dbx c).effects →
      u = sender.sClient.uuid ∧ cid = c.ConditionId ∧
      (c.VarTrigger = false ∨ (c.SwitchId = 0 ∧ c.SwitchIds = [])) ∧
      c.TimeTrial = false ∧ env.checkConditionCoords c sender = true := by
    intro dbx hf
    unfold svFire at hf
    split at hf
    · next hcond =>
      obtain ⟨h1, h2, h3, h4⟩ := awardTag_tag env sender dbx c u cid hf
      refine ⟨h1, h2, ?_, h3, h4⟩
      simp only [Bool.or_eq_true, Bool.and_eq_true, beq_iff_eq, List.length_eq_zero,
        Bool.not_eq_true'] at hcond
      exact hcond
    · simp at hf
  unfold svCondition at hmem
  cases hg : validSwitches env sender c with
  | false => simp [hg] at hmem
  | true =>
    simp only [hg, if_true] at hmem
    by_cases hs : varId = c.VarId
    · simp only [hs, if_true] at hmem
      split at hmem
      · next hv =>
        obtain ⟨h1, h2, h3, h4, h5⟩ := fire _ hmem
        exact ⟨h1, h2, rfl, h3, h4, h5, Or.inl ⟨hs, by rw [hs]; exact hv⟩⟩
      · simp at hmem
    · simp only [hs, if_false] at hmem
      split at hmem
      · next hl =>
        have hne : c.VarIds ≠ [] := List.length_pos.mp hl
        rcases hr : env.checkVar c varId value with ⟨b, k⟩
        rw [hr] at hmem
        cases b with
        | false => simp at hmem
        | true =>
          simp only [if_true] at hmem
          split at hmem
          · next hk =>
            obtain ⟨h1, h2, h3, h4, h5⟩ := fire _ hmem
            exact ⟨h1, h2, rfl, h3, h4, h5, Or.inr ⟨hs, hne, by rw [hk]⟩⟩
          · split at hmem <;> simp at hmem
      · simp at hmem

/-- The time-trial loop of `handleSv` only writes time-trial results and
sends messages. -/
theorem svTimeTrial_effects {σ : Type} (env : Env σ) (h : Hub) (sender : HubClient)
    (value : Int) (db : σ) (c : Condition) (e : Effect)
    (he : e ∈ (svTimeTrial env h sender value db c).effects) :
    (∃ u r v, e = Effect.tryWritePlayerTimeTrial u r v) ∨ ∃ segs, e = Effect.sendMsg segs := by
  simp only [svTimeTrial] at he
  split at he
  · split at he
    · split at he
      · simp only [List.mem_singleton] at he
        exact Or.inl ⟨_, _, _, he⟩
      · simp only [List.mem_cons] at he
        rcases he with he | he
        · exact Or.inl ⟨_, _, _, he⟩
        · split at he
          · simp only [List.mem_singleton] at he
            exact Or.inr ⟨_, he⟩
          · simp at he
    · simp at he
  · simp at he

/-- Every call of `tryWritePlayerTag` by `handleSs` is for the sender and
for a condition of the room (or a global one) that is no time trial and
that either has no variable side or has `VarTrigger` set and its variable
gate satisfied by the sender's cache. -/
theorem handleSs_tag_sound {σ : Type} (env : Env σ) (h : Hub) (db : σ) (msg : List String)
    (sender : HubClient) (u cid : String)
    (hmem : Effect.tryWritePlayerTag u cid ∈ (handleSs env h db msg sender).1.effects) :
    ∃ c ∈ env.globalConditions ++ h.conditions,
      cid = c.ConditionId ∧ u = sender.sClient.uuid ∧ c.TimeTrial = false ∧
      validVars env sender c = true ∧
      (c.VarTrigger = true ∨ (c.VarId = 0 ∧ c.VarIds = [])) ∧
      ∃ f1 f2 switchId valueBin, (∃ cmd, msg = [cmd, f1, f2]) ∧
        atoi f1 = .ok switchId ∧ atoi f2 = .ok valueBin ∧
        ((switchId = c.SwitchId ∧ (env.checkSwitch c switchId (valueBin == 1)).1 = true) ∨
          (switchId ≠ c.SwitchId ∧ c.SwitchIds ≠ [] ∧
            env.checkSwitch c switchId (valueBin == 1) =
              (true, (c.SwitchIds.length : Int) - 1))) := by
  rcases msg with _ | ⟨cmd, _ | ⟨f1, _ | ⟨f2, _ | ⟨x, rest⟩⟩⟩⟩
  · simp [handleSs, reject] at hmem
  · simp [handleSs, reject] at hmem
  · simp [handleSs, reject] at hmem
  · cases hid : atoi f1 with
    | error e => simp [handleSs, hid, reject] at hmem
    | ok switchId =>
      cases hp : parseField f2 (fun v => decide (0 ≤ v) && decide (v ≤ 1)) with
      | error e => simp [handleSs, hid, hp, reject] at hmem
      | ok valueBin =>
        have hpv := (parseField_ok_iff _ _ _).mp hp
        have hrange : 0 ≤ valueBin ∧ valueBin ≤ 1 := by simpa using hpv.2
        by_cases hspecial : switchId = 1430 ∧ env.gameName = "2kki"
        · have hsp : (decide (switchId = 1430) && decide (env.gameName = "2kki")) = true := by
            simpa using hspecial
          simp only [handleSs, hid, hp, hsp, if_true] at hmem
          split at hmem <;> simp at hmem
        · rw [handleSs_effects env h db cmd f1 f2 sender switchId valueBin hid hpv.1 hrange
            hspecial, List.mem_append] at hmem
          rcases hmem with hmem | hmem
          · obtain ⟨db2, a, _, ha⟩ := forEach_effects_mem _ _ _ _ hmem
            obtain ⟨_, _, _, hu⟩ := ssMinigame_effects _ _ _ _ _ _ _ ha
            cases hu
          · obtain ⟨db2, c, hc, hce⟩ := forEach_effects_mem _ _ _ _ hmem
            obtain ⟨h1, h2, h3, h4, h5, _, h7⟩ := ssCondition_tag env _ _ _ _ c u cid hce
            exact ⟨c, hc, h2, h1, h5, h3, h4, f1, f2, switchId, valueBin, ⟨cmd, rfl⟩, hid,
              hpv.1, h7⟩
  · simp [handleSs, reject] at hmem

/-- Every call of `tryWritePlayerTag` by `handleSv` is for the sender and
for a condition of the room (or a global one) that is no time trial and
that either has no switch side or has `VarTrigger` unset and its switch
gate satisfied by the sender's cache. -/
theorem handleSv_tag_sound {σ : Type} (env : Env σ) (h : Hub) (db : σ) (msg : List String)
    (sender : HubClient) (u cid : String)
    (hmem : Effect.tryWritePlayerTag u cid ∈ (handleSv env h db msg sender).1.effects) :
    ∃ c ∈ env.globalConditions ++ h.conditions,
      cid = c.ConditionId ∧ u = sender.sClient.uuid ∧ c.TimeTrial = false ∧
      validSwitches env sender c = true ∧
      (c.VarTrigger = false ∨ (c.SwitchId = 0 ∧ c.SwitchIds = [])) ∧
      ∃ f1 f2 varId value, (∃ cmd, msg = [cmd, f1, f2]) ∧
        atoi f1 = .ok varId ∧ atoi f2 = .ok value ∧
        ((varId = c.VarId ∧ (env.checkVar c varId value).1 = true) ∨
          (varId ≠ c.VarId ∧ c.VarIds ≠ [] ∧
            env.checkVar c varId value = (true, (c.VarIds.length : Int) - 1))) := by
  rcases msg with _ | ⟨cmd, _ | ⟨f1, _ | ⟨f2, _ | ⟨x, rest⟩⟩⟩⟩
  · simp [handleSv, reject] at hmem
  · simp [handleSv, reject] at hmem
  · simp [handleSv, reject] at hmem
  · cases hid : atoi f1 with
    | error e => simp [handleSv, hid, reject] at hmem
    | ok varId =>
      cases hval : atoi f2 with
      | error e => simp [handleSv, hid, hval, reject] at hmem
      | ok value =>
        by_cases hspecial : varId = 88 ∧ env.gameName = "2kki"
        · have hsp : (decide (varId = 88) && decide (env.gameName = "2kki")) = true := by
            simpa using hspecial
          simp only [handleSv, hid, hval, hsp, if_true] at hmem
          obtain ⟨db2, c, _, hce⟩ := forEach_effects_mem _ _ _ _ hmem
          rcases svTimeTrial_effects _ _ _ _ _ _ _ hce with ⟨_, _, _, hu⟩ | ⟨_, hu⟩
          · cases hu
          · cases hu
        · rw [handleSv_effects env h db cmd f1 f2 sender varId value hid hval hspecial,
            List.mem_append] at hmem
          rcases hmem with hmem | hmem
          · obtain ⟨db2, a, _, ha⟩ := forEach_effects_mem _ _ _ _ hmem
            rcases svMinigame_effects _ _ _ _ _ _ _ ha with ⟨_, _, _, hu⟩ | ⟨_, hu⟩
            · cases hu
            · cases hu
          · obtain ⟨db2, c, hc, hce⟩ := forEach_effects_mem _ _ _ _ hmem
            obtain ⟨h1, h2, h3, h4, h5, _, h7⟩ := svCondition_tag env _ _ _ _ c u cid hce
            exact ⟨c, hc, h2, h1, h5, h3, h4, f1, f2, varId, value, ⟨cmd, rfl⟩, hid, hval, h7⟩
  · simp [handleSv, reject] at hmem

/-- The gate of `handleSs` for a condition with `VarTrigger` set and a single
variable id: the sender's cache holds a value for the id and `checkVar`
accepts it. -/
theorem validVars_single {σ : Type} (env : Env σ) (sender : HubClient) (c : Condition)
    (htrig : c.VarTrigger = true) (hid : c.VarId > 0) (hvalid : validVars env sender c = true) :
    ∃ v, sender.varCache c.VarId = some v ∧ (env.checkVar c c.VarId v).1 = true := by
  simp only [validVars, htrig, if_true, hid] at hvalid
  cases hv : sender.varCache c.VarId with
  | none => simp [hv] at hvalid
  | some v =>
    simp only [hv] at hvalid
    exact ⟨v, rfl, hvalid⟩

/-- The gate of `handleSv` for a condition with `VarTrigger` unset and a
single switch id: the sender's cache holds a value for the id and
`checkSwitch` accepts it. -/
theorem validSwitches_single {σ : Type} (env : Env σ) (sender : HubClient) (c : Condition)
    (htrig : c.VarTrigger = false) (hid : c.SwitchId > 0)
    (hvalid : validSwitches env sender c = true) :
    ∃ v, sender.switchCache c.SwitchId = some v ∧ (env.checkSwitch c c.SwitchId v).1 = true := by
  simp only [validSwitches, htrig, Bool.not_false, if_true, hid] at hvalid
  cases hv : sender.switchCache c.SwitchId with
  | none => simp [hv] at hvalid
  | some v =>
    simp only [hv] at hvalid
    exact ⟨v, rfl, hvalid⟩

/-- C2, as the code has it. Which command awards the tag of a condition with
both a switch side and a variable side is decided by its flag `VarTrigger`.
(1) Every `tryWritePlayerTag` call of `handleSs` is for a condition that has
no variable side, or has `VarTrigger` set and its variable gate satisfied by
the cache at that moment (for a single variable id: the cache holds a value
that `checkVar` accepts). (2) Symmetrically every `tryWritePlayerTag` call
of `handleSv` is for a condition that has no switch side, or has
`VarTrigger` unset and its switch gate satisfied by the cache. (3) So in a
room whose only condition (there is no global one) is switch-triggered
(`VarTrigger` unset) with a variable requirement, `handleSs` never calls
`tryWritePlayerTag`. (4) In a room whose only condition is switch-triggered,
not a time trial and with the coordinate gate passing, an `sv` command other
than variable 88 in the profile `2kki` that sets the single variable of the
condition to a value that `checkVar` accepts, while the cached switches
satisfy the switch side, does call `tryWritePlayerTag` for the condition: so
does an `sv` command that comes after the switch was set. -/
theorem gated_award_by_var_trigger :
    (∀ (σ : Type) (env : Env σ) (h : Hub) (db : σ) (msg : List String) (sender : HubClient)
      (u cid : String),
      Effect.tryWritePlayerTag u cid ∈ (handleSs env h db msg sender).1.effects →
      ∃ c ∈ env.globalConditions ++ h.conditions, cid = c.ConditionId ∧
        ((c.VarId = 0 ∧ c.VarIds = []) ∨
          (c.VarTrigger = true ∧ validVars env sender c = true ∧
            (c.VarId > 0 → ∃ v, sender.varCache c.VarId = some v ∧
              (env.checkVar c c.VarId v).1 = true)))) ∧
    (∀ (σ : Type) (env : Env σ) (h : Hub) (db : σ) (msg : List String) (sender : HubClient)
      (u cid : String),
      Effect.tryWritePlayerTag u cid ∈ (handleSv env h db msg sender).1.effects →
      ∃ c ∈ env.globalConditions ++ h.conditions, cid = c.ConditionId ∧
        ((c.SwitchId = 0 ∧ c.SwitchIds = []) ∨
          (c.VarTrigger = false ∧ validSwitches env sender c = true ∧
            (c.SwitchId > 0 → ∃ v, sender.switchCache c.SwitchId = some v ∧
              (env.checkSwitch c c.SwitchId v).1 = true)))) ∧
    (∀ (σ : Type) (env : Env σ) (h : Hub) (db : σ) (msg : List String) (sender : HubClient)
      (c : Condition) (u cid : String),
      env.globalConditions ++ h.conditions = [c] →
      c.VarTrigger = false → (c.VarId ≠ 0 ∨ c.VarIds ≠ []) →
      Effect.tryWritePlayerTag u cid ∉ (handleSs env h db msg sender).1.effects) ∧
    (∀ (σ : Type) (env : Env σ) (h : Hub) (db : σ) (sender : HubClient) (c : Condition)
      (cmd f1 f2 : String) (value : Int),
      env.globalConditions ++ h.conditions = [c] →
      c.VarTrigger = false →
      atoi f1 = .ok c.VarId → atoi f2 = .ok value →
      ¬ (c.VarId = 88 ∧ env.gameName = "2kki") →
      (env.checkVar c c.VarId value).1 = true →
      validSwitches env sender c = true →
      c.TimeTrial = false →
      env.checkConditionCoords c
        { sender with varCache := mapSet sender.varCache c.VarId value } = true →
      Effect.tryWritePlayerTag sender.sClient.uuid c.ConditionId ∈
        (handleSv env h db [cmd, f1, f2] sender).1.effects) := by
  refine ⟨?_, ?_, ?_, ?_⟩
  · intro σ env h db msg sender u cid hmem
    obtain ⟨c, hc, hcid, _, _, hgate, hpath, _⟩ := handleSs_tag_sound env h db msg sender u cid hmem
    refine ⟨c, hc, hcid, ?_⟩
    rcases hpath with htrig | hnone
    · exact Or.inr ⟨htrig, hgate, fun hpos => validVars_single env sender c htrig hpos hgate⟩
    · exact Or.inl hnone
  · intro σ env h db msg sender u cid hmem
    obtain ⟨c, hc, hcid, _, _, hgate, hpath, _⟩ := handleSv_tag_sound env h db msg sender u cid hmem
    refine ⟨c, hc, hcid, ?_⟩
    rcases hpath with htrig | hnone
    · exact Or.inr ⟨htrig, hgate, fun hpos => validSwitches_single env sender c htrig hpos hgate⟩
    · exact Or.inl hnone
  · intro σ env h db msg sender c u cid hconds htrig hreq hmem
    obtain ⟨c2, hc2, _, _, _, _, hpath, _⟩ := handleSs_tag_sound env h db msg sender u cid hmem
    rw [hconds, List.mem_singleton] at hc2
    subst hc2
    rcases hpath with ht | ⟨h0, hn⟩
    · rw [htrig] at ht
      cases ht
    · rcases hreq with hr | hr
      · exact hr h0
      · exact hr hn
  · intro σ env h db sender c cmd f1 f2 value hconds htrig hid hval hspecial hacc hgate htt
      hcoords
    rw [handleSv_effects env h db cmd f1 f2 sender c.VarId value hid hval hspecial,
      hconds, (forEach_singleton _ _ _).1, List.mem_append]
    refine Or.inr ?_
    have hg2 : validSwitches env
        { sender with varCache := mapSet sender.varCache c.VarId value } c = true := hgate
    simp only [svCondition, hg2, if_true, hacc, svFire, htrig, Bool.not_false, Bool.true_or]
    exact awardTag_calls env _ _ c htt hcoords

/-- C2, witness: after `ss 5 1` the switch gate of the gated condition holds,
and `sv 7 3` is awarded the tag. -/
theorem gated_award_by_var_trigger_witness :
    Effect.tryWritePlayerTag "u7" "gated" ∈
      (handleSv exampleEnv (roomWith [gatedCondition]) [] ["sv", "7", "3"]
        (handleSs exampleEnv (roomWith [gatedCondition]) [] ["ss", "5", "1"]
          (freshClient (roomWith [gatedCondition]))).1.sender).1.effects :=
  gated_award_by_var_trigger.2.2.2 _ exampleEnv (roomWith [gatedCondition]) []
    (handleSs exampleEnv (roomWith [gatedCondition]) [] ["ss", "5", "1"]
      (freshClient (roomWith [gatedCondition]))).1.sender gatedCondition "sv" "7" "3" 3
    rfl rfl (by decide) (by decide) (by decide) (by decide) (by decide) rfl rfl

/-- C2, counterexample: the condition `gated` is switch-triggered (switch 5)
with the requirement that variable 7 equals 3. A fresh client sets the
switch while the variable is unknown: no tag, only the hint `sv 7 0`. The
later command `sv 7 3` is awarded the tag. -/
theorem gated_awarded_by_later_sv :
    (freshClient (roomWith [gatedCondition])).varCache 7 = none ∧
    (handleSs exampleEnv (roomWith [gatedCondition]) [] ["ss", "5", "1"]
      (freshClient (roomWith [gatedCondition]))).1.effects =
      [Effect.sendMsg [.str "sv", .int 7, .str "0"]] ∧
    (handleSv exampleEnv (roomWith [gatedCondition])
      (handleSs exampleEnv (roomWith [gatedCondition]) [] ["ss", "5", "1"]
        (freshClient (roomWith [gatedCondition]))).2 ["sv", "7", "3"]
      (handleSs exampleEnv (roomWith [gatedCondition]) [] ["ss", "5", "1"]
        (freshClient (roomWith [gatedCondition]))).1.sender).1.effects =
      [Effect.tryWritePlayerTag "u7" "gated", Effect.sendMsg [.str "b"]] := by
  decide

/-! ### The codec: segments of unsupported kinds -/

/-- A frame of segments of unsupported kinds only is empty. -/
theorem buildMsg_unsupported (segs : List Segment) (hnone : supportedOnly segs = []) :
    buildMsg segs = [] := by
  induction segs with
  | nil => rfl
  | cons seg rest ih =>
    cases seg <;> simp_all [supportedOnly, buildMsg, renderSegment]

/-- What `buildMsg` does with segments of unsupported kinds: the frame is
the frame of the supported segments, followed by one primary separator when
the last segment is unsupported and a supported segment stands before it. -/
theorem buildMsg_supportedOnly (segs : List Segment) :
    buildMsg segs = buildMsg (supportedOnly segs) ++
      (if trailingUnsupported segs then toBytes delim else []) := by
  induction segs with
  | nil => rfl
  | cons seg rest ih =>
    by_cases hseg : seg = .unsupported
    · subst hseg
      have hsup : supportedOnly (Segment.unsupported :: rest) = supportedOnly rest := by
        simp [supportedOnly]
      have htr : trailingUnsupported (Segment.unsupported :: rest) = trailingUnsupported rest := by
        cases rest with
        | nil => simp [trailingUnsupported, supportedOnly]
        | cons r rs => simp [trailingUnsupported, hsup, List.getLast?_cons_cons]
      rw [hsup, htr, ← ih]
      simp [buildMsg, renderSegment]
    · have hsup : supportedOnly (seg :: rest) = seg :: supportedOnly rest := by
        simp [supportedOnly, hseg]
      obtain ⟨bs, hbs⟩ : ∃ bs, renderSegment seg = some bs :=
        ⟨_, (renderSegment_fields seg hseg).2⟩
      rw [hsup, buildMsg, hbs, buildMsg, hbs]
      cases rest with
      | nil => simp [trailingUnsupported, supportedOnly, hseg, buildMsg]
      | cons r rs =>
        have htr : trailingUnsupported (seg :: r :: rs) =
            decide ((r :: rs).getLast? = some .unsupported) := by
          simp [trailingUnsupported, hsup, List.getLast?_cons_cons]
        by_cases hrest : supportedOnly (r :: rs) = []
        · have hlast : (r :: rs).getLast? = some .unsupported := by
            have hmem : (r :: rs).getLast (by simp) ∈ r :: rs := List.getLast_mem _
            have hall : ∀ s ∈ r :: rs, s = Segment.unsupported := by
              intro s hs
              by_contra hne
              have : s ∈ supportedOnly (r :: rs) := by
                simp only [supportedOnly, List.mem_filter]
                exact ⟨hs, by simpa using hne⟩
              rw [hrest] at this
              cases this
            rw [List.getLast?_eq_getLast _ (by simp), hall _ hmem]
          rw [htr, hrest, buildMsg_unsupported _ hrest]
          simp [hlast, buildMsg]
        · have htr2 : trailingUnsupported (r :: rs) =
              decide ((r :: rs).getLast? = some .unsupported) := by
            simp [trailingUnsupported, hrest]
          rw [ih, htr, htr2]
          cases hsr : supportedOnly (r :: rs) with
          | nil => exact absurd hsr hrest
          | cons s ss => simp [List.append_assoc]

/-- C11, evaluation at the failing input: for the two segments `"m"`, then a
value of an unsupported kind, `buildMsg` returns `m` followed by the
primary separator, whereas for the list without the unsupported segment it
returns `m` alone. An unsupported segment that is not last leaves no trace. -/
theorem buildMsg_trailing_separator :
    buildMsg [.str "m", .unsupported] = toBytes "m" ++ toBytes delim ∧
    supportedOnly [.str "m", .unsupported] = [.str "m"] ∧
    buildMsg [.str "m"] = toBytes "m" ∧
    buildMsg [.str "m", .unsupported] ≠ buildMsg (supportedOnly [.str "m", .unsupported]) ∧
    buildMsg [.str "m", .unsupported, .int 7] =
      buildMsg (supportedOnly [.str "m", .unsupported, .int 7]) := by
  decide

/-! ### The time-trial switch 1430 -/

/-- C13: in the profile `2kki`, a valid `ss` command for switch 1430 gives,
when the value is 1, the direct message `sv`, `88`, `0` to the sender and
nothing else, and when the value is 0 nothing at all: no broadcast, no call
of `tryWritePlayerMinigameScore` or `tryWritePlayerTag` (no minigame config
and no condition is evaluated), the state of the collaborator is untouched
and nil is returned. -/
theorem handleSs_time_trial_switch {σ : Type} (env : Env σ) (h : Hub) (db : σ)
    (cmd f1 f2 : String) (sender : HubClient) (valueBin : Int)
    (hgame : env.gameName = "2kki") (hid : atoi f1 = .ok 1430)
    (hbin : atoi f2 = .ok valueBin) (hrange : 0 ≤ valueBin ∧ valueBin ≤ 1) :
    (handleSs env h db [cmd, f1, f2] sender).1.effects =
      (if valueBin = 1 then [Effect.sendMsg [.str "sv", .str "88", .str "0"]] else []) ∧
    broadcasts (handleSs env h db [cmd, f1, f2] sender).1.effects = [] ∧
    (handleSs env h db [cmd, f1, f2] sender).1.exit = .returned none ∧
    (handleSs env h db [cmd, f1, f2] sender).2 = db := by
  have p2 := (parseField_ok_iff f2 (fun v => decide (0 ≤ v) && decide (v ≤ 1)) valueBin).mpr
    ⟨hbin, by simp [hrange.1, hrange.2]⟩
  simp only [handleSs, hid, p2, hgame]
  by_cases hv : valueBin = 1
  · simp [hv, broadcasts]
  · simp [hv, broadcasts]

/-- C13, witness: `ss 1430 1` of a fresh client in the profile `2kki`, in a
room that has a condition. -/
theorem handleSs_time_trial_switch_witness :
    (handleSs exampleEnv (roomWith [chainCondition]) [] ["ss", "1430", "1"]
      (freshClient (roomWith [chainCondition]))).1.effects =
      [Effect.sendMsg [.str "sv", .str "88", .str "0"]] :=
  (handleSs_time_trial_switch exampleEnv (roomWith [chainCondition]) [] "ss" "1430" "1"
    (freshClient (roomWith [chainCondition])) 1 rfl (by decide) (by decide) (by decide)).1

/-! ### The arity check -/

/-- C14, as the code has it: for a decoded message (at least one field) whose
field count differs from the arity of the command, every hub handler returns
`errLengthMismatch` without any effect and without change of the client or
of the collaborator state, with one exception: `handleSay` tests the mute
flag first, so for a muted sender it returns nil without effect, whatever
the field count. The arities are ident 1, m/tp 3, f 2, spd 2, spr 3, fl/rfl
6, h 2, sys 2, se 5, p 18, ap 20, rp 2, say 2, ss 3, sv 3, sev 3. -/
theorem length_mismatch_first :
    (∀ (h : Hub) (msg : List String) (sender : HubClient), msg.length ≠ 1 →
      handleIdent h msg sender = reject sender (some .lengthMismatch)) ∧
    (∀ (h : Hub) (msg : List String) (sender : HubClient), msg.length ≠ 3 →
      handleM h msg sender = reject sender (some .lengthMismatch)) ∧
    (∀ (h : Hub) (msg : List String) (sender : HubClient), msg.length ≠ 2 →
      handleF h msg sender = reject sender (some .lengthMismatch)) ∧
    (∀ (h : Hub) (msg : List String) (sender : HubClient), msg.length ≠ 2 →
      handleSpd h msg sender = reject sender (some .lengthMismatch)) ∧
    (∀ (σ : Type) (env : Env σ) (h : Hub) (msg : List String) (sender : HubClient),
      msg.length ≠ 3 → handleSpr env h msg sender = reject sender (some .lengthMismatch)) ∧
    (∀ (h : Hub) (msg : List String) (sender : HubClient), msg.length ≠ 6 →
      handleFl h msg sender = reject sender (some .lengthMismatch)) ∧
    (∀ (h : Hub) (msg : List String) (sender : HubClient), msg.length ≠ 2 →
      handleH h msg sender = reject sender (some .lengthMismatch)) ∧
    (∀ (σ : Type) (env : Env σ) (h : Hub) (msg : List String) (sender : HubClient),
      msg.length ≠ 2 → handleSys env h msg sender = reject sender (some .lengthMismatch)) ∧
    (∀ (σ : Type) (env : Env σ) (h : Hub) (msg : List String) (sender : HubClient),
      msg.length ≠ 5 → handleSe env h msg sender = reject sender (some .lengthMismatch)) ∧
    (∀ (σ : Type) (env : Env σ) (h : Hub) (msg : List String) (sender : HubClient),
      msg ≠ [] → msg.length ≠ (if field msg 0 = "ap" then 20 else 18) →
      handleP env h msg sender = reject sender (some .lengthMismatch)) ∧
    (∀ (h : Hub) (msg : List String) (sender : HubClient), msg.length ≠ 2 →
      handleRp h msg sender = reject sender (some .lengthMismatch)) ∧
    (∀ (h : Hub) (msg : List String) (sender : HubClient),
      sender.sClient.muted = false → msg.length ≠ 2 →
      handleSay h msg sender = reject sender (some .lengthMismatch)) ∧
    (∀ (h : Hub) (msg : List String) (sender : HubClient),
      sender.sClient.muted = true → handleSay h msg sender = reject sender none) ∧
    (∀ (σ : Type) (env : Env σ) (h : Hub) (db : σ) (msg : List String) (sender : HubClient),
      msg.length ≠ 3 →
      handleSs env h db msg sender = (reject sender (some .lengthMismatch), db)) ∧
    (∀ (σ : Type) (env : Env σ) (h : Hub) (db : σ) (msg : List String) (sender : HubClient),
      msg.length ≠ 3 →
      handleSv env h db msg sender = (reject sender (some .lengthMismatch), db)) ∧
    (∀ (σ : Type) (env : Env σ) (h : Hub) (db : σ) (msg : List String) (sender : HubClient),
      msg.length ≠ 3 →
      handleSev env h db msg sender = (reject sender (some .lengthMismatch), db)) := by
  refine ⟨?_, ?_, ?_, ?_, ?_, ?_, ?_, ?_, ?_, ?_, ?_, ?_, ?_, ?_, ?_, ?_⟩
  · intro h msg sender hlen
    rcases msg with _ | ⟨a, _ | ⟨b, r⟩⟩ <;> first | rfl | simp at hlen
  · intro h msg sender hlen
    rcases msg with _ | ⟨a, _ | ⟨b, _ | ⟨c, _ | ⟨d, r⟩⟩⟩⟩ <;> first | rfl | simp at hlen
  · intro h msg sender hlen
    rcases msg with _ | ⟨a, _ | ⟨b, _ | ⟨c, r⟩⟩⟩ <;> first | rfl | simp at hlen
  · intro h msg sender hlen
    rcases msg with _ | ⟨a, _ | ⟨b, _ | ⟨c, r⟩⟩⟩ <;> first | rfl | simp at hlen
  · intro σ env h msg sender hlen
    rcases msg with _ | ⟨a, _ | ⟨b, _ | ⟨c, _ | ⟨d, r⟩⟩⟩⟩ <;> first | rfl | simp at hlen
  · intro h msg sender hlen
    rcases msg with _ | ⟨a, _ | ⟨b, _ | ⟨c, _ | ⟨d, _ | ⟨e, _ | ⟨f, _ | ⟨g, r⟩⟩⟩⟩⟩⟩⟩ <;>
      first | rfl | simp at hlen
  · intro h msg sender hlen
    rcases msg with _ | ⟨a, _ | ⟨b, _ | ⟨c, r⟩⟩⟩ <;> first | rfl | simp at hlen
  · intro σ env h msg sender hlen
    rcases msg with _ | ⟨a, _ | ⟨b, _ | ⟨c, r⟩⟩⟩ <;> first | rfl | simp at hlen
  · intro σ env h msg sender hlen
    rcases msg with _ | ⟨a, _ | ⟨b, _ | ⟨c, _ | ⟨d, _ | ⟨e, _ | ⟨f, r⟩⟩⟩⟩⟩⟩ <;>
      first | rfl | simp at hlen
  · intro σ env h msg sender hne hlen
    cases msg with
    | nil => exact absurd rfl hne
    | cons cmd rest =>
      have hf : field (cmd :: rest) 0 = cmd := rfl
      rw [hf] at hlen
      unfold handleP
      by_cases hc : cmd = "ap"
      · subst hc
        have hb : ("ap" == "ap") = true := by decide
        simp only [if_true] at hlen
        simp only [hb, if_true, ne_eq, hlen, not_false_eq_true]
      · have hb : (cmd == "ap") = false := by simpa using hc
        simp only [hc, if_false] at hlen
        simp only [hb, Bool.false_eq_true, if_false, ne_eq, hlen, not_false_eq_true, if_true]
  · intro h msg sender hlen
    rcases msg with _ | ⟨a, _ | ⟨b, _ | ⟨c, r⟩⟩⟩ <;> first | rfl | simp at hlen
  · intro h msg sender hm hlen
    rcases msg with _ | ⟨a, _ | ⟨b, _ | ⟨c, r⟩⟩⟩ <;>
      first | exact absurd rfl hlen | simp [handleSay, hm]
  · intro h msg sender hm
    simp [handleSay, hm]
  · intro σ env h db msg sender hlen
    rcases msg with _ | ⟨a, _ | ⟨b, _ | ⟨c, _ | ⟨d, r⟩⟩⟩⟩ <;> first | rfl | simp at hlen
  · intro σ env h db msg sender hlen
    rcases msg with _ | ⟨a, _ | ⟨b, _ | ⟨c, _ | ⟨d, r⟩⟩⟩⟩ <;> first | rfl | simp at hlen
  · intro σ env h db msg sender hlen
    rcases msg with _ | ⟨a, _ | ⟨b, _ | ⟨c, _ | ⟨d, r⟩⟩⟩⟩ <;> first | rfl | simp at hlen

/-- C14, witness: a `say` command of three fields by an unmuted client. -/
theorem length_mismatch_first_witness :
    handleSay (roomWith []) ["say", "a", "b"] (freshClient (roomWith [])) =
      reject (freshClient (roomWith [])) (some .lengthMismatch) :=
  length_mismatch_first.2.2.2.2.2.2.2.2.2.2.2.1 (roomWith []) ["say", "a", "b"]
    (freshClient (roomWith [])) rfl (by decide)

/-- C14, counterexample: a muted sender sends a `say` command of one field
instead of two; `handleSay` returns nil, not the length-mismatch failure. -/
theorem handleSay_muted_no_mismatch :
    mutedClient.sClient.muted = true ∧ ["say"].length ≠ 2 ∧
    (handleSay (roomWith []) ["say"] mutedClient).exit = .returned none ∧
    (handleSay (roomWith []) ["say"] mutedClient).exit ≠ .returned (some .lengthMismatch) := by
  decide

/-! ### Out-of-range fields -/

/-- A validated field that parses: accepted when in range, and otherwise the
nil `errconv` is what the handler returns. -/
theorem parseField_of_atoi (s : String) (ok : Int → Bool) (v : Int) (hs : atoi s = .ok v) :
    parseField s ok = if ok v then .ok v else .error none := by
  simp [parseField, hs]

/-- The validation of `handleFl` on five fields that parse. -/
theorem parseFlash_of_atoi (f1 f2 f3 f4 f5 : String) (r g b p fr : Int)
    (h1 : atoi f1 = .ok r) (h2 : atoi f2 = .ok g) (h3 : atoi f3 = .ok b)
    (h4 : atoi f4 = .ok p) (h5 : atoi f5 = .ok fr) :
    parseFlash f1 f2 f3 f4 f5 =
      if 0 ≤ r ∧ r ≤ 255 ∧ 0 ≤ g ∧ g ≤ 255 ∧ 0 ≤ b ∧ b ≤ 255 ∧ 0 ≤ p ∧ 0 ≤ fr then
        .ok (r, g, b, p, fr)
      else .error none := by
  simp only [parseFlash, parseField_of_atoi _ _ _ h1, parseField_of_atoi _ _ _ h2,
    parseField_of_atoi _ _ _ h3, parseField_of_atoi _ _ _ h4, parseField_of_atoi _ _ _ h5,
    bind, Except.bind, pure, Except.pure]
  split_ifs <;> simp_all

/-- A validated field is rejected exactly when it is not an integer in
range. -/
theorem parseField_cases (s : String) (ok : Int → Bool) :
    (fieldOk s ok = true ∧ ∃ v, parseField s ok = .ok v) ∨
    (fieldOk s ok = false ∧ ∃ e, parseField s ok = .error e) := by
  unfold fieldOk parseField
  cases atoi s with
  | error e => exact Or.inr ⟨rfl, _, rfl⟩
  | ok v =>
    cases hv : ok v with
    | true => exact Or.inl ⟨hv, v, by simp [hv]⟩
    | false => exact Or.inr ⟨hv, none, by simp [hv]⟩

/-- The validation of `handleFl` fails exactly on invalid flash fields. -/
theorem parseFlash_cases (f1 f2 f3 f4 f5 : String) :
    (validFlash ["", f1, f2, f3, f4, f5] = true ∧ ∃ v, parseFlash f1 f2 f3 f4 f5 = .ok v) ∨
    (validFlash ["", f1, f2, f3, f4, f5] = false ∧ ∃ e, parseFlash f1 f2 f3 f4 f5 = .error e) := by
  simp only [validFlash, parseFlash, bind, Except.bind, pure, Except.pure]
  rcases parseField_cases f1 (fun v => decide (0 ≤ v) && decide (v ≤ 255))
    with ⟨a1, v1, p1⟩ | ⟨a1, e1, p1⟩ <;>
  rcases parseField_cases f2 (fun v => decide (0 ≤ v) && decide (v ≤ 255))
    with ⟨a2, v2, p2⟩ | ⟨a2, e2, p2⟩ <;>
  rcases parseField_cases f3 (fun v => decide (0 ≤ v) && decide (v ≤ 255))
    with ⟨a3, v3, p3⟩ | ⟨a3, e3, p3⟩ <;>
  rcases parseField_cases f4 (fun v => decide (0 ≤ v)) with ⟨a4, v4, p4⟩ | ⟨a4, e4, p4⟩ <;>
  rcases parseField_cases f5 (fun v => decide (0 ≤ v)) with ⟨a5, v5, p5⟩ | ⟨a5, e5, p5⟩ <;>
  simp [a1, a2, a3, a4, a5, p1, p2, p3, p4, p5]

/-- The validation of `handleSe` fails exactly on invalid sound fields. -/
theorem parseSound_cases (f2 f3 f4 : String) :
    ((fieldOk f2 (fun v => decide (0 ≤ v) && decide (v ≤ 100)) &&
        fieldOk f3 (fun v => decide (10 ≤ v) && decide (v ≤ 400)) &&
        fieldOk f4 (fun v => decide (0 ≤ v) && decide (v ≤ 100))) = true ∧
      ∃ v, parseSound f2 f3 f4 = .ok v) ∨
    ((fieldOk f2 (fun v => decide (0 ≤ v) && decide (v ≤ 100)) &&
        fieldOk f3 (fun v => decide (10 ≤ v) && decide (v ≤ 400)) &&
        fieldOk f4 (fun v => decide (0 ≤ v) && decide (v ≤ 100))) = false ∧
      ∃ e, parseSound f2 f3 f4 = .error e) := by
  simp only [parseSound, bind, Except.bind, pure, Except.pure]
  rcases parseField_cases f2 (fun v => decide (0 ≤ v) && decide (v ≤ 100))
    with ⟨a2, v2, p2⟩ | ⟨a2, e2, p2⟩ <;>
  rcases parseField_cases f3 (fun v => decide (10 ≤ v) && decide (v ≤ 400))
    with ⟨a3, v3, p3⟩ | ⟨a3, e3, p3⟩ <;>
  rcases parseField_cases f4 (fun v => decide (0 ≤ v) && decide (v ≤ 100))
    with ⟨a4, v4, p4⟩ | ⟨a4, e4, p4⟩ <;>
  simp [a2, a3, a4, p2, p3, p4]

/-- C16: for the handlers m/tp, f, spd, spr, fl/rfl, h, sys, se and rp, a
command that the arity check or the validation of some field rejects (it is
not valid in the sense of the command table, whichever field fails, also a
later one after valid earlier ones) leaves the client state as it was and
issues no broadcast and no direct message: the outcome is a plain return,
with an empty trace. A valid command, conversely, is applied: its trace is
not empty and nil is returned. -/
theorem rejected_command_no_effect :
    (∀ (h : Hub) (msg : List String) (sender : HubClient),
      (validMove msg = false → ∃ e, handleM h msg sender = reject sender e) ∧
      (validMove msg = true → (handleM h msg sender).effects ≠ [] ∧
        (handleM h msg sender).exit = .returned none)) ∧
    (∀ (h : Hub) (msg : List String) (sender : HubClient),
      (validFacing msg = false → ∃ e, handleF h msg sender = reject sender e) ∧
      (validFacing msg = true → (handleF h msg sender).effects ≠ [] ∧
        (handleF h msg sender).exit = .returned none)) ∧
    (∀ (h : Hub) (msg : List String) (sender : HubClient),
      (validSpeed msg = false → ∃ e, handleSpd h msg sender = reject sender e) ∧
      (validSpeed msg = true → (handleSpd h msg sender).effects ≠ [] ∧
        (handleSpd h msg sender).exit = .returned none)) ∧
    (∀ (σ : Type) (env : Env σ) (h : Hub) (msg : List String) (sender : HubClient),
      (validSprite env h msg = false → ∃ e, handleSpr env h msg sender = reject sender e) ∧
      (validSprite env h msg = true → (handleSpr env h msg sender).effects ≠ [] ∧
        (handleSpr env h msg sender).exit = .returned none)) ∧
    (∀ (h : Hub) (msg : List String) (sender : HubClient),
      (validFlash msg = false → ∃ e, handleFl h msg sender = reject sender e) ∧
      (validFlash msg = true → (handleFl h msg sender).effects ≠ [] ∧
        (handleFl h msg sender).exit = .returned none)) ∧
    (∀ (h : Hub) (msg : List String) (sender : HubClient),
      (validHidden msg = false → ∃ e, handleH h msg sender = reject sender e) ∧
      (validHidden msg = true → (handleH h msg sender).effects ≠ [] ∧
        (handleH h msg sender).exit = .returned none)) ∧
    (∀ (σ : Type) (env : Env σ) (h : Hub) (msg : List String) (sender : HubClient),
      (validSystem env msg = false → ∃ e, handleSys env h msg sender = reject sender e) ∧
      (validSystem env msg = true → (handleSys env h msg sender).effects ≠ [] ∧
        (handleSys env h msg sender).exit = .returned none)) ∧
    (∀ (σ : Type) (env : Env σ) (h : Hub) (msg : List String) (sender : HubClient),
      (validSound env msg = false → ∃ e, handleSe env h msg sender = reject sender e) ∧
      (validSound env msg = true → (handleSe env h msg sender).effects ≠ [] ∧
        (handleSe env h msg sender).exit = .returned none)) ∧
    (∀ (h : Hub) (msg : List String) (sender : HubClient),
      (validErase msg = false → ∃ e, handleRp h msg sender = reject sender e) ∧
      (validErase msg = true → (handleRp h msg sender).effects ≠ [] ∧
        (handleRp h msg sender).exit = .returned none)) := by
  refine ⟨?_, ?_, ?_, ?_, ?_, ?_, ?_, ?_, ?_⟩
  · intro h msg sender
    rcases msg with _ | ⟨a, _ | ⟨b, _ | ⟨c, _ | ⟨d, r⟩⟩⟩⟩ <;>
      try exact ⟨fun _ => ⟨_, rfl⟩, fun hv => by simp [validMove] at hv⟩
    cases hb : atoi b with
    | error e => simp [validMove, fieldOk, handleM, hb, reject]
    | ok x =>
      cases hc : atoi c with
      | error e =>
        by_cases hx : x < 0 <;> simp [validMove, fieldOk, handleM, hb, hc, reject, hx]
      | ok y =>
        by_cases hx : x < 0 <;> by_cases hy : y < 0 <;>
          simp [validMove, fieldOk, handleM, hb, hc, reject, hx, hy] <;>
          first | omega | (split_ifs <;> simp)
  · intro h msg sender
    rcases msg with _ | ⟨a, _ | ⟨b, _ | ⟨c, r⟩⟩⟩ <;>
      try exact ⟨fun _ => ⟨_, rfl⟩, fun hv => by simp [validFacing] at hv⟩
    simp only [validFacing, handleF]
    rcases parseField_cases b (fun v => decide (0 ≤ v) && decide (v ≤ 3))
      with ⟨a1, v1, p1⟩ | ⟨a1, e1, p1⟩ <;> simp [a1, p1, reject]
  · intro h msg sender
    rcases msg with _ | ⟨a, _ | ⟨b, _ | ⟨c, r⟩⟩⟩ <;>
      try exact ⟨fun _ => ⟨_, rfl⟩, fun hv => by simp [validSpeed] at hv⟩
    cases hb : atoi b with
    | error e => simp [validSpeed, fieldOk, handleSpd, hb, reject]
    | ok v =>
      by_cases h0 : v < 0 <;> by_cases h10 : v > 10 <;>
        simp [validSpeed, fieldOk, handleSpd, hb, reject, h0, h10]
  · intro σ env h msg sender
    rcases msg with _ | ⟨a, _ | ⟨b, _ | ⟨c, _ | ⟨d, r⟩⟩⟩⟩ <;>
      try exact ⟨fun _ => ⟨_, rfl⟩, fun hv => by simp [validSprite] at hv⟩
    simp only [validSprite, handleSpr]
    cases env.isValidSprite b <;> cases spriteRestricted env h b <;>
      rcases parseField_cases c (fun v => decide (0 ≤ v))
        with ⟨a1, v1, p1⟩ | ⟨a1, e1, p1⟩ <;> simp [a1, p1, reject]
  · intro h msg sender
    rcases msg with _ | ⟨a, _ | ⟨b, _ | ⟨c, _ | ⟨d, _ | ⟨e, _ | ⟨f, _ | ⟨g, r⟩⟩⟩⟩⟩⟩⟩ <;>
      try exact ⟨fun _ => ⟨_, rfl⟩, fun hv => by simp [validFlash] at hv⟩
    have hsame : validFlash [a, b, c, d, e, f] = validFlash ["", b, c, d, e, f] := rfl
    rw [hsame]
    rcases parseFlash_cases b c d e f with ⟨a1, v1, p1⟩ | ⟨a1, e1, p1⟩
    · obtain ⟨r, g, bl, p, fr⟩ := v1
      simp [a1, handleFl, p1]
    · simp [a1, handleFl, p1, reject]
  · intro h msg sender
    rcases msg with _ | ⟨a, _ | ⟨b, _ | ⟨c, r⟩⟩⟩ <;>
      try exact ⟨fun _ => ⟨_, rfl⟩, fun hv => by simp [validHidden] at hv⟩
    simp only [validHidden, handleH]
    rcases parseField_cases b (fun v => decide (0 ≤ v) && decide (v ≤ 1))
      with ⟨a1, v1, p1⟩ | ⟨a1, e1, p1⟩ <;> simp [a1, p1, reject]
  · intro σ env h msg sender
    rcases msg with _ | ⟨a, _ | ⟨b, _ | ⟨c, r⟩⟩⟩ <;>
      try exact ⟨fun _ => ⟨_, rfl⟩, fun hv => by simp [validSystem] at hv⟩
    simp only [validSystem, handleSys]
    cases env.isValidSystem b false <;> simp [reject]
  · intro σ env h msg sender
    rcases msg with _ | ⟨a, _ | ⟨b, _ | ⟨c, _ | ⟨d, _ | ⟨e, _ | ⟨f, r⟩⟩⟩⟩⟩⟩ <;>
      try exact ⟨fun _ => ⟨_, rfl⟩, fun hv => by simp [validSound] at hv⟩
    simp only [validSound, handleSe]
    cases env.isValidSound b
    · simp [reject]
    · rcases parseSound_cases c d e with ⟨a1, v1, p1⟩ | ⟨a1, e1, p1⟩
      · simp only [Bool.and_eq_true] at a1
        simp [a1, p1]
      · simp only [Bool.true_and, Bool.not_true, Bool.false_eq_true, if_false]
        rw [Bool.and_assoc] at a1 ⊢
        simp [a1, p1, reject]
  · intro h msg sender
    rcases msg with _ | ⟨a, _ | ⟨b, _ | ⟨c, r⟩⟩⟩ <;>
      try exact ⟨fun _ => ⟨_, rfl⟩, fun hv => by simp [validErase] at hv⟩
    cases hb : atoi b with
    | error e => simp [validErase, fieldOk, handleRp, hb, reject]
    | ok v =>
      by_cases h1 : v < 1 <;> simp [validErase, fieldOk, handleRp, hb, reject, h1]

/-- C16, witness: a flash command whose first four values are valid and
whose last is not a number leaves a fresh client as it was, with an empty
trace. -/
theorem rejected_command_no_effect_witness :
    ∃ e, handleFl (roomWith []) ["rfl", "1", "2", "3", "4", "x"] (freshClient (roomWith [])) =
      reject (freshClient (roomWith [])) e :=
  (rejected_command_no_effect.2.2.2.2.1 (roomWith []) ["rfl", "1", "2", "3", "4", "x"]
    (freshClient (roomWith []))).1 (by decide)

/-! ### Scripted events (`handleSev`) -/

/-- C19: for a 3-field `sev` command whose action field is 0 or 1, the trace
of `handleSev` starts with the evaluation of the condition class `event`
(action 0) or `eventAction` (action 1) for the given event id field,
whatever follows. Then `tryCompleteEventVm` is called, once, for the active
period, the sender, the active room and the active event, if and only if
the room id of the sender's hub is the active scripted-event room and the
event id field parses to the active scripted-event id. The message `vm`
with the returned experience goes to the sender only after such a call,
when the call returned no error and an experience above -1; nothing else is
in the trace. -/
theorem handleSev_flow {σ : Type} (env : Env σ) (h : Hub) (db : σ) (cmd f1 f2 : String)
    (sender : HubClient) (actionBin : Int)
    (hact : atoi f2 = .ok actionBin) (hrange : 0 ≤ actionBin ∧ actionBin ≤ 1) :
    (handleSev env h db [cmd, f1, f2] sender).1.effects =
      Effect.checkHubConditions (if actionBin = 1 then "eventAction" else "event") f1 ::
        (if sender.hub.roomId = env.currentEventVmMapId ∧
            atoi f1 = .ok env.currentEventVmEventId then
          Effect.tryCompleteEventVm env.currentEventPeriodId sender.sClient.uuid
              env.currentEventVmMapId env.currentEventVmEventId ::
            (if (env.tryCompleteEventVm
                  (env.checkHubConditionsDb db h sender
                    (if actionBin = 1 then "eventAction" else "event") f1)
                  env.currentEventPeriodId sender.sClient.uuid env.currentEventVmMapId
                  env.currentEventVmEventId).2.err = none ∧
                (env.tryCompleteEventVm
                  (env.checkHubConditionsDb db h sender
                    (if actionBin = 1 then "eventAction" else "event") f1)
                  env.currentEventPeriodId sender.sClient.uuid env.currentEventVmMapId
                  env.currentEventVmEventId).2.exp > -1 then
              [Effect.sessionSendMsg [.str "vm", .int (env.tryCompleteEventVm
                  (env.checkHubConditionsDb db h sender
                    (if actionBin = 1 then "eventAction" else "event") f1)
                  env.currentEventPeriodId sender.sClient.uuid env.currentEventVmMapId
                  env.currentEventVmEventId).2.exp]]
            else [])
        else []) ∧
    ((∃ p u r e, Effect.tryCompleteEventVm p u r e ∈
        (handleSev env h db [cmd, f1, f2] sender).1.effects) ↔
      sender.hub.roomId = env.currentEventVmMapId ∧
        atoi f1 = .ok env.currentEventVmEventId) := by
  have p2 := parseField_of_atoi f2 (fun v => decide (0 ≤ v) && decide (v ≤ 1)) actionBin hact
  have hin : (decide (0 ≤ actionBin) && decide (actionBin ≤ 1)) = true := by
    simp [hrange.1, hrange.2]
  simp only [hin, if_true] at p2
  have key : (handleSev env h db [cmd, f1, f2] sender).1.effects =
      Effect.checkHubConditions (if actionBin = 1 then "eventAction" else "event") f1 ::
        (if sender.hub.roomId = env.currentEventVmMapId ∧
            atoi f1 = .ok env.currentEventVmEventId then
          Effect.tryCompleteEventVm env.currentEventPeriodId sender.sClient.uuid
              env.currentEventVmMapId env.currentEventVmEventId ::
            (if (env.tryCompleteEventVm
                  (env.checkHubConditionsDb db h sender
                    (if actionBin = 1 then "eventAction" else "event") f1)
                  env.currentEventPeriodId sender.sClient.uuid env.currentEventVmMapId
                  env.currentEventVmEventId).2.err = none ∧
                (env.tryCompleteEventVm
                  (env.checkHubConditionsDb db h sender
                    (if actionBin = 1 then "eventAction" else "event") f1)
                  env.currentEventPeriodId sender.sClient.uuid env.currentEventVmMapId
                  env.currentEventVmEventId).2.exp > -1 then
              [Effect.sessionSendMsg [.str "vm", .int (env.tryCompleteEventVm
                  (env.checkHubConditionsDb db h sender
                    (if actionBin = 1 then "eventAction" else "event") f1)
                  env.currentEventPeriodId sender.sClient.uuid env.currentEventVmMapId
                  env.currentEventVmEventId).2.exp]]
            else [])
        else []) := by
    simp only [handleSev, p2]
    by_cases hroom : sender.hub.roomId = env.currentEventVmMapId
    · cases hf : atoi f1 with
      | error e => simp [hroom]
      | ok eventIdInt =>
        by_cases hev : env.currentEventVmEventId = eventIdInt
        · subst hev
          simp only [hroom, ne_eq, not_true_eq_false, if_false, true_and, if_true]
          cases herr : (env.tryCompleteEventVm
              (env.checkHubConditionsDb db h sender
                (if actionBin = 1 then "eventAction" else "event") f1)
              env.currentEventPeriodId sender.sClient.uuid env.currentEventVmMapId
              env.currentEventVmEventId).2.err with
          | some e => simp
          | none => simp
        · have hev2 : ¬ eventIdInt = env.currentEventVmEventId := fun hx => hev hx.symm
          simp [hroom, hev, hev2]
    · simp [hroom]
  refine ⟨key, ?_⟩
  rw [key]
  by_cases hcond : sender.hub.roomId = env.currentEventVmMapId ∧
      atoi f1 = .ok env.currentEventVmEventId
  · simp only [hcond, and_self, if_true, iff_true]
    exact ⟨_, _, _, _, List.mem_cons_of_mem _ (List.mem_cons_self _ _)⟩
  · simp only [hcond, if_false, iff_false]
    rintro ⟨p, u, r, e, hmem⟩
    simp at hmem

/-- C19, witness: in the active room 1 a fresh client reports the active
event 5: the class `event` is evaluated, the completion is written and the
experience 10 is sent. -/
theorem handleSev_flow_witness :
    (handleSev exampleEnv (roomWith []) [] ["sev", "5", "0"]
      (freshClient (roomWith []))).1.effects =
      [Effect.checkHubConditions "event" "5", Effect.tryCompleteEventVm 1 "u7" 1 5,
       Effect.sessionSendMsg [.str "vm", .int 10]] :=
  (handleSev_flow exampleEnv (roomWith []) [] "sev" "5" "0" (freshClient (roomWith [])) 0
    (by decide) (by decide)).1

/-! ### Names (`handleName`) -/

/-- An ASCII letter or digit takes one byte. -/
theorem utf8Size_of_isAsciiAlnum (c : Char) (hc : isAsciiAlnum c = true) : c.utf8Size = 1 := by
  have h127 : c.val ≤ 127 := by
    simp only [isAsciiAlnum, Bool.or_eq_true, Bool.and_eq_true, decide_eq_true_eq] at hc
    rcases hc with (⟨_, hz⟩ | ⟨_, hz⟩) | ⟨_, hz⟩
    · exact UInt32.le_trans hz (by decide)
    · exact UInt32.le_trans hz (by decide)
    · exact UInt32.le_trans hz (by decide)
  unfold Char.utf8Size
  simp [h127]

/-- A string of ASCII letters and digits has as many bytes as characters. -/
theorem len_of_isAsciiAlnum (cs : List Char) (hcs : ∀ c ∈ cs, isAsciiAlnum c = true) :
    String.utf8ByteSize.go cs = cs.length := by
  induction cs with
  | nil => rfl
  | cons c cs ih =>
    have hc := utf8Size_of_isAsciiAlnum c (hcs c (List.mem_cons_self _ _))
    have := ih (fun d hd => hcs d (List.mem_cons_of_mem _ hd))
    simp only [String.utf8ByteSize.go, List.length_cons, this, hc]

/-- The test of `handleName` on the candidate, in words: non-empty, only
ASCII letters and digits, at most 12 characters. -/
theorem candidate_ok_iff (f1 : String) :
    (isOkString f1 = true ∧ ¬ len f1 > 12) ↔
      f1 ≠ "" ∧ (∀ c ∈ f1.data, isAsciiAlnum c = true) ∧ f1.length ≤ 12 := by
  cases f1 with
  | mk cs =>
    have hne : (String.mk cs ≠ "") ↔ cs ≠ [] := by
      constructor
      · intro hs hcs
        exact hs (by rw [hcs])
      · intro hcs hs
        exact hcs (by simpa using congrArg String.data hs)
    simp only [isOkString, Bool.and_eq_true, Bool.not_eq_true', List.isEmpty_eq_false,
      List.all_eq_true, hne, len, String.utf8ByteSize, String.length]
    constructor
    · rintro ⟨⟨h1, h2⟩, h3⟩
      rw [len_of_isAsciiAlnum cs h2] at h3
      exact ⟨h1, h2, by omega⟩
    · rintro ⟨h1, h2, h3⟩
      rw [len_of_isAsciiAlnum cs h2]
      exact ⟨⟨h1, h2⟩, by omega⟩

/-- A non-empty name survives every message. -/
theorem handleName_keeps (msg : List String) (sender : SessionClient)
    (hClient : Option HubClient) (hname : sender.name ≠ "") :
    (handleName msg sender hClient).sender.name = sender.name := by
  unfold handleName
  cases hClient with
  | none => rfl
  | some hc =>
    rcases msg with _ | ⟨a, _ | ⟨b, _ | ⟨c, r⟩⟩⟩ <;> simp [hname]

/-- After a message the name is the old one or a non-empty one. -/
theorem handleName_old_or_nonempty (msg : List String) (sender : SessionClient)
    (hClient : Option HubClient) :
    (handleName msg sender hClient).sender.name = sender.name ∨
    (handleName msg sender hClient).sender.name ≠ "" := by
  unfold handleName
  cases hClient with
  | none => exact Or.inl rfl
  | some hc =>
    rcases msg with _ | ⟨a, _ | ⟨b, _ | ⟨c, r⟩⟩⟩
    · exact Or.inl rfl
    · exact Or.inl rfl
    · by_cases hcond : (sender.name ≠ "" || !isOkString b || decide (len b > 12)) = true
      · simp only [hcond, if_true]
        exact Or.inl trivial
      · simp only [hcond, if_false]
        refine Or.inr ?_
        simp only [Bool.or_eq_true, Bool.not_eq_true', not_or, Bool.not_eq_false,
          decide_eq_true_eq] at hcond
        exact ((candidate_ok_iff b).mp ⟨hcond.1.2, hcond.2⟩).1
    · exact Or.inl rfl

/-- A non-empty name survives every sequence of messages. -/
theorem runNames_keeps (hc : HubClient) (cmds : List (List String)) (sender : SessionClient)
    (hname : sender.name ≠ "") : (runNames hc cmds sender).name = sender.name := by
  induction cmds generalizing sender with
  | nil => rfl
  | cons msg rest ih =>
    have hk := handleName_keeps msg sender (some hc) hname
    simp only [runNames]
    rw [ih _ (by rw [hk]; exact hname), hk]

/-- After a sequence of messages the name is the old one or a non-empty
one. -/
theorem runNames_old_or_nonempty (hc : HubClient) (cmds : List (List String))
    (sender : SessionClient) :
    (runNames hc cmds sender).name = sender.name ∨ (runNames hc cmds sender).name ≠ "" := by
  induction cmds generalizing sender with
  | nil => exact Or.inl rfl
  | cons msg rest ih =>
    simp only [runNames]
    rcases ih (handleName msg sender (some hc)).sender with h1 | h1
    · rcases handleName_old_or_nonempty msg sender (some hc) with h2 | h2
      · exact Or.inl (h1.trans h2)
      · exact Or.inr (by rw [h1]; exact h2)
    · exact Or.inr h1

/-- Running two sequences one after the other. -/
theorem runNames_append (hc : HubClient) (cmds more : List (List String))
    (sender : SessionClient) :
    runNames hc (cmds ++ more) sender = runNames hc more (runNames hc cmds sender) := by
  induction cmds generalizing sender with
  | nil => rfl
  | cons msg rest ih =>
    rw [List.cons_append]
    exact ih _

/-- C20: for a session client that is in a room and a 2-field name command,
`handleName` changes the stored name if and only if the current name is
empty and the candidate is non-empty, consists only of ASCII letters and
digits and has at most 12 characters, and the new name is then the
candidate. Hence over any sequence of commands a non-empty name is never
overwritten, and once the name has changed it does not change again. -/
theorem handleName_sets_name_once :
    (∀ (cmd f1 : String) (sender : SessionClient) (hc : HubClient),
      ((handleName [cmd, f1] sender (some hc)).sender.name ≠ sender.name ↔
        sender.name = "" ∧ f1 ≠ "" ∧ (∀ c ∈ f1.data, isAsciiAlnum c = true) ∧
          f1.length ≤ 12) ∧
      ((handleName [cmd, f1] sender (some hc)).sender.name ≠ sender.name →
        (handleName [cmd, f1] sender (some hc)).sender.name = f1)) ∧
    (∀ (hc : HubClient) (cmds : List (List String)) (sender : SessionClient),
      sender.name ≠ "" → (runNames hc cmds sender).name = sender.name) ∧
    (∀ (hc : HubClient) (cmds more : List (List String)) (sender : SessionClient),
      (runNames hc cmds sender).name ≠ sender.name →
      (runNames hc (cmds ++ more) sender).name = (runNames hc cmds sender).name) := by
  refine ⟨?_, runNames_keeps, ?_⟩
  · intro cmd f1 sender hc
    have hiff := candidate_ok_iff f1
    by_cases hcond : (sender.name ≠ "" || !isOkString f1 || decide (len f1 > 12)) = true
    · have hsame : (handleName [cmd, f1] sender (some hc)).sender.name = sender.name := by
        simp only [handleName, hcond, if_true]
      rw [hsame]
      refine ⟨⟨fun hx => absurd rfl hx, ?_⟩, fun hx => absurd rfl hx⟩
      rintro ⟨h0, hrest⟩
      have hok := hiff.mpr hrest
      simp only [Bool.or_eq_true, Bool.not_eq_true', decide_eq_true_eq] at hcond
      rcases hcond with (hx | hx) | hx
      · simp [h0] at hx
      · rw [hok.1] at hx
        cases hx
      · exact absurd hx hok.2
    · have hnew : (handleName [cmd, f1] sender (some hc)).sender.name = f1 := by
        simp only [handleName, hcond]
        rfl
      rw [hnew]
      simp only [Bool.or_eq_true, Bool.not_eq_true', not_or, Bool.not_eq_false,
        decide_eq_true_eq] at hcond
      obtain ⟨⟨h0, hok⟩, hlen⟩ := hcond
      have h0e : sender.name = "" := by simpa using h0
      have hwords := hiff.mp ⟨hok, hlen⟩
      refine ⟨⟨fun _ => ⟨h0e, hwords⟩, fun _ => ?_⟩, fun _ => rfl⟩
      rw [h0e]
      exact hwords.1
  · intro hc cmds more sender hchanged
    rw [runNames_append]
    rcases runNames_old_or_nonempty hc cmds sender with h1 | h1
    · exact absurd h1 hchanged
    · exact runNames_keeps hc more _ h1

/-- C20, witness: a nameless client in a room sends `name ann`, then
`name bob`: the name is `ann` after the first command and stays `ann`. -/
theorem handleName_sets_name_once_witness :
    (runNames (freshClient (roomWith [])) [["name", "ann"]] namelessSession).name = "ann" ∧
    (runNames (freshClient (roomWith [])) ([["name", "ann"]] ++ [["name", "bob"]])
      namelessSession).name = "ann" :=
  ⟨by decide,
   (handleName_sets_name_once.2.2 (freshClient (roomWith [])) [["name", "ann"]]
      [["name", "bob"]] namelessSession (by decide)).trans (by decide)⟩

/-! ### The shape of `handleSs` and `handleSv` -/

/-- The three ways `handleSs` can go: a plain return without effect (wrong
arity or invalid field), the time-trial switch 1430, or the two loops, over
the minigame configs and over the conditions, run on the sender with the
updated switch cache. -/
theorem handleSs_cases {σ : Type} (env : Env σ) (h : Hub) (db : σ) (msg : List String)
    (sender : HubClient) :
    (∃ e, handleSs env h db msg sender = (reject sender e, db)) ∨
    (∃ switchId value, handleSs env h db msg sender =
      ({ sender := { sender with switchCache := mapSet sender.switchCache switchId value }
         effects := if value then [Effect.sendMsg [.str "sv", .str "88", .str "0"]] else []
         exit := .returned none }, db)) ∨
    (∃ switchId value, handleSs env h db msg sender =
      ({ sender := { sender with switchCache := mapSet sender.switchCache switchId value }
         effects :=
           (forEach (ssMinigame env
             { sender with switchCache := mapSet sender.switchCache switchId value }
             switchId value) db sender.hub.minigameConfigs.enum).effects ++
           (forEach (ssCondition env
             { sender with switchCache := mapSet sender.switchCache switchId value }
             switchId value)
             (forEach (ssMinigame env
               { sender with switchCache := mapSet sender.switchCache switchId value }
               switchId value) db sender.hub.minigameConfigs.enum).db
             (env.globalConditions ++ h.conditions)).effects
         exit := (forEach (ssCondition env
             { sender with switchCache := mapSet sender.switchCache switchId value }
             switchId value)
             (forEach (ssMinigame env
               { sender with switchCache := mapSet sender.switchCache switchId value }
               switchId value) db sender.hub.minigameConfigs.enum).db
             (env.globalConditions ++ h.conditions)).left.getD (.returned none) },
       (forEach (ssCondition env
             { sender with switchCache := mapSet sender.switchCache switchId value }
             switchId value)
             (forEach (ssMinigame env
               { sender with switchCache := mapSet sender.switchCache switchId value }
               switchId value) db sender.hub.minigameConfigs.enum).db
             (env.globalConditions ++ h.conditions)).db)) := by
  rcases msg with _ | ⟨cmd, _ | ⟨f1, _ | ⟨f2, _ | ⟨x, rest⟩⟩⟩⟩
  · exact Or.inl ⟨_, rfl⟩
  · exact Or.inl ⟨_, rfl⟩
  · exact Or.inl ⟨_, rfl⟩
  · cases hid : atoi f1 with
    | error e => exact Or.inl ⟨some e, by simp only [handleSs, hid]⟩
    | ok switchId =>
      cases hp : parseField f2 (fun v => decide (0 ≤ v) && decide (v ≤ 1)) with
      | error e => exact Or.inl ⟨e, by simp only [handleSs, hid, hp]⟩
      | ok valueBin =>
        by_cases hsp : (decide (switchId = 1430) && decide (env.gameName = "2kki")) = true
        · exact Or.inr (Or.inl ⟨switchId, valueBin == 1, by simp only [handleSs, hid, hp, hsp, if_true]⟩)
        · exact Or.inr (Or.inr ⟨switchId, valueBin == 1, by simp only [handleSs, hid, hp, hsp]; rfl⟩)
  · exact Or.inl ⟨_, rfl⟩

/-- The three ways `handleSv` can go: a plain return without effect (wrong
arity or invalid field), the loop for the elapsed-time variable 88, or the
two loops, over the minigame configs and over the conditions; the loops run
on the sender with the updated variable cache. -/
theorem handleSv_cases {σ : Type} (env : Env σ) (h : Hub) (db : σ) (msg : List String)
    (sender : HubClient) :
    (∃ e, handleSv env h db msg sender = (reject sender e, db)) ∨
    (∃ varId value, handleSv env h db msg sender =
      ({ sender := { sender with varCache := mapSet sender.varCache varId value }
         effects := (forEach (svTimeTrial env h
             { sender with varCache := mapSet sender.varCache varId value } value) db
             (env.globalConditions ++ h.conditions)).effects
         exit := (forEach (svTimeTrial env h
             { sender with varCache := mapSet sender.varCache varId value } value) db
             (env.globalConditions ++ h.conditions)).left.getD (.returned none) },
       (forEach (svTimeTrial env h
             { sender with varCache := mapSet sender.varCache varId value } value) db
             (env.globalConditions ++ h.conditions)).db)) ∨
    (∃ varId value, handleSv env h db msg sender =
      ({ sender := { sender with varCache := mapSet sender.varCache varId value }
         effects :=
           (forEach (svMinigame env
             { sender with varCache := mapSet sender.varCache varId value }
             varId value) db sender.hub.minigameConfigs.enum).effects ++
           (forEach (svCondition env
             { sender with varCache := mapSet sender.varCache varId value }
             varId value)
             (forEach (svMinigame env
               { sender with varCache := mapSet sender.varCache varId value }
               varId value) db sender.hub.minigameConfigs.enum).db
             (env.globalConditions ++ h.conditions)).effects
         exit := (forEach (svCondition env
             { sender with varCache := mapSet sender.varCache varId value }
             varId value)
             (forEach (svMinigame env
               { sender with varCache := mapSet sender.varCache varId value }
               varId value) db sender.hub.minigameConfigs.enum).db
             (env.globalConditions ++ h.conditions)).left.getD (.returned none) },
       (forEach (svCondition env
             { sender with varCache := mapSet sender.varCache varId value }
             varId value)
             (forEach (svMinigame env
               { sender with varCache := mapSet sender.varCache varId value }
               varId value) db sender.hub.minigameConfigs.enum).db
             (env.globalConditions ++ h.conditions)).db)) := by
  rcases msg with _ | ⟨cmd, _ | ⟨f1, _ | ⟨f2, _ | ⟨x, rest⟩⟩⟩⟩
  · exact Or.inl ⟨_, rfl⟩
  · exact Or.inl ⟨_, rfl⟩
  · exact Or.inl ⟨_, rfl⟩
  · cases hid : atoi f1 with
    | error e => exact Or.inl ⟨some e, by simp only [handleSv, hid]⟩
    | ok varId =>
      cases hval : atoi f2 with
      | error e => exact Or.inl ⟨some e, by simp only [handleSv, hid, hval]⟩
      | ok value =>
        by_cases hsp : (decide (varId = 88) && decide (env.gameName = "2kki")) = true
        · exact Or.inr (Or.inl ⟨varId, value, by simp only [handleSv, hid, hval, hsp, if_true]⟩)
        · exact Or.inr (Or.inr ⟨varId, value, by simp only [handleSv, hid, hval, hsp]; rfl⟩)
  · exact Or.inl ⟨_, rfl⟩

/-- A reading of the trace that passes each run of the body passes the whole
loop. -/
theorem forEach_replay {σ α β : Type} (R : σ → List Effect → β) (body : σ → α → Step σ)
    (hbody : ∀ db a rest, R db ((body db a).effects ++ rest) = R (body db a).db rest)
    (db : σ) (l : List α) (rest : List Effect) :
    R db ((forEach body db l).effects ++ rest) = R (forEach body db l).db rest := by
  induction l generalizing db with
  | nil => rfl
  | cons a l ih =>
    unfold forEach
    cases hl : (body db a).left with
    | some x => simp only [hl]; exact hbody db a rest
    | none =>
      simp only [hl, List.append_assoc]
      rw [hbody, ih]

/-! ### Badge notices -/

/-- The award block: its notice matches the answer of `tryWritePlayerTag`. -/
theorem awardTag_badge {σ : Type} (env : Env σ) (sender : HubClient) (db : σ) (c : Condition)
    (rest : List Effect) :
    badgeReplay env db false ((awardTag env sender db c).effects ++ rest) =
      badgeReplay env (awardTag env sender db c).db false rest := by
  unfold awardTag
  cases c.TimeTrial with
  | true =>
    by_cases hg : env.gameName = "2kki" <;> simp [hg, badgeReplay]
  | false =>
    cases env.checkConditionCoords c sender with
    | false => simp
    | true =>
      simp only [Bool.not_false, if_true]
      cases herr : (env.tryWritePlayerTag db sender.sClient.uuid c.ConditionId).2.err with
      | some e => simp [badgeReplay, herr]
      | none =>
        cases hs : (env.tryWritePlayerTag db sender.sClient.uuid c.ConditionId).2.success <;>
          simp [badgeReplay, herr, hs]

/-- The body of the condition loop of `handleSs`: notices match answers. -/
theorem ssCondition_badge {σ : Type} (env : Env σ) (sender : HubClient) (switchId : Int)
    (value : Bool) (db : σ) (c : Condition) (rest : List Effect) :
    badgeReplay env db false ((ssCondition env sender switchId value db c).effects ++ rest) =
      badgeReplay env (ssCondition env sender switchId value db c).db false rest := by
  have fire : badgeReplay env db false ((ssFire env sender db c).effects ++ rest) =
      badgeReplay env (ssFire env sender db c).db false rest := by
    unfold ssFire
    split
    · exact awardTag_badge env sender db c rest
    · simp [badgeReplay]
  unfold ssCondition
  split
  · split
    · split
      · exact fire
      · rfl
    · split
      · simp only []
        split
        · split
          · exact fire
          · split <;> simp [badgeReplay]
        · rfl
      · rfl
  · rfl

/-- The body of the minigame loop of `handleSs` sends no notice. -/
theorem ssMinigame_badge {σ : Type} (env : Env σ) (sender : HubClient) (switchId : Int)
    (value : Bool) (db : σ) (entry : Nat × MinigameConfig) (rest : List Effect) :
    badgeReplay env db false ((ssMinigame env sender switchId value db entry).effects ++ rest) =
      badgeReplay env (ssMinigame env sender switchId value db entry).db false rest := by
  simp only [ssMinigame]
  split <;> simp [badgeReplay]

/-- The body of the minigame loop of `handleSv` sends no notice. -/
theorem svMinigame_badge {σ : Type} (env : Env σ) (sender : HubClient) (varId value : Int)
    (db : σ) (entry : Nat × MinigameConfig) (rest : List Effect) :
    badgeReplay env db false ((svMinigame env sender varId value db entry).effects ++ rest) =
      badgeReplay env (svMinigame env sender varId value db entry).db false rest := by
  simp only [svMinigame]
  split
  · split <;> simp [badgeReplay]
  · simp

/-- The body of the time-trial loop of `handleSv`: its notice matches the
answer of `tryWritePlayerTimeTrial`. -/
theorem svTimeTrial_badge {σ : Type} (env : Env σ) (h : Hub) (sender : HubClient)
    (value : Int) (db : σ) (c : Condition) (rest : List Effect) :
    badgeReplay env db false ((svTimeTrial env h sender value db c).effects ++ rest) =
      badgeReplay env (svTimeTrial env h sender value db c).db false rest := by
  simp only [svTimeTrial]
  split
  · split
    · cases herr : (env.tryWritePlayerTimeTrial db sender.sClient.uuid h.roomId value).2.err with
      | some e => simp [badgeReplay, herr]
      | none =>
        cases hs : (env.tryWritePlayerTimeTrial db sender.sClient.uuid h.roomId
            value).2.success <;> simp [badgeReplay, herr, hs]
    · simp
  · simp

/-- The body of the condition loop of `handleSv`: notices match answers. -/
theorem svCondition_badge {σ : Type} (env : Env σ) (sender : HubClient) (varId value : Int)
    (db : σ) (c : Condition) (rest : List Effect) :
    badgeReplay env db false ((svCondition env sender varId value db c).effects ++ rest) =
      badgeReplay env (svCondition env sender varId value db c).db false rest := by
  have fire : badgeReplay env db false ((svFire env sender db c).effects ++ rest) =
      badgeReplay env (svFire env sender db c).db false rest := by
    unfold svFire
    split
    · exact awardTag_badge env sender db c rest
    · simp [badgeReplay]
  unfold svCondition
  split
  · split
    · split
      · exact fire
      · rfl
    · split
      · simp only []
        split
        · split
          · exact fire
          · split <;> simp [badgeReplay]
        · rfl
      · rfl
  · rfl

/-- C12: for every input and every behaviour of the persistence collaborator,
the trace of `handleSs` and of `handleSv`, read with the answers of the
collaborator, has the badge notice `b` exactly once right after each
`tryWritePlayerTag` or `tryWritePlayerTimeTrial` call that answered
`(true, nil)` and nowhere else (so none after a call that answered false,
as for a condition already awarded); the reading ends in the collaborator
state that the handler returns. -/
theorem badge_notice_iff_newly_awarded {σ : Type} (env : Env σ) (h : Hub) (db : σ)
    (msg : List String) (sender : HubClient) :
    badgeReplay env db false (handleSs env h db msg sender).1.effects =
      some (handleSs env h db msg sender).2 ∧
    badgeReplay env db false (handleSv env h db msg sender).1.effects =
      some (handleSv env h db msg sender).2 := by
  constructor
  · rcases handleSs_cases env h db msg sender with ⟨e, hc⟩ | ⟨i, v, hc⟩ | ⟨i, v, hc⟩
    · rw [hc]; rfl
    · rw [hc]
      cases v <;> simp [badgeReplay]
    · rw [hc]
      simp only []
      rw [forEach_replay (fun d t => badgeReplay env d false t) _
        (fun d a r => ssMinigame_badge env _ _ _ d a r)]
      have := forEach_replay (fun d t => badgeReplay env d false t) _
        (fun d a r => ssCondition_badge env
          { sender with switchCache := mapSet sender.switchCache i v } i v d a r)
        (forEach (ssMinigame env
          { sender with switchCache := mapSet sender.switchCache i v } i v) db
          sender.hub.minigameConfigs.enum).db (env.globalConditions ++ h.conditions) []
      simp only [List.append_nil] at this
      rw [this]
      rfl
  · rcases handleSv_cases env h db msg sender with ⟨e, hc⟩ | ⟨i, v, hc⟩ | ⟨i, v, hc⟩
    · rw [hc]; rfl
    · rw [hc]
      simp only []
      have := forEach_replay (fun d t => badgeReplay env d false t) _
        (fun d a r => svTimeTrial_badge env h
          { sender with varCache := mapSet sender.varCache i v } v d a r)
        db (env.globalConditions ++ h.conditions) []
      simp only [List.append_nil] at this
      rw [this]
      rfl
    · rw [hc]
      simp only []
      rw [forEach_replay (fun d t => badgeReplay env d false t) _
        (fun d a r => svMinigame_badge env _ _ _ d a r)]
      have := forEach_replay (fun d t => badgeReplay env d false t) _
        (fun d a r => svCondition_badge env
          { sender with varCache := mapSet sender.varCache i v } i v d a r)
        (forEach (svMinigame env
          { sender with varCache := mapSet sender.varCache i v } i v) db
          sender.hub.minigameConfigs.enum).db (env.globalConditions ++ h.conditions) []
      simp only [List.append_nil] at this
      rw [this]
      rfl

/-! ### Errors of the persistence collaborator -/

/-- A stretch without effect that goes on. -/
theorem errorsStop_skip {σ : Type} (env : Env σ) (db : σ) :
    Step.errorsStop env db { db := db, effects := [], left := none } :=
  ⟨fun _ _ _ => rfl, fun _ hx => absurd hx (by simp)⟩

/-- A stretch of one direct message that goes on. -/
theorem errorsStop_sendMsg {σ : Type} (env : Env σ) (db : σ) (segs : List Segment) :
    Step.errorsStop env db { db := db, effects := [Effect.sendMsg segs], left := none } :=
  ⟨fun _ _ _ => rfl, fun _ hx => absurd hx (by simp)⟩

/-- The award block stops at a failing `tryWritePlayerTag`. -/
theorem awardTag_errorsStop {σ : Type} (env : Env σ) (sender : HubClient) (db : σ)
    (c : Condition) : Step.errorsStop env db (awardTag env sender db c) := by
  unfold awardTag
  cases c.TimeTrial with
  | true =>
    by_cases hg : env.gameName = "2kki"
    · simp only [Bool.not_true, Bool.false_eq_true, if_false, hg, if_true]
      exact errorsStop_sendMsg env db _
    · simp only [Bool.not_true, Bool.false_eq_true, if_false, hg]
      exact errorsStop_skip env db
  | false =>
    cases env.checkConditionCoords c sender with
    | false => exact errorsStop_skip env db
    | true =>
      simp only [Bool.not_false, if_true]
      cases herr : (env.tryWritePlayerTag db sender.sClient.uuid c.ConditionId).2.err with
      | some e =>
        refine ⟨fun hl => absurd hl (by simp), fun x hx => ?_⟩
        simp only [Option.some.injEq] at hx
        subst hx
        simp [errorReplay, herr]
      | none =>
        refine ⟨fun _ exit rest => ?_, fun x hx => absurd hx (by simp)⟩
        cases (env.tryWritePlayerTag db sender.sClient.uuid c.ConditionId).2.success <;>
          simp [errorReplay, herr]

/-- The body of the condition loop of `handleSs` stops at a failing call. -/
theorem ssCondition_errorsStop {σ : Type} (env : Env σ) (sender : HubClient) (switchId : Int)
    (value : Bool) (db : σ) (c : Condition) :
    Step.errorsStop env db (ssCondition env sender switchId value db c) := by
  have fire : Step.errorsStop env db (ssFire env sender db c) := by
    unfold ssFire
    split
    · exact awardTag_errorsStop env sender db c
    · exact errorsStop_sendMsg env db _
  unfold ssCondition
  split
  · split
    · split
      · exact fire
      · exact errorsStop_skip env db
    · split
      · simp only []
        split
        · split
          · exact fire
          · split
            · exact errorsStop_sendMsg env db _
            · exact ⟨fun hl => absurd hl (by simp), fun x _ => rfl⟩
        · exact errorsStop_skip env db
      · exact errorsStop_skip env db
  · exact errorsStop_skip env db

/-- The body of the condition loop of `handleSv` stops at a failing call. -/
theorem svCondition_errorsStop {σ : Type} (env : Env σ) (sender : HubClient)
    (varId value : Int) (db : σ) (c : Condition) :
    Step.errorsStop env db (svCondition env sender varId value db c) := by
  have fire : Step.errorsStop env db (svFire env sender db c) := by
    unfold svFire
    split
    · exact awardTag_errorsStop env sender db c
    · exact errorsStop_sendMsg env db _
  unfold svCondition
  split
  · split
    · split
      · exact fire
      · exact errorsStop_skip env db
    · split
      · simp only []
        split
        · split
          · exact fire
          · split
            · exact errorsStop_sendMsg env db _
            · exact ⟨fun hl => absurd hl (by simp), fun x _ => rfl⟩
        · exact errorsStop_skip env db
      · exact errorsStop_skip env db
  · exact errorsStop_skip env db

/-- The body of the time-trial loop of `handleSv` stops at a failing
`tryWritePlayerTimeTrial`. -/
theorem svTimeTrial_errorsStop {σ : Type} (env : Env σ) (h : Hub) (sender : HubClient)
    (value : Int) (db : σ) (c : Condition) :
    Step.errorsStop env db (svTimeTrial env h sender value db c) := by
  simp only [svTimeTrial]
  split
  · split
    · cases herr : (env.tryWritePlayerTimeTrial db sender.sClient.uuid h.roomId value).2.err with
      | some e =>
        refine ⟨fun hl => absurd hl (by simp), fun x hx => ?_⟩
        simp only [Option.some.injEq] at hx
        subst hx
        simp [errorReplay, herr]
      | none =>
        refine ⟨fun _ exit rest => ?_, fun x hx => absurd hx (by simp)⟩
        cases (env.tryWritePlayerTimeTrial db sender.sClient.uuid h.roomId value).2.success <;>
          simp [errorReplay, herr]
    · exact errorsStop_skip env db
  · exact errorsStop_skip env db

/-- The bodies of the minigame loops never leave the handler and hold no
failing call. -/
theorem minigame_errorsStop {σ : Type} (env : Env σ) (sender : HubClient) (switchId : Int)
    (value : Bool) (varId v : Int) (db : σ) (entry : Nat × MinigameConfig) :
    (Step.errorsStop env db (ssMinigame env sender switchId value db entry) ∧
      (ssMinigame env sender switchId value db entry).left = none) ∧
    (Step.errorsStop env db (svMinigame env sender varId v db entry) ∧
      (svMinigame env sender varId v db entry).left = none) := by
  constructor
  · simp only [ssMinigame]
    split
    · exact ⟨⟨fun _ _ _ => rfl, fun _ hx => absurd hx (by simp)⟩, rfl⟩
    · exact ⟨errorsStop_skip env db, rfl⟩
  · simp only [svMinigame]
    split
    · split
      · exact ⟨errorsStop_sendMsg env db _, rfl⟩
      · exact ⟨⟨fun _ _ _ => rfl, fun _ hx => absurd hx (by simp)⟩, rfl⟩
    · exact ⟨errorsStop_skip env db, rfl⟩

/-- A loop whose body stops at failing calls stops at failing calls. -/
theorem forEach_errorsStop {σ α : Type} (env : Env σ) (body : σ → α → Step σ)
    (hbody : ∀ db a, Step.errorsStop env db (body db a)) (db : σ) (l : List α) :
    Step.errorsStop env db (forEach body db l) := by
  induction l generalizing db with
  | nil => exact errorsStop_skip env db
  | cons a l ih =>
    unfold forEach
    cases hl : (body db a).left with
    | some x =>
      simp only [hl]
      refine ⟨fun hn => absurd hn (by simp), fun y hy => ?_⟩
      simp only [Option.some.injEq] at hy
      subst hy
      exact (hbody db a).2 x hl
    | none =>
      simp only [hl]
      have hclean := (hbody db a).1 hl
      constructor
      · intro hn exit rest
        rw [List.append_assoc, hclean, (ih (body db a).db).1 hn]
      · intro x hx
        rw [hclean]
        exact (ih (body db a).db).2 x hx

/-- A loop whose body never leaves the handler never leaves it. -/
theorem forEach_left_none {σ α : Type} (body : σ → α → Step σ)
    (hbody : ∀ db a, (body db a).left = none) (db : σ) (l : List α) :
    (forEach body db l).left = none := by
  induction l generalizing db with
  | nil => rfl
  | cons a l ih =>
    unfold forEach
    simp only [hbody db a]
    exact ih _

/-- Two stretches in a row, the first of which goes on, read against the
exit of the second. -/
theorem errorsStop_exit {σ : Type} (env : Env σ) (db : σ) (first second : Step σ)
    (h1 : Step.errorsStop env db first) (hgo : first.left = none)
    (h2 : Step.errorsStop env first.db second) :
    errorReplay env (second.left.getD (.returned none)) db
      (first.effects ++ second.effects) = true := by
  rw [h1.1 hgo]
  cases hl : second.left with
  | some x => exact h2.2 x hl
  | none =>
    have := h2.1 hl (.returned none) []
    simp only [List.append_nil] at this
    rw [Option.getD_none, this]
    rfl

/-- C17, as the code has it: in `handleSs` and `handleSv`, when a persistence
call (`tryWritePlayerTag`, `tryWritePlayerTimeTrial`) returns an error, that
call is the last entry of the trace and the handler returns that same error:
no condition is evaluated and no message is sent after it. What was sent
before it, for the conditions and minigame configs evaluated earlier (badge
notices, chain hints), stays sent: the trace is not emptied. -/
theorem collaborator_error_stops {σ : Type} (env : Env σ) (h : Hub) (db : σ)
    (msg : List String) (sender : HubClient) :
    errorReplay env (handleSs env h db msg sender).1.exit db
      (handleSs env h db msg sender).1.effects = true ∧
    errorReplay env (handleSv env h db msg sender).1.exit db
      (handleSv env h db msg sender).1.effects = true := by
  constructor
  · rcases handleSs_cases env h db msg sender with ⟨e, hc⟩ | ⟨i, v, hc⟩ | ⟨i, v, hc⟩
    · rw [hc]; rfl
    · rw [hc]
      cases v <;> rfl
    · rw [hc]
      exact errorsStop_exit env db _ _
        (forEach_errorsStop env _ (fun d a => (minigame_errorsStop env _ i v 0 0 d a).1.1) db _)
        (forEach_left_none _ (fun d a => (minigame_errorsStop env _ i v 0 0 d a).1.2) db _)
        (forEach_errorsStop env _ (fun d a => ssCondition_errorsStop env _ i v d a) _ _)
  · rcases handleSv_cases env h db msg sender with ⟨e, hc⟩ | ⟨i, v, hc⟩ | ⟨i, v, hc⟩
    · rw [hc]; rfl
    · rw [hc]
      have := errorsStop_exit env db { db := db, effects := [], left := none } _
        (errorsStop_skip env db) rfl
        (forEach_errorsStop env _ (fun d a => svTimeTrial_errorsStop env h
          { sender with varCache := mapSet sender.varCache i v } v d a) db
          (env.globalConditions ++ h.conditions))
      simpa using this
    · rw [hc]
      exact errorsStop_exit env db _ _
        (forEach_errorsStop env _
          (fun d a => (minigame_errorsStop env _ 0 false i v d a).2.1) db _)
        (forEach_left_none _ (fun d a => (minigame_errorsStop env _ 0 false i v d a).2.2) db _)
        (forEach_errorsStop env _ (fun d a => svCondition_errorsStop env _ i v d a) _ _)

/-- C17, counterexample: a room with two conditions on switch 5; the award
of the first succeeds, the award of the second fails with an error. On
`ss 5 1` the handler returns the error, and the badge notice for the first
condition has been sent to the sender. -/
theorem error_after_notice_sent :
    (handleSs failingEnv (roomWith [switchCondition "first", switchCondition "broken"]) []
      ["ss", "5", "1"]
      (freshClient (roomWith [switchCondition "first", switchCondition "broken"]))).1.exit =
      .returned (some (.other "db down")) ∧
    (handleSs failingEnv (roomWith [switchCondition "first", switchCondition "broken"]) []
      ["ss", "5", "1"]
      (freshClient (roomWith [switchCondition "first", switchCondition "broken"]))).1.effects =
      [Effect.tryWritePlayerTag "u7" "first", Effect.sendMsg [.str "b"],
       Effect.tryWritePlayerTag "u7" "broken"] := by
  decide

/-! ### Time trials -/

/-- The award block only calls `tryWritePlayerTag` and sends messages. -/
theorem awardTag_effects {σ : Type} (env : Env σ) (sender : HubClient) (db : σ) (c : Condition)
    (e : Effect) (he : e ∈ (awardTag env sender db c).effects) :
    (∃ u cid, e = Effect.tryWritePlayerTag u cid) ∨ ∃ segs, e = Effect.sendMsg segs := by
  unfold awardTag at he
  split at he
  · split at he
    · simp only [] at he
      split at he
      · simp only [List.mem_singleton] at he
        exact Or.inl ⟨_, _, he⟩
      · simp only [List.mem_cons] at he
        rcases he with he | he
        · exact Or.inl ⟨_, _, he⟩
        · split at he
          · simp only [List.mem_singleton] at he
            exact Or.inr ⟨_, he⟩
          · simp at he
    · simp at he
  · split at he
    · simp only [List.mem_singleton] at he
      exact Or.inr ⟨_, he⟩
    · simp at he

/-- The bodies of the condition loops only call `tryWritePlayerTag` and send
messages. -/
theorem condition_effects {σ : Type} (env : Env σ) (sender : HubClient) (switchId : Int)
    (value : Bool) (varId v : Int) (db : σ) (c : Condition) (e : Effect)
    (he : e ∈ (ssCondition env sender switchId value db c).effects ∨
      e ∈ (svCondition env sender varId v db c).effects) :
    (∃ u cid, e = Effect.tryWritePlayerTag u cid) ∨ ∃ segs, e = Effect.sendMsg segs := by
  rcases he with he | he
  · unfold ssCondition at he
    have fire : ∀ dbx, e ∈ (ssFire env sender dbx c).effects →
        (∃ u cid, e = Effect.tryWritePlayerTag u cid) ∨ ∃ segs, e = Effect.sendMsg segs := by
      intro dbx hf
      unfold ssFire at hf
      split at hf
      · exact awardTag_effects env sender dbx c e hf
      · simp only [List.mem_singleton] at hf
        exact Or.inr ⟨_, hf⟩
    split at he
    · split at he
      · split at he
        · exact fire _ he
        · simp at he
      · split at he
        · simp only [] at he
          split at he
          · split at he
            · exact fire _ he
            · split at he
              · simp only [List.mem_singleton] at he
                exact Or.inr ⟨_, he⟩
              · simp at he
          · simp at he
        · simp at he
    · simp at he
  · unfold svCondition at he
    have fire : ∀ dbx, e ∈ (svFire env sender dbx c).effects →
        (∃ u cid, e = Effect.tryWritePlayerTag u cid) ∨ ∃ segs, e = Effect.sendMsg segs := by
      intro dbx hf
      unfold svFire at hf
      split at hf
      · exact awardTag_effects env sender dbx c e hf
      · simp only [List.mem_singleton] at hf
        exact Or.inr ⟨_, hf⟩
    split at he
    · split at he
      · split at he
        · exact fire _ he
        · simp at he
      · split at he
        · simp only [] at he
          split at he
          · split at he
            · exact fire _ he
            · split at he
              · simp only [List.mem_singleton] at he
                exact Or.inr ⟨_, he⟩
              · simp at he
          · simp at he
        · simp at he
    · simp at he

/-- An effect that every triggering element puts in the trace of its run is
in the trace of the loop as soon as one element triggers, when the elements
that do not trigger let the loop go on. -/
theorem forEach_trigger {σ α : Type} (body : σ → α → Step σ) (P : α → Prop) (e : Effect)
    (hyes : ∀ db a, P a → e ∈ (body db a).effects)
    (hno : ∀ db a, ¬ P a → (body db a).left = none)
    (db : σ) (l : List α) (hex : ∃ a ∈ l, P a) : e ∈ (forEach body db l).effects := by
  induction l generalizing db with
  | nil =>
    obtain ⟨a, ha, _⟩ := hex
    cases ha
  | cons a l ih =>
    unfold forEach
    by_cases hp : P a
    · cases hl : (body db a).left with
      | some x => simp only [hl]; exact hyes db a hp
      | none => simp only [hl]; exact List.mem_append_left _ (hyes db a hp)
    · simp only [hno db a hp]
      obtain ⟨b, hb, hpb⟩ := hex
      rcases List.mem_cons.mp hb with rfl | hb2
      · exact absurd hpb hp
      · exact List.mem_append_right _ (ih _ ⟨b, hb2, hpb⟩)

/-- The call of the time-trial loop for one condition. -/
theorem svTimeTrial_call {σ : Type} (env : Env σ) (h : Hub) (sender : HubClient)
    (value : Int) (db : σ) (c : Condition) (u : String) (r v : Int) :
    (Effect.tryWritePlayerTimeTrial u r v ∈ (svTimeTrial env h sender value db c).effects ↔
      c.TimeTrial = true ∧ value < 3600 ∧ env.checkConditionCoords c sender = true ∧
        u = sender.sClient.uuid ∧ r = h.roomId ∧ v = value) ∧
    (¬ (c.TimeTrial = true ∧ value < 3600 ∧ env.checkConditionCoords c sender = true) →
      (svTimeTrial env h sender value db c).left = none) := by
  simp only [svTimeTrial]
  by_cases htt : c.TimeTrial = true
  · by_cases hv : value < 3600
    · by_cases hco : env.checkConditionCoords c sender = true
      · simp only [htt, hv, hco, decide_True, Bool.and_self, if_true, true_and, not_true_eq_false,
          false_implies, and_true]
        split
        · simp
        · split <;> simp
      · simp [htt, hv, hco]
    · simp [htt, hv]
  · simp [htt]

/-- The trace of `handleSv` for variable 88 in the profile `2kki` is the
trace of the time-trial loop. -/
theorem handleSv_timeTrial_effects {σ : Type} (env : Env σ) (h : Hub) (db : σ)
    (cmd f1 f2 : String) (sender : HubClient) (value : Int)
    (hid : atoi f1 = .ok 88) (hval : atoi f2 = .ok value) (hgame : env.gameName = "2kki") :
    (handleSv env h db [cmd, f1, f2] sender).1.effects =
      (forEach (svTimeTrial env h { sender with varCache := mapSet sender.varCache 88 value }
        value) db (env.globalConditions ++ h.conditions)).effects := by
  simp [handleSv, hid, hval, hgame]

/-- C18: no path of `handleSs` or `handleSv` calls `tryWritePlayerTag` for a
time-trial condition: every such call is made for a condition of the room
(or a global one) that is not flagged time-trial. `handleSs` never calls
`tryWritePlayerTimeTrial`. `handleSv` calls it, with the sender, the room id
and the elapsed value, exactly when the command sets variable 88 in the
profile `2kki` to a value below 3600 and there is a time-trial condition
whose coordinate gate passes. -/
theorem time_trial_paths :
    (∀ (σ : Type) (env : Env σ) (h : Hub) (db : σ) (msg : List String) (sender : HubClient)
      (u cid : String),
      (Effect.tryWritePlayerTag u cid ∈ (handleSs env h db msg sender).1.effects ∨
        Effect.tryWritePlayerTag u cid ∈ (handleSv env h db msg sender).1.effects) →
      ∃ c ∈ env.globalConditions ++ h.conditions, cid = c.ConditionId ∧ c.TimeTrial = false) ∧
    (∀ (σ : Type) (env : Env σ) (h : Hub) (db : σ) (msg : List String) (sender : HubClient)
      (u : String) (r v : Int),
      Effect.tryWritePlayerTimeTrial u r v ∉ (handleSs env h db msg sender).1.effects) ∧
    (∀ (σ : Type) (env : Env σ) (h : Hub) (db : σ) (msg : List String) (sender : HubClient)
      (u : String) (r v : Int),
      Effect.tryWritePlayerTimeTrial u r v ∈ (handleSv env h db msg sender).1.effects ↔
        ∃ cmd f1 f2, msg = [cmd, f1, f2] ∧ atoi f1 = .ok 88 ∧ atoi f2 = .ok v ∧
          env.gameName = "2kki" ∧ v < 3600 ∧ u = sender.sClient.uuid ∧ r = h.roomId ∧
          ∃ c ∈ env.globalConditions ++ h.conditions, c.TimeTrial = true ∧
            env.checkConditionCoords c
              { sender with varCache := mapSet sender.varCache 88 v } = true) := by
  refine ⟨?_, ?_, ?_⟩
  · intro σ env h db msg sender u cid hmem
    rcases hmem with hmem | hmem
    · obtain ⟨c, hc, hcid, _, htt, _⟩ := handleSs_tag_sound env h db msg sender u cid hmem
      exact ⟨c, hc, hcid, htt⟩
    · obtain ⟨c, hc, hcid, _, htt, _⟩ := handleSv_tag_sound env h db msg sender u cid hmem
      exact ⟨c, hc, hcid, htt⟩
  · intro σ env h db msg sender u r v hmem
    rcases handleSs_cases env h db msg sender with ⟨e, hc⟩ | ⟨i, b, hc⟩ | ⟨i, b, hc⟩
    · rw [hc] at hmem
      simp [reject] at hmem
    · rw [hc] at hmem
      cases b <;> simp at hmem
    · rw [hc] at hmem
      simp only [List.mem_append] at hmem
      rcases hmem with hmem | hmem
      · obtain ⟨_, a, _, ha⟩ := forEach_effects_mem _ _ _ _ hmem
        obtain ⟨_, _, _, hu⟩ := ssMinigame_effects _ _ _ _ _ _ _ ha
        cases hu
      · obtain ⟨_, c, _, hce⟩ := forEach_effects_mem _ _ _ _ hmem
        rcases condition_effects env _ i b 0 0 _ c _ (Or.inl hce) with ⟨_, _, hu⟩ | ⟨_, hu⟩
        · cases hu
        · cases hu
  · intro σ env h db msg sender u r v
    rcases msg with _ | ⟨cmd, _ | ⟨f1, _ | ⟨f2, _ | ⟨x, rest⟩⟩⟩⟩
    · simp [handleSv, reject]
    · simp [handleSv, reject]
    · simp [handleSv, reject]
    · cases hid : atoi f1 with
      | error e => simp [handleSv, hid, reject]
      | ok varId =>
        cases hval : atoi f2 with
        | error e => simp [handleSv, hid, hval, reject]
        | ok value =>
          by_cases hspecial : varId = 88 ∧ env.gameName = "2kki"
          · obtain ⟨h88, hgame⟩ := hspecial
            subst h88
            rw [handleSv_timeTrial_effects env h db cmd f1 f2 sender value hid hval hgame]
            constructor
            · intro hmem
              obtain ⟨db2, c, hc, hce⟩ := forEach_effects_mem _ _ _ _ hmem
              obtain ⟨htt, hv, hco, hu, hr, hvv⟩ :=
                ((svTimeTrial_call env h _ value db2 c u r v).1).mp hce
              subst hvv
              exact ⟨cmd, f1, f2, rfl, hid, hval, hgame, hv, hu, hr, c, hc, htt, hco⟩
            · rintro ⟨cmd2, g1, g2, hmsg, _, hv2, _, hlt, hu, hr, c, hc, htt, hco⟩
              simp only [List.cons.injEq, and_true] at hmsg
              obtain ⟨_, _, hg2⟩ := hmsg
              subst hg2
              rw [hval] at hv2
              have hvv : value = v := by simpa using hv2
              subst hvv
              refine forEach_trigger _
                (fun c => c.TimeTrial = true ∧ value < 3600 ∧
                  env.checkConditionCoords c
                    { sender with varCache := mapSet sender.varCache 88 value } = true)
                _ ?_ ?_ db _ ⟨c, hc, htt, hlt, hco⟩
              · intro d a ha
                exact ((svTimeTrial_call env h _ value d a u r value).1).mpr
                  ⟨ha.1, ha.2.1, ha.2.2, hu, hr, rfl⟩
              · intro d a ha
                exact (svTimeTrial_call env h _ value d a u r value).2 ha
          · have hne : ¬ Effect.tryWritePlayerTimeTrial u r v ∈
                (handleSv env h db [cmd, f1, f2] sender).1.effects := by
              intro hmem
              rw [handleSv_effects env h db cmd f1 f2 sender varId value hid hval hspecial,
                List.mem_append] at hmem
              rcases hmem with hmem | hmem
              · obtain ⟨_, a, _, ha⟩ := forEach_effects_mem _ _ _ _ hmem
                rcases svMinigame_effects _ _ _ _ _ _ _ ha with ⟨_, _, _, hu⟩ | ⟨_, hu⟩
                · cases hu
                · cases hu
              · obtain ⟨_, c, _, hce⟩ := forEach_effects_mem _ _ _ _ hmem
                rcases condition_effects env _ 0 false varId value _ c _ (Or.inr hce)
                  with ⟨_, _, hu⟩ | ⟨_, hu⟩
                · cases hu
                · cases hu
            constructor
            · intro hmem
              exact absurd hmem hne
            · rintro ⟨cmd2, g1, g2, hmsg, h88, _, hgame, _⟩
              simp only [List.cons.injEq, and_true] at hmsg
              obtain ⟨_, hg1, _⟩ := hmsg
              subst hg1
              rw [hid] at h88
              have : varId = 88 := by simpa using h88
              exact absurd ⟨this, hgame⟩ hspecial
    · simp [handleSv, reject]

/-- C18, witness: in the profile `2kki`, `sv 88 100` in the room of a
time-trial condition writes the time-trial result for room 1. -/
theorem time_trial_paths_witness :
    Effect.tryWritePlayerTimeTrial "u7" 1 100 ∈
      (handleSv exampleEnv (roomWith [timeTrialCondition]) [] ["sv", "88", "100"]
        (freshClient (roomWith [timeTrialCondition]))).1.effects :=
  (time_trial_paths.2.2 _ exampleEnv (roomWith [timeTrialCondition]) [] ["sv", "88", "100"]
    (freshClient (roomWith [timeTrialCondition])) "u7" 1 100).mpr
    ⟨"sv", "88", "100", rfl, by decide, by decide, rfl, by decide, rfl, rfl,
      timeTrialCondition, by decide, rfl, rfl⟩

/-! ### The party password (`handlePt`) -/

/-- C21: for a requester who is in a party (`getPlayerPartyId` gives an id
other than 0 and `getPartyData` the party) and is not the owner of the
party, `handlePt` serialises the party data with the password emptied: it
sends `pt` with the serialisation of that data, or returns the error of the
serialisation. Hence two runs that differ only in the password of the party
leave the same outcome, the message included. For the owner the party data
is serialised as `getPartyData` gave it, the password unchanged. -/
theorem handlePt_password :
    (∀ (ρ : Type) (env : PartyEnv ρ) (sender : SessionClient) (partyId : Int) (pd : Party ρ),
      env.getPlayerPartyId sender.uuid = .ok partyId → partyId ≠ 0 →
      env.getPartyData sender.uuid = .ok pd → sender.uuid ≠ pd.OwnerUuid →
      handlePt env sender =
        match env.jsonMarshal { pd with Pass := "" } with
        | .error e => { sender := sender, effects := [], exit := .returned (some e) }
        | .ok json =>
          { sender := sender, effects := [Effect.sessionSendMsg [.str "pt", .bytes json]]
            exit := .returned none }) ∧
    (∀ (ρ : Type) (env1 env2 : PartyEnv ρ) (sender : SessionClient) (partyId : Int)
      (pd1 pd2 : Party ρ),
      env1.getPlayerPartyId sender.uuid = .ok partyId →
      env2.getPlayerPartyId sender.uuid = .ok partyId → partyId ≠ 0 →
      env1.jsonMarshal = env2.jsonMarshal →
      env1.getPartyData sender.uuid = .ok pd1 → env2.getPartyData sender.uuid = .ok pd2 →
      pd1.OwnerUuid = pd2.OwnerUuid → pd1.other = pd2.other →
      sender.uuid ≠ pd1.OwnerUuid →
      handlePt env1 sender = handlePt env2 sender) ∧
    (∀ (ρ : Type) (env : PartyEnv ρ) (sender : SessionClient) (partyId : Int) (pd : Party ρ),
      env.getPlayerPartyId sender.uuid = .ok partyId → partyId ≠ 0 →
      env.getPartyData sender.uuid = .ok pd → sender.uuid = pd.OwnerUuid →
      handlePt env sender =
        match env.jsonMarshal pd with
        | .error e => { sender := sender, effects := [], exit := .returned (some e) }
        | .ok json =>
          { sender := sender, effects := [Effect.sessionSendMsg [.str "pt", .bytes json]]
            exit := .returned none }) := by
  have nonOwner : ∀ (ρ : Type) (env : PartyEnv ρ) (sender : SessionClient) (partyId : Int)
      (pd : Party ρ),
      env.getPlayerPartyId sender.uuid = .ok partyId → partyId ≠ 0 →
      env.getPartyData sender.uuid = .ok pd → sender.uuid ≠ pd.OwnerUuid →
      handlePt env sender =
        match env.jsonMarshal { pd with Pass := "" } with
        | .error e => { sender := sender, effects := [], exit := .returned (some e) }
        | .ok json =>
          { sender := sender, effects := [Effect.sessionSendMsg [.str "pt", .bytes json]]
            exit := .returned none } := by
    intro ρ env sender partyId pd hid hne hpd hown
    simp only [handlePt, hid, hne, if_false, hpd]
    rw [if_pos hown]
  refine ⟨nonOwner, ?_, ?_⟩
  · intro ρ env1 env2 sender partyId pd1 pd2 hid1 hid2 hne hm hpd1 hpd2 hown hother hnot
    rw [nonOwner ρ env1 sender partyId pd1 hid1 hne hpd1 hnot,
      nonOwner ρ env2 sender partyId pd2 hid2 hne hpd2 (hown ▸ hnot), hm]
    have : ({ pd1 with Pass := "" } : Party ρ) = { pd2 with Pass := "" } := by
      cases pd1
      cases pd2
      simp only [Party.mk.injEq, true_and] at hown hother ⊢
      exact ⟨hown, hother⟩
    rw [this]
  · intro ρ env sender partyId pd hid hne hpd hown
    have hno : ¬ (sender.uuid ≠ pd.OwnerUuid) := fun hx => hx hown
    simp only [handlePt, hid, hne, if_false, hpd]
    rw [if_neg hno]

/-- C21, witness: in the party of `u1` the client `u7` gets the same message
whether the password is `secret` or `other`, with an empty password in it;
the owner `u1` gets the password. -/
theorem handlePt_password_witness :
    handlePt (examplePartyEnv "secret") namelessSession =
      handlePt (examplePartyEnv "other") namelessSession ∧
    (handlePt (examplePartyEnv "secret") namelessSession).effects =
      [Effect.sessionSendMsg [.str "pt", .bytes (toBytes "u1:")]] ∧
    (handlePt (examplePartyEnv "secret") ownerSession).effects =
      [Effect.sessionSendMsg [.str "pt", .bytes (toBytes "u1:secret")]] :=
  ⟨handlePt_password.2.1 Unit (examplePartyEnv "secret") (examplePartyEnv "other")
      namelessSession 3 { OwnerUuid := "u1", Pass := "secret", other := () }
      { OwnerUuid := "u1", Pass := "other", other := () }
      rfl rfl (by decide) rfl rfl rfl rfl rfl (by decide),
    by decide, by decide⟩

/-! ### The stored flash -/

/-- C22: for a valid flash command (red, green and blue integers in
`[0,255]`, power and frames integers `≥ 0`), `handleFl` stores for `rfl`
exactly these five integers, with the repeating flag set and nothing else
changed, and for any other command name (`fl`) it leaves the client as it
was; either way it issues the one broadcast of the command and returns nil.
`handleRrfl` sets the five stored channels to 0 and clears the repeating
flag, changing nothing else. -/
theorem flash_state_after :
    (∀ (h : Hub) (cmd f1 f2 f3 f4 f5 : String) (sender : HubClient) (r g b p fr : Int),
      atoi f1 = .ok r → atoi f2 = .ok g → atoi f3 = .ok b → atoi f4 = .ok p →
      atoi f5 = .ok fr → 0 ≤ r ∧ r ≤ 255 → 0 ≤ g ∧ g ≤ 255 → 0 ≤ b ∧ b ≤ 255 → 0 ≤ p →
      0 ≤ fr →
      (cmd = "rfl" → (handleFl h [cmd, f1, f2, f3, f4, f5] sender).sender =
        { sender with flash0 := r, flash1 := g, flash2 := b, flash3 := p, flash4 := fr,
                      repeatingFlash := true }) ∧
      (cmd ≠ "rfl" → (handleFl h [cmd, f1, f2, f3, f4, f5] sender).sender = sender) ∧
      (handleFl h [cmd, f1, f2, f3, f4, f5] sender).effects =
        [Effect.broadcast [.str cmd, .int sender.sClient.id, .strs [f1, f2, f3, f4, f5]]] ∧
      (handleFl h [cmd, f1, f2, f3, f4, f5] sender).exit = .returned none) ∧
    (∀ (h : Hub) (sender : HubClient),
      (handleRrfl h sender).sender =
        { sender with flash0 := 0, flash1 := 0, flash2 := 0, flash3 := 0, flash4 := 0,
                      repeatingFlash := false } ∧
      (handleRrfl h sender).effects = [Effect.broadcast [.str "rrfl", .int sender.sClient.id]]) := by
  refine ⟨?_, ?_⟩
  · intro h cmd f1 f2 f3 f4 f5 sender r g b p fr h1 h2 h3 h4 h5 hr hg hb hp hfr
    have hparse : parseFlash f1 f2 f3 f4 f5 = .ok (r, g, b, p, fr) := by
      rw [parseFlash_of_atoi f1 f2 f3 f4 f5 r g b p fr h1 h2 h3 h4 h5]
      rw [if_pos ⟨hr.1, hr.2, hg.1, hg.2, hb.1, hb.2, hp, hfr⟩]
    refine ⟨?_, ?_, ?_, ?_⟩
    · intro hc
      simp only [handleFl, hparse, hc, if_true]
    · intro hc
      simp only [handleFl, hparse, hc, if_false]
    · simp only [handleFl, hparse]
    · simp only [handleFl, hparse]
  · intro h sender
    exact ⟨rfl, rfl⟩

/-- C22, witness: `rfl 1 2 3 4 5` of a fresh client stores the five values
and sets the repeating flag. -/
theorem flash_state_after_witness :
    (handleFl (roomWith []) ["rfl", "1", "2", "3", "4", "5"] (freshClient (roomWith []))).sender =
      { freshClient (roomWith []) with flash0 := 1, flash1 := 2, flash2 := 3, flash3 := 4,
                                       flash4 := 5, repeatingFlash := true } :=
  (flash_state_after.1 (roomWith []) "rfl" "1" "2" "3" "4" "5" (freshClient (roomWith []))
    1 2 3 4 5 (by decide) (by decide) (by decide) (by decide) (by decide) (by decide)
    (by decide) (by decide) (by decide) (by decide)).1 rfl

/-! ### The ranges of the client state are kept -/

/-- The values that the validation of `handleP` accepts are in range. -/
theorem parsePicArgs_ranges (msg : List String) (a : PicArgs) (h : parsePicArgs msg = .ok a) :
    1 ≤ a.picId ∧ ∀ pic : Picture, pictureInRange (pic.assign a) := by
  unfold parsePicArgs at h
  simp only [bind_ok, parseField_ok_iff, pure, Except.pure, Except.ok.injEq] at h
  obtain ⟨v1, ⟨_, h1⟩, v2, _, v3, _, v4, _, v5, _, v6, _, v7, _, v8, ⟨_, h8⟩, v9, ⟨_, h9⟩,
    v10, ⟨_, h10⟩, v11, ⟨_, h11⟩, v12, ⟨_, h12⟩, v13, ⟨_, h13⟩, v14, ⟨_, h14⟩, v15, ⟨_, h15⟩,
    v16, _, h⟩ := h
  subst h
  simp only [Bool.and_eq_true, decide_eq_true_eq] at h1 h8 h9 h10 h11 h12 h13 h14 h15
  refine ⟨h1, fun pic => ?_⟩
  exact ⟨h8, h9, h10, h15, h11, h12, h13, h14⟩

/-- A client whose pictures are all the fields that change keeps its ranges
when the new picture map is in range. -/
theorem clientInRange_pictures (s : HubClient) (pictures : Int → Option Picture)
    (hs : clientInRange s)
    (hp : ∀ (k : Int) (p : Picture), pictures k = some p → 1 ≤ k ∧ pictureInRange p) :
    clientInRange { s with pictures := pictures } :=
  ⟨hs.1, hs.2.1, hs.2.2.1, hs.2.2.2.1, hs.2.2.2.2.1, hs.2.2.2.2.2.1, hs.2.2.2.2.2.2.1,
    hs.2.2.2.2.2.2.2.1, hs.2.2.2.2.2.2.2.2.1, hp⟩

/-- Storing a validated picture keeps the ranges. -/
theorem applyPicture_inRange (msg : List String) (a : PicArgs) (pic : Picture) (s : HubClient)
    (effects : List Effect) (hs : clientInRange s) (hid : 1 ≤ a.picId)
    (hpic : pictureInRange (pic.assign a)) :
    clientInRange (applyPicture msg a pic s effects).sender := by
  unfold applyPicture
  refine clientInRange_pictures s _ hs ?_
  intro k p hk
  simp only [mapSet] at hk
  split at hk
  · next heq =>
    simp only [Option.some.injEq] at hk
    subst hk
    subst heq
    exact ⟨hid, hpic⟩
  · exact hs.2.2.2.2.2.2.2.2.2 k p hk

/-- Erasing a picture keeps the ranges. -/
theorem handleRp_inRange (h : Hub) (msg : List String) (s : HubClient) (hs : clientInRange s) :
    clientInRange (handleRp h msg s).sender := by
  unfold handleRp
  split
  · split
    · exact hs
    · split
      · exact hs
      · refine clientInRange_pictures s _ hs ?_
        intro k p hk
        simp only [mapDelete] at hk
        split at hk
        · cases hk
        · exact hs.2.2.2.2.2.2.2.2.2 k p hk
  · exact hs

/-- The modelled route of the erase frame keeps the ranges. -/
theorem processErase_inRange (h : Hub) (frame : String) (s : HubClient)
    (hs : clientInRange s) : clientInRange (processErase h frame s).sender := by
  unfold processErase
  split
  · exact handleRp_inRange h _ s hs
  · exact hs

/-- The handler `handleP` keeps the ranges, when the dispatcher does. -/
theorem handleP_inRange {σ : Type} (env : Env σ) (h : Hub) (msg : List String)
    (sender : HubClient) (hs : clientInRange sender)
    (hproc : ∀ (frame : String), clientInRange (env.processMsg h frame sender).sender) :
    clientInRange (handleP env h msg sender).sender := by
  unfold handleP
  simp only []
  repeat' split
  all_goals
    first
    | exact hs
    | exact hproc _
    | exact applyPicture_inRange _ _ _ _ _ hs (parsePicArgs_ranges _ _ (by assumption)).1
        ((parsePicArgs_ranges _ _ (by assumption)).2 _)
    | exact applyPicture_inRange _ _ _ _ _ (hproc _) (parsePicArgs_ranges _ _ (by assumption)).1
        ((parsePicArgs_ranges _ _ (by assumption)).2 _)

/-- The values that the validation of `handleFl` accepts are in range. -/
theorem parseFlash_ranges (f1 f2 f3 f4 f5 : String) (r g b p fr : Int)
    (h : parseFlash f1 f2 f3 f4 f5 = .ok (r, g, b, p, fr)) :
    (0 ≤ r ∧ r ≤ 255) ∧ (0 ≤ g ∧ g ≤ 255) ∧ (0 ≤ b ∧ b ≤ 255) ∧ 0 ≤ p ∧ 0 ≤ fr := by
  unfold parseFlash at h
  simp only [bind_ok, parseField_ok_iff, pure, Except.pure, Except.ok.injEq, Prod.mk.injEq] at h
  obtain ⟨v1, ⟨_, h1⟩, v2, ⟨_, h2⟩, v3, ⟨_, h3⟩, v4, ⟨_, h4⟩, v5, ⟨_, h5⟩, e1, e2, e3, e4, e5⟩ := h
  subst e1 e2 e3 e4 e5
  simp only [Bool.and_eq_true, decide_eq_true_eq] at h1 h2 h3 h4 h5
  exact ⟨h1, h2, h3, h4, h5⟩

/-- The handlers that write coordinates, facing and speed keep the ranges. -/
theorem movement_inRange (h : Hub) (msg : List String) (sender : HubClient)
    (hs : clientInRange sender) :
    clientInRange (handleM h msg sender).sender ∧
    clientInRange (handleF h msg sender).sender ∧
    clientInRange (handleSpd h msg sender).sender := by
  obtain ⟨hx, hy, hf, hspd, hrest⟩ := hs
  refine ⟨?_, ?_, ?_⟩
  · unfold handleM
    repeat' split
    all_goals
      first
      | exact ⟨hx, hy, hf, hspd, hrest⟩
      | exact ⟨by dsimp only; omega, by dsimp only; omega, hf, hspd, hrest⟩
  · unfold handleF
    split
    · split
      · exact ⟨hx, hy, hf, hspd, hrest⟩
      · next facing hp =>
        have hr := ((parseField_ok_iff _ _ _).mp hp).2
        simp only [Bool.and_eq_true, decide_eq_true_eq] at hr
        exact ⟨hx, hy, hr, hspd, hrest⟩
    · exact ⟨hx, hy, hf, hspd, hrest⟩
  · unfold handleSpd
    split
    · split
      · exact ⟨hx, hy, hf, hspd, hrest⟩
      · split
        · exact ⟨hx, hy, hf, hspd, hrest⟩
        · next hr =>
          simp only [Bool.or_eq_true, decide_eq_true_eq, not_or, not_lt] at hr
          exact ⟨hx, hy, hf, ⟨hr.1, hr.2⟩, hrest⟩
    · exact ⟨hx, hy, hf, hspd, hrest⟩

/-- The flash handlers keep the ranges. -/
theorem flash_inRange (h : Hub) (msg : List String) (sender : HubClient)
    (hs : clientInRange sender) :
    clientInRange (handleFl h msg sender).sender ∧
    clientInRange (handleRrfl h sender).sender := by
  obtain ⟨hx, hy, hf, hspd, h0, h1, h2, h3, h4, hpics⟩ := hs
  refine ⟨?_, ?_⟩
  · unfold handleFl
    split
    · split
      · exact ⟨hx, hy, hf, hspd, h0, h1, h2, h3, h4, hpics⟩
      · next red green blue power frames hp =>
        obtain ⟨r0, r1, r2, r3, r4⟩ := parseFlash_ranges _ _ _ _ _ _ _ _ _ _ hp
        simp only []
        split
        · exact ⟨hx, hy, hf, hspd, r0, r1, r2, r3, r4, hpics⟩
        · exact ⟨hx, hy, hf, hspd, h0, h1, h2, h3, h4, hpics⟩
    · exact ⟨hx, hy, hf, hspd, h0, h1, h2, h3, h4, hpics⟩
  · exact ⟨hx, hy, hf, hspd, by simp [handleRrfl], by simp [handleRrfl], by simp [handleRrfl],
      by simp [handleRrfl], by simp [handleRrfl], hpics⟩

/-- The handlers that write none of the ranged fields keep the ranges. -/
theorem other_inRange {σ : Type} (env : Env σ) (h : Hub) (db : σ) (msg : List String)
    (sender : HubClient) (hs : clientInRange sender) :
    clientInRange (handleIdent h msg sender).sender ∧
    clientInRange (handleSpr env h msg sender).sender ∧
    clientInRange (handleH h msg sender).sender ∧
    clientInRange (handleSys env h msg sender).sender ∧
    clientInRange (handleSe env h msg sender).sender ∧
    clientInRange (handleSay h msg sender).sender ∧
    clientInRange (handleSs env h db msg sender).1.sender ∧
    clientInRange (handleSv env h db msg sender).1.sender ∧
    clientInRange (handleSev env h db msg sender).1.sender := by
  refine ⟨?_, ?_, ?_, ?_, ?_, ?_, ?_, ?_, ?_⟩
  · unfold handleIdent
    split <;> exact hs
  · unfold handleSpr
    repeat' split
    all_goals exact hs
  · unfold handleH
    repeat' split
    all_goals exact hs
  · unfold handleSys
    repeat' split
    all_goals exact hs
  · unfold handleSe
    repeat' split
    all_goals exact hs
  · unfold handleSay
    simp only []
    repeat' split
    all_goals exact hs
  · rcases handleSs_cases env h db msg sender with ⟨e, hc⟩ | ⟨i, b, hc⟩ | ⟨i, b, hc⟩ <;>
      rw [hc] <;> exact hs
  · rcases handleSv_cases env h db msg sender with ⟨e, hc⟩ | ⟨i, b, hc⟩ | ⟨i, b, hc⟩ <;>
      rw [hc] <;> exact hs
  · unfold handleSev
    simp only []
    repeat' split
    all_goals exact hs

/-- C23: the ranges of the client state (coordinates `≥ 0`, facing in
`[0,3]`, speed in `[0,10]`, stored flash red, green and blue in `[0,255]`
with power and frames `≥ 0`, every key of the picture map `≥ 1`, every stored
picture with magnify, transparencies and effect mode `≥ 0` and red, green,
blue and saturation in `[0,200]`) are kept by every hub handler on every
message: when they hold for the sender before the call, they hold for the
sender after it. `handleP` hands the erase frame of a show at an occupied id
to the dispatcher, which is taken to keep the ranges of this client. -/
theorem client_ranges_kept {σ : Type} (env : Env σ) (h : Hub) (db : σ) (msg : List String)
    (sender : HubClient) (hs : clientInRange sender)
    (hproc : ∀ (frame : String), clientInRange (env.processMsg h frame sender).sender) :
    clientInRange (handleIdent h msg sender).sender ∧
    clientInRange (handleM h msg sender).sender ∧
    clientInRange (handleF h msg sender).sender ∧
    clientInRange (handleSpd h msg sender).sender ∧
    clientInRange (handleSpr env h msg sender).sender ∧
    clientInRange (handleFl h msg sender).sender ∧
    clientInRange (handleRrfl h sender).sender ∧
    clientInRange (handleH h msg sender).sender ∧
    clientInRange (handleSys env h msg sender).sender ∧
    clientInRange (handleSe env h msg sender).sender ∧
    clientInRange (handleP env h msg sender).sender ∧
    clientInRange (handleRp h msg sender).sender ∧
    clientInRange (handleSay h msg sender).sender ∧
    clientInRange (handleSs env h db msg sender).1.sender ∧
    clientInRange (handleSv env h db msg sender).1.sender ∧
    clientInRange (handleSev env h db msg sender).1.sender := by
  have hm := movement_inRange h msg sender hs
  have hfl := flash_inRange h msg sender hs
  have ho := other_inRange env h db msg sender hs
  exact ⟨ho.1, hm.1, hm.2.1, hm.2.2, ho.2.1, hfl.1, hfl.2, ho.2.2.1, ho.2.2.2.1, ho.2.2.2.2.1,
    handleP_inRange env h msg sender hs hproc, handleRp_inRange h msg sender hs,
    ho.2.2.2.2.2.1, ho.2.2.2.2.2.2.1, ho.2.2.2.2.2.2.2.1, ho.2.2.2.2.2.2.2.2⟩

/-- A fresh client is in range. -/
theorem freshClient_inRange (hub : Hub) : clientInRange (freshClient hub) := by
  refine ⟨by simp [freshClient], by simp [freshClient], by simp [freshClient],
    by simp [freshClient], by simp [freshClient], by simp [freshClient], by simp [freshClient],
    by simp [freshClient], by simp [freshClient], ?_⟩
  intro k p hk
  cases hk

/-- The client that shows `oldPicture` at id 4 is in range. -/
theorem clientWithPicture_inRange : clientInRange clientWithPicture := by
  refine ⟨by simp [clientWithPicture, freshClient], by simp [clientWithPicture, freshClient],
    by simp [clientWithPicture, freshClient], by simp [clientWithPicture, freshClient],
    by simp [clientWithPicture, freshClient], by simp [clientWithPicture, freshClient],
    by simp [clientWithPicture, freshClient], by simp [clientWithPicture, freshClient],
    by simp [clientWithPicture, freshClient], ?_⟩
  intro k p hk
  simp only [clientWithPicture, mapSet] at hk
  split at hk
  · next heq =>
    simp only [Option.some.injEq] at hk
    subst hk
    subst heq
    exact ⟨by decide, by unfold pictureInRange; decide⟩
  · cases hk

/-- C23, witness: the client that shows a picture at id 4 stays in range
when it moves to (3, 4) and when it shows the example picture at id 4. -/
theorem client_ranges_kept_witness :
    clientInRange (handleM (roomWith []) ["m", "3", "4"] clientWithPicture).sender ∧
    clientInRange (handleP exampleEnv (roomWith []) showCommand clientWithPicture).sender :=
  ⟨(client_ranges_kept exampleEnv (roomWith []) [] ["m", "3", "4"] clientWithPicture
      clientWithPicture_inRange
      (fun frame => processErase_inRange _ frame _ clientWithPicture_inRange)).2.1,
    (client_ranges_kept exampleEnv (roomWith []) [] showCommand clientWithPicture
      clientWithPicture_inRange
      (fun frame => processErase_inRange _ frame _ clientWithPicture_inRange)).2.2.2.2.2.2.2.2.2.2.1⟩

/-! ### The variable gate of `handleSs` -/

/-- The gate `validVars` for a condition with `VarTrigger` set, no single
variable and a variable chain: every id of the chain is in the cache with a
value that `checkVar` accepts. -/
theorem validVars_chain {σ : Type} (env : Env σ) (sender : HubClient) (c : Condition)
    (htrig : c.VarTrigger = true) (hid : c.VarId = 0) (hne : c.VarIds ≠ [])
    (hvalid : validVars env sender c = true) :
    ∀ vId ∈ c.VarIds, ∃ v, sender.varCache vId = some v ∧ (env.checkVar c vId v).1 = true := by
  intro vId hmem
  have hlen : c.VarIds.length > 0 := List.length_pos.mpr hne
  simp only [validVars, htrig, hid, if_true, gt_iff_lt, lt_self_iff_false, if_false, hlen,
    List.all_eq_true] at hvalid
  have := hvalid vId hmem
  cases hc : sender.varCache vId with
  | none => simp [hc] at this
  | some v =>
    simp only [hc] at this
    exact ⟨v, rfl, this⟩

/-- C24: every call of `tryWritePlayerTag` by `handleSs` is made for a
condition `c` of the room (or a global one) such that, when the single
variable id of `c` is not negative, one of three cases holds: `c` has no
variable requirement (no single id and no chain); or its single variable id
is in the variable cache of the sender with a value that `checkVar` accepts;
or it has a variable chain and every id of the chain is in the cache with a
value that `checkVar` accepts. So an id absent from the cache never
satisfies the gate. -/
theorem handleSs_variable_gate {σ : Type} (env : Env σ) (h : Hub) (db : σ) (msg : List String)
    (sender : HubClient) (u cid : String)
    (hmem : Effect.tryWritePlayerTag u cid ∈ (handleSs env h db msg sender).1.effects) :
    ∃ c ∈ env.globalConditions ++ h.conditions, cid = c.ConditionId ∧
      (0 ≤ c.VarId →
        (c.VarId = 0 ∧ c.VarIds = []) ∨
        (c.VarId > 0 ∧ ∃ v, sender.varCache c.VarId = some v ∧
          (env.checkVar c c.VarId v).1 = true) ∨
        (c.VarId = 0 ∧ c.VarIds ≠ [] ∧ ∀ vId ∈ c.VarIds,
          ∃ v, sender.varCache vId = some v ∧ (env.checkVar c vId v).1 = true)) := by
  obtain ⟨c, hc, hcid, _, _, hvalid, haward, _⟩ := handleSs_tag_sound env h db msg sender u cid hmem
  refine ⟨c, hc, hcid, ?_⟩
  intro hnn
  rcases haward with htrig | hnone
  · by_cases hpos : c.VarId > 0
    · exact Or.inr (Or.inl ⟨hpos, validVars_single env sender c htrig hpos hvalid⟩)
    · have hz : c.VarId = 0 := by omega
      by_cases hne : c.VarIds = []
      · exact Or.inl ⟨hz, hne⟩
      · exact Or.inr (Or.inr ⟨hz, hne, validVars_chain env sender c htrig hz hne hvalid⟩)
  · exact Or.inl hnone

/-- C24, witness: the condition `vargated` (switch 5, variable 7 equal to 3)
is awarded on `ss 5 1` to the client whose variable 7 is 3; the single
variable id is in the cache with an accepted value. -/
theorem handleSs_variable_gate_witness :
    ∃ c ∈ exampleEnv.globalConditions ++ (roomWith [varGatedCondition]).conditions,
      "vargated" = c.ConditionId ∧
      (0 ≤ c.VarId →
        (c.VarId = 0 ∧ c.VarIds = []) ∨
        (c.VarId > 0 ∧ ∃ v, clientWithVar.varCache c.VarId = some v ∧
          (exampleEnv.checkVar c c.VarId v).1 = true) ∨
        (c.VarId = 0 ∧ c.VarIds ≠ [] ∧ ∀ vId ∈ c.VarIds,
          ∃ v, clientWithVar.varCache vId = some v ∧
            (exampleEnv.checkVar c vId v).1 = true)) :=
  handleSs_variable_gate exampleEnv (roomWith [varGatedCondition]) [] ["ss", "5", "1"]
    clientWithVar "u7" "vargated" (by decide)

/-! ### Hints along a switch chain -/

/-- A loop that has left the handler has left it in one run of its body. -/
theorem forEach_left_some {σ α : Type} (body : σ → α → Step σ) (db : σ) (l : List α) (x : Exit)
    (hx : (forEach body db l).left = some x) :
    ∃ db2 a, a ∈ l ∧ (body db2 a).left = some x := by
  induction l generalizing db with
  | nil => simp [forEach] at hx
  | cons a l ih =>
    unfold forEach at hx
    cases hl : (body db a).left with
    | some y =>
      simp only [hl] at hx
      exact ⟨db, a, List.mem_cons_self _ _, by rw [hl]; exact hx⟩
    | none =>
      simp only [hl] at hx
      obtain ⟨db2, b, hb, hbx⟩ := ih _ hx
      exact ⟨db2, b, List.mem_cons_of_mem _ hb, hbx⟩

/-- A loop that has run to its end has run its body for every element. -/
theorem forEach_complete_mem {σ α : Type} (body : σ → α → Step σ) (db : σ) (l : List α)
    (hdone : (forEach body db l).left = none) (a : α) (ha : a ∈ l) :
    ∃ db2, ∀ e ∈ (body db2 a).effects, e ∈ (forEach body db l).effects := by
  induction l generalizing db with
  | nil => cases ha
  | cons b l ih =>
    unfold forEach at hdone ⊢
    cases hl : (body db b).left with
    | some y => simp [hl] at hdone
    | none =>
      simp only [hl] at hdone ⊢
      rcases List.mem_cons.mp ha with rfl | ha2
      · exact ⟨db, fun e he => List.mem_append_left _ he⟩
      · obtain ⟨db2, h2⟩ := ih _ hdone ha2
        exact ⟨db2, fun e he => List.mem_append_right _ (h2 e he)⟩

/-- The award block leaves the handler only with the error of the
collaborator. -/
theorem awardTag_left {σ : Type} (env : Env σ) (sender : HubClient) (db : σ) (c : Condition)
    (x : Exit) (hx : (awardTag env sender db c).left = some x) : ∃ e, x = .returned (some e) := by
  unfold awardTag at hx
  split at hx
  · split at hx
    · simp only [] at hx
      split at hx
      · simp only [Option.some.injEq] at hx
        exact ⟨_, hx.symm⟩
      · simp at hx
    · simp at hx
  · split at hx <;> simp at hx

/-- The body of the condition loop of `handleSs` leaves the handler only with
an error of the collaborator or by a panic, never with nil. -/
theorem ssCondition_left {σ : Type} (env : Env σ) (sender : HubClient) (switchId : Int)
    (value : Bool) (db : σ) (c : Condition) (x : Exit)
    (hx : (ssCondition env sender switchId value db c).left = some x) : x ≠ .returned none := by
  have fire : ∀ y, (ssFire env sender db c).left = some y → y ≠ .returned none := by
    intro y hy
    unfold ssFire at hy
    split at hy
    · obtain ⟨e, he⟩ := awardTag_left env sender db c y hy
      rw [he]
      simp
    · simp at hy
  unfold ssCondition at hx
  split at hx
  · split at hx
    · split at hx
      · exact fire x hx
      · simp at hx
    · split at hx
      · simp only [] at hx
        split at hx
        · split at hx
          · exact fire x hx
          · split at hx
            · simp at hx
            · simp only [Option.some.injEq] at hx
              rw [← hx]
              simp
        · simp at hx
      · simp at hx
  · simp at hx

/-- One step of a loop whose body does not leave the handler. -/
theorem forEach_cons_none {σ α : Type} (body : σ → α → Step σ) (db : σ) (a : α) (l : List α)
    (hl : (body db a).left = none) :
    forEach body db (a :: l) =
      { db := (forEach body (body db a).db l).db
        effects := (body db a).effects ++ (forEach body (body db a).db l).effects
        left := (forEach body (body db a).db l).left } := by
  rw [forEach]
  simp only [hl]

/-- A loop over a list in two parts, when the first part runs to its end, is
the loop over the first part followed by the loop over the second. -/
theorem forEach_append {σ α : Type} (body : σ → α → Step σ) (db : σ) (l1 l2 : List α)
    (hdone : (forEach body db l1).left = none) :
    (forEach body db (l1 ++ l2)).effects =
      (forEach body db l1).effects ++ (forEach body (forEach body db l1).db l2).effects := by
  induction l1 generalizing db with
  | nil => simp [forEach]
  | cons a l ih =>
    cases hl : (body db a).left with
    | some y =>
      rw [forEach] at hdone
      simp [hl] at hdone
    | none =>
      rw [forEach_cons_none _ _ _ _ hl] at hdone
      rw [List.cons_append, forEach_cons_none _ _ _ _ hl, forEach_cons_none _ _ _ _ hl]
      simp only [] at hdone ⊢
      rw [ih _ hdone, List.append_assoc]

/-- For a condition driven by a switch chain, with the gate satisfied, on a
command that is not for the single switch of the condition: a match that
`checkSwitch` reports at a position `k` before the last gives the hint for
the id at position `k + 1`, which exists, and nothing else. -/
theorem ssCondition_hint {σ : Type} (env : Env σ) (sender : HubClient) (switchId : Int)
    (value : Bool) (db : σ) (c : Condition) (k : Int)
    (hgate : validVars env sender c = true) (hne : switchId ≠ c.SwitchId)
    (hmatch : env.checkSwitch c switchId value = (true, k))
    (hk0 : 0 ≤ k) (hk : k < (c.SwitchIds.length : Int) - 1) :
    ∃ next, c.SwitchIds.get? (k + 1).toNat = some next ∧
      (k + 1).toNat < c.SwitchIds.length ∧
      ssCondition env sender switchId value db c =
        { db := db, effects := [Effect.sendMsg [.str "ss", .int next, .str "0"]],
          left := none } := by
  have hlt : (k + 1).toNat < c.SwitchIds.length := by omega
  have hlen : c.SwitchIds.length > 0 := by omega
  obtain ⟨next, hnext⟩ : ∃ next, c.SwitchIds.get? (k + 1).toNat = some next :=
    ⟨_, List.get?_eq_get hlt⟩
  have hidx : index c.SwitchIds (k + 1) = some next := by
    unfold index
    rw [if_neg (by omega)]
    exact hnext
  have hnotlast : ¬ (k = (c.SwitchIds.length : Int) - 1) := by omega
  refine ⟨next, hnext, hlt, ?_⟩
  simp only [ssCondition, hgate, if_true, hne, if_false, hlen, hmatch, hnotlast, hidx]

/-- C25, as the code has it: for a condition with a switch chain whose gate
is satisfied, on an `ss` command that is not for the single switch id of the
condition: when `checkSwitch` reports a match at a position `k` with
`0 ≤ k < n - 1` (`n` the length of the chain), the index `k + 1` is within
the chain and the evaluation of the condition (one run of the loop body of
`handleSs`) sends exactly the hint (`ss`, the id at position `k + 1`, `0`),
calls `tryWritePlayerTag` not at all, leaves the collaborator state as it
was and goes on. `handleSs` evaluates the conditions, in the order of the
list, for a valid command other than switch 1430 in the profile `2kki`, and
as long as no evaluation has left the handler with an error of
`tryWritePlayerTag` or a panic: on such a command the hint is in the trace
when the conditions before this one in the list let the loop go on, and so
whenever the handler returns nil. A call of `tryWritePlayerTag`, in the
evaluation of a condition on a command that is not for its single switch id
and in `handleSs` as a whole, is made only on a match at the single switch
id or at the last position `n - 1`. -/
theorem chain_hint_before_last :
    (∀ (σ : Type) (env : Env σ) (sender : HubClient) (switchId : Int) (value : Bool) (db : σ)
      (c : Condition) (k : Int),
      validVars env sender c = true → switchId ≠ c.SwitchId →
      env.checkSwitch c switchId value = (true, k) →
      0 ≤ k → k < (c.SwitchIds.length : Int) - 1 →
      ∃ next, c.SwitchIds.get? (k + 1).toNat = some next ∧
        (k + 1).toNat < c.SwitchIds.length ∧
        (ssCondition env sender switchId value db c).effects =
          [Effect.sendMsg [.str "ss", .int next, .str "0"]] ∧
        (ssCondition env sender switchId value db c).left = none ∧
        (ssCondition env sender switchId value db c).db = db ∧
        ∀ u cid, Effect.tryWritePlayerTag u cid ∉
          (ssCondition env sender switchId value db c).effects) ∧
    (∀ (σ : Type) (env : Env σ) (h : Hub) (db : σ) (cmd f1 f2 : String) (sender : HubClient)
      (switchId valueBin : Int) (c : Condition) (k : Int),
      atoi f1 = .ok switchId → atoi f2 = .ok valueBin → 0 ≤ valueBin ∧ valueBin ≤ 1 →
      ¬ (switchId = 1430 ∧ env.gameName = "2kki") →
      c ∈ env.globalConditions ++ h.conditions →
      validVars env sender c = true → switchId ≠ c.SwitchId →
      env.checkSwitch c switchId (valueBin == 1) = (true, k) →
      0 ≤ k → k < (c.SwitchIds.length : Int) - 1 →
      (handleSs env h db [cmd, f1, f2] sender).1.exit = .returned none →
      ∃ next, c.SwitchIds.get? (k + 1).toNat = some next ∧
        Effect.sendMsg [.str "ss", .int next, .str "0"] ∈
          (handleSs env h db [cmd, f1, f2] sender).1.effects) ∧
    (∀ (σ : Type) (env : Env σ) (sender : HubClient) (switchId : Int) (value : Bool) (db : σ)
      (c : Condition) (u cid : String),
      switchId ≠ c.SwitchId →
      Effect.tryWritePlayerTag u cid ∈ (ssCondition env sender switchId value db c).effects →
      env.checkSwitch c switchId value = (true, (c.SwitchIds.length : Int) - 1)) ∧
    (∀ (σ : Type) (env : Env σ) (h : Hub) (db : σ) (cmd f1 f2 : String) (sender : HubClient)
      (switchId valueBin : Int) (c : Condition) (k : Int) (before after : List Condition),
      atoi f1 = .ok switchId → atoi f2 = .ok valueBin → 0 ≤ valueBin ∧ valueBin ≤ 1 →
      ¬ (switchId = 1430 ∧ env.gameName = "2kki") →
      env.globalConditions ++ h.conditions = before ++ c :: after →
      (forEach (ssCondition env
          { sender with switchCache := mapSet sender.switchCache switchId (valueBin == 1) }
          switchId (valueBin == 1))
        (forEach (ssMinigame env
          { sender with switchCache := mapSet sender.switchCache switchId (valueBin == 1) }
          switchId (valueBin == 1)) db sender.hub.minigameConfigs.enum).db before).left = none →
      validVars env sender c = true → switchId ≠ c.SwitchId →
      env.checkSwitch c switchId (valueBin == 1) = (true, k) →
      0 ≤ k → k < (c.SwitchIds.length : Int) - 1 →
      ∃ next, c.SwitchIds.get? (k + 1).toNat = some next ∧
        Effect.sendMsg [.str "ss", .int next, .str "0"] ∈
          (handleSs env h db [cmd, f1, f2] sender).1.effects) ∧
    (∀ (σ : Type) (env : Env σ) (h : Hub) (db : σ) (msg : List String) (sender : HubClient)
      (u cid : String),
      Effect.tryWritePlayerTag u cid ∈ (handleSs env h db msg sender).1.effects →
      ∃ c ∈ env.globalConditions ++ h.conditions, cid = c.ConditionId ∧
        ∃ f1 f2 switchId valueBin, (∃ cmd, msg = [cmd, f1, f2]) ∧
          atoi f1 = .ok switchId ∧ atoi f2 = .ok valueBin ∧
          ((switchId = c.SwitchId ∧ (env.checkSwitch c switchId (valueBin == 1)).1 = true) ∨
            (switchId ≠ c.SwitchId ∧ c.SwitchIds ≠ [] ∧
              env.checkSwitch c switchId (valueBin == 1) =
                (true, (c.SwitchIds.length : Int) - 1)))) := by
  refine ⟨?_, ?_, ?_, ?_, ?_⟩
  · intro σ env sender switchId value db c k hgate hne hmatch hk0 hk
    obtain ⟨next, hnext, hlt, hs⟩ :=
      ssCondition_hint env sender switchId value db c k hgate hne hmatch hk0 hk
    refine ⟨next, hnext, hlt, ?_, ?_, ?_, ?_⟩
    · rw [hs]
    · rw [hs]
    · rw [hs]
    · intro u cid hmem
      rw [hs] at hmem
      simp at hmem
  · intro σ env h db cmd f1 f2 sender switchId valueBin c k hid hbin hrange hspecial hc hgate
      hne hmatch hk0 hk hexit
    have hp : parseField f2 (fun v => decide (0 ≤ v) && decide (v ≤ 1)) = .ok valueBin :=
      (parseField_ok_iff _ _ _).mpr ⟨hbin, by simp [hrange.1, hrange.2]⟩
    have hsp : (decide (switchId = 1430) && decide (env.gameName = "2kki")) = false := by
      by_cases h1 : switchId = 1430
      · by_cases h2 : env.gameName = "2kki"
        · exact absurd ⟨h1, h2⟩ hspecial
        · simp [h2]
      · simp [h1]
    have hleft : (forEach (ssCondition env
          { sender with switchCache := mapSet sender.switchCache switchId (valueBin == 1) }
          switchId (valueBin == 1))
        (forEach (ssMinigame env
          { sender with switchCache := mapSet sender.switchCache switchId (valueBin == 1) }
          switchId (valueBin == 1)) db sender.hub.minigameConfigs.enum).db
        (env.globalConditions ++ h.conditions)).left = none := by
      simp only [handleSs, hid, hp, hsp, Bool.false_eq_true, if_false] at hexit
      cases hl : (forEach (ssCondition env
          { sender with switchCache := mapSet sender.switchCache switchId (valueBin == 1) }
          switchId (valueBin == 1))
        (forEach (ssMinigame env
          { sender with switchCache := mapSet sender.switchCache switchId (valueBin == 1) }
          switchId (valueBin == 1)) db sender.hub.minigameConfigs.enum).db
        (env.globalConditions ++ h.conditions)).left with
      | none => rfl
      | some x =>
        rw [hl] at hexit
        simp only [Option.getD_some] at hexit
        obtain ⟨db2, a, _, ha⟩ := forEach_left_some _ _ _ _ hl
        exact absurd hexit (ssCondition_left env _ switchId (valueBin == 1) db2 a x ha)
    obtain ⟨db2, hsub⟩ := forEach_complete_mem _ _ _ hleft c hc
    obtain ⟨next, hnext, _, hs⟩ := ssCondition_hint env
      { sender with switchCache := mapSet sender.switchCache switchId (valueBin == 1) }
      switchId (valueBin == 1) db2 c k hgate hne hmatch hk0 hk
    refine ⟨next, hnext, ?_⟩
    rw [handleSs_effects env h db cmd f1 f2 sender switchId valueBin hid hbin hrange hspecial]
    refine List.mem_append_right _ (hsub _ ?_)
    rw [hs]
    simp
  · intro σ env sender switchId value db c u cid hne hmem
    obtain ⟨_, _, _, _, _, _, hcase⟩ := ssCondition_tag env sender switchId value db c u cid hmem
    rcases hcase with ⟨heq, _⟩ | ⟨_, _, hlast⟩
    · exact absurd heq hne
    · exact hlast
  · intro σ env h db cmd f1 f2 sender switchId valueBin c k before after hid hbin hrange hspecial
      hconds hbefore hgate hne hmatch hk0 hk
    obtain ⟨next, hnext, _, hs⟩ := ssCondition_hint env
      { sender with switchCache := mapSet sender.switchCache switchId (valueBin == 1) }
      switchId (valueBin == 1)
      (forEach (ssCondition env
            { sender with switchCache := mapSet sender.switchCache switchId (valueBin == 1) }
            switchId (valueBin == 1))
          (forEach (ssMinigame env
            { sender with switchCache := mapSet sender.switchCache switchId (valueBin == 1) }
            switchId (valueBin == 1)) db sender.hub.minigameConfigs.enum).db before).db
      c k hgate hne hmatch hk0 hk
    refine ⟨next, hnext, ?_⟩
    rw [handleSs_effects env h db cmd f1 f2 sender switchId valueBin hid hbin hrange hspecial,
      hconds, forEach_append _ _ _ _ hbefore]
    refine List.mem_append_right _ (List.mem_append_right _ ?_)
    rw [forEach_cons_none _ _ _ _ (by rw [hs]), hs]
    simp
  · intro σ env h db msg sender u cid hmem
    obtain ⟨c, hc, hcid, _, _, _, _, hmatch⟩ := handleSs_tag_sound env h db msg sender u cid hmem
    exact ⟨c, hc, hcid, hmatch⟩

/-- C25, witness: in the room of the chain 1, 2, 3 a fresh client sets switch
1 (position 0): it is sent the hint for switch 2. -/
theorem chain_hint_before_last_witness :
    ∃ next, chainCondition.SwitchIds.get? (0 + 1 : Int).toNat = some next ∧
      Effect.sendMsg [.str "ss", .int next, .str "0"] ∈
        (handleSs exampleEnv (roomWith [chainCondition]) [] ["ss", "1", "1"]
          (freshClient (roomWith [chainCondition]))).1.effects :=
  chain_hint_before_last.2.1 _ exampleEnv (roomWith [chainCondition]) [] "ss" "1" "1"
    (freshClient (roomWith [chainCondition])) 1 1 chainCondition 0
    (by decide) (by decide) (by decide) (by decide) (by decide) (by decide) (by decide)
    (by decide) (by decide) (by decide) (by decide)

/-- C25, counterexample: two commands that meet the conditions of a hint
(gate satisfied, written id other than the single switch id, match reported
at position 0 of a chain of length 3) and get none. In the profile `2kki`
the command `ss 1430 1` in the room of the chain 1430, 2, 3 is answered
`sv 88 0` only, and nil is returned: no condition is evaluated. In the room
of a condition on switch 5 whose award fails, followed by the chain 5, 6, 7,
the command `ss 5 1` ends at the failing call with its error, before the
chain is evaluated. -/
theorem hint_lost_before_condition :
    validVars exampleEnv (freshClient (roomWith [chainFrom1430])) chainFrom1430 = true ∧
    (1430 : Int) ≠ chainFrom1430.SwitchId ∧
    exampleEnv.checkSwitch chainFrom1430 1430 true = (true, 0) ∧
    (0 : Int) < (chainFrom1430.SwitchIds.length : Int) - 1 ∧
    (handleSs exampleEnv (roomWith [chainFrom1430]) [] ["ss", "1430", "1"]
      (freshClient (roomWith [chainFrom1430]))).1.effects =
      [Effect.sendMsg [.str "sv", .str "88", .str "0"]] ∧
    (handleSs exampleEnv (roomWith [chainFrom1430]) [] ["ss", "1430", "1"]
      (freshClient (roomWith [chainFrom1430]))).1.exit = .returned none ∧
    validVars failingEnv (freshClient (roomWith [switchCondition "broken", chainFrom5]))
      chainFrom5 = true ∧
    (5 : Int) ≠ chainFrom5.SwitchId ∧
    failingEnv.checkSwitch chainFrom5 5 true = (true, 0) ∧
    (0 : Int) < (chainFrom5.SwitchIds.length : Int) - 1 ∧
    (handleSs failingEnv (roomWith [switchCondition "broken", chainFrom5]) [] ["ss", "5", "1"]
      (freshClient (roomWith [switchCondition "broken", chainFrom5]))).1.effects =
      [Effect.tryWritePlayerTag "u7" "broken"] ∧
    (handleSs failingEnv (roomWith [switchCondition "broken", chainFrom5]) [] ["ss", "5", "1"]
      (freshClient (roomWith [switchCondition "broken", chainFrom5]))).1.exit =
      .returned (some (.other "db down")) := by
  decide

/-! ### The caches -/

/-- C26: for a valid `ss` command (integer id, value 0 or 1), however
`handleSs` ends (nil, an error of the collaborator, or a panic), the sender
it leaves is the sender it was given with the one entry of the switch cache
set: the cache maps the id to (value = 1), every other entry is as before,
and the variable cache, the coordinates and the pictures are unchanged. In
the same way a valid `sv` command (two integers) sets that one entry of the
variable cache and changes nothing else. -/
theorem cache_frame :
    (∀ (σ : Type) (env : Env σ) (h : Hub) (db : σ) (cmd f1 f2 : String) (sender : HubClient)
      (switchId valueBin : Int),
      atoi f1 = .ok switchId → atoi f2 = .ok valueBin → 0 ≤ valueBin ∧ valueBin ≤ 1 →
      (handleSs env h db [cmd, f1, f2] sender).1.sender =
        { sender with switchCache := mapSet sender.switchCache switchId (valueBin == 1) } ∧
      (handleSs env h db [cmd, f1, f2] sender).1.sender.switchCache switchId =
        some (valueBin == 1) ∧
      (∀ j, j ≠ switchId →
        (handleSs env h db [cmd, f1, f2] sender).1.sender.switchCache j = sender.switchCache j) ∧
      (handleSs env h db [cmd, f1, f2] sender).1.sender.varCache = sender.varCache ∧
      (handleSs env h db [cmd, f1, f2] sender).1.sender.x = sender.x ∧
      (handleSs env h db [cmd, f1, f2] sender).1.sender.y = sender.y ∧
      (handleSs env h db [cmd, f1, f2] sender).1.sender.pictures = sender.pictures) ∧
    (∀ (σ : Type) (env : Env σ) (h : Hub) (db : σ) (cmd f1 f2 : String) (sender : HubClient)
      (varId value : Int),
      atoi f1 = .ok varId → atoi f2 = .ok value →
      (handleSv env h db [cmd, f1, f2] sender).1.sender =
        { sender with varCache := mapSet sender.varCache varId value } ∧
      (handleSv env h db [cmd, f1, f2] sender).1.sender.varCache varId = some value ∧
      (∀ j, j ≠ varId →
        (handleSv env h db [cmd, f1, f2] sender).1.sender.varCache j = sender.varCache j) ∧
      (handleSv env h db [cmd, f1, f2] sender).1.sender.switchCache = sender.switchCache ∧
      (handleSv env h db [cmd, f1, f2] sender).1.sender.x = sender.x ∧
      (handleSv env h db [cmd, f1, f2] sender).1.sender.y = sender.y ∧
      (handleSv env h db [cmd, f1, f2] sender).1.sender.pictures = sender.pictures) := by
  refine ⟨?_, ?_⟩
  · intro σ env h db cmd f1 f2 sender switchId valueBin hid hbin hrange
    have hp : parseField f2 (fun v => decide (0 ≤ v) && decide (v ≤ 1)) = .ok valueBin :=
      (parseField_ok_iff _ _ _).mpr ⟨hbin, by simp [hrange.1, hrange.2]⟩
    have hs : (handleSs env h db [cmd, f1, f2] sender).1.sender =
        { sender with switchCache := mapSet sender.switchCache switchId (valueBin == 1) } := by
      simp only [handleSs, hid, hp]
      split <;> rfl
    rw [hs]
    refine ⟨rfl, ?_, ?_, rfl, rfl, rfl, rfl⟩
    · simp [mapSet]
    · intro j hj
      simp [mapSet, hj]
  · intro σ env h db cmd f1 f2 sender varId value hid hval
    have hs : (handleSv env h db [cmd, f1, f2] sender).1.sender =
        { sender with varCache := mapSet sender.varCache varId value } := by
      simp only [handleSv, hid, hval]
      split <;> rfl
    rw [hs]
    refine ⟨rfl, ?_, ?_, rfl, rfl, rfl, rfl⟩
    · simp [mapSet]
    · intro j hj
      simp [mapSet, hj]

/-- C26, witness: `ss 3 1` of a fresh client in the room of the chain 1, 2, 3
sets switch 3 and leaves switch 1 unset. -/
theorem cache_frame_witness :
    (handleSs exampleEnv (roomWith [chainCondition]) [] ["ss", "3", "1"]
      (freshClient (roomWith [chainCondition]))).1.sender.switchCache 3 = some true ∧
    (handleSs exampleEnv (roomWith [chainCondition]) [] ["ss", "3", "1"]
      (freshClient (roomWith [chainCondition]))).1.sender.switchCache 1 = none :=
  have w := cache_frame.1 _ exampleEnv (roomWith [chainCondition]) [] "ss" "3" "1"
    (freshClient (roomWith [chainCondition])) 3 1 (by decide) (by decide) (by decide)
  ⟨w.2.1, w.2.2.1 1 (by decide)⟩

/-! ### Rejected show commands -/

/-- The validation of the fields 1 to 16 in `handleP` succeeds exactly on the
valid fields. -/
theorem parsePicArgs_cases (msg : List String) :
    (validPicFields msg = true ∧ ∃ a, parsePicArgs msg = .ok a) ∨
    (validPicFields msg = false ∧ ∃ e, parsePicArgs msg = .error e) := by
  rcases parseField_cases (field msg 1) (fun v => decide (1 ≤ v)) with
    ⟨h1, v1, p1⟩ | ⟨h1, e1, p1⟩
  swap
  · refine Or.inr ⟨?_, e1, ?_⟩
    · simp [
        validPicFields, h1]
    · simp only [
        parsePicArgs, p1, bind, Except.bind]
  rcases parseField_cases (field msg 2) (fun _ => true) with
    ⟨h2, v2, p2⟩ | ⟨h2, e2, p2⟩
  swap
  · refine Or.inr ⟨?_, e2, ?_⟩
    · simp [
        validPicFields, h1, h2]
    · simp only [
        parsePicArgs, p1, p2, bind, Except.bind]
  rcases parseField_cases (field msg 3) (fun _ => true) with
    ⟨h3, v3, p3⟩ | ⟨h3, e3, p3⟩
  swap
  · refine Or.inr ⟨?_, e3, ?_⟩
    · simp [
        validPicFields, h1, h2, h3]
    · simp only [
        parsePicArgs, p1, p2, p3, bind, Except.bind]
  rcases parseField_cases (field msg 4) (fun _ => true) with
    ⟨h4, v4, p4⟩ | ⟨h4, e4, p4⟩
  swap
  · refine Or.inr ⟨?_, e4, ?_⟩
    · simp [
        validPicFields, h1, h2, h3, h4]
    · simp only [
        parsePicArgs, p1, p2, p3, p4, bind, Except.bind]
  rcases parseField_cases (field msg 5) (fun _ => true) with
    ⟨h5, v5, p5⟩ | ⟨h5, e5, p5⟩
  swap
  · refine Or.inr ⟨?_, e5, ?_⟩
    · simp [
        validPicFields, h1, h2, h3, h4, h5]
    · simp only [
        parsePicArgs, p1, p2, p3, p4, p5, bind, Except.bind]
  rcases parseField_cases (field msg 6) (fun _ => true) with
    ⟨h6, v6, p6⟩ | ⟨h6, e6, p6⟩
  swap
  · refine Or.inr ⟨?_, e6, ?_⟩
    · simp [
        validPicFields, h1, h2, h3, h4, h5, h6]
    · simp only [
        parsePicArgs, p1, p2, p3, p4, p5, p6, bind, Except.bind]
  rcases parseField_cases (field msg 7) (fun _ => true) with
    ⟨h7, v7, p7⟩ | ⟨h7, e7, p7⟩
  swap
  · refine Or.inr ⟨?_, e7, ?_⟩
    · simp [
        validPicFields, h1, h2, h3, h4, h5, h6, h7]
    · simp only [
        parsePicArgs, p1, p2, p3, p4, p5, p6, p7, bind, Except.bind]
  rcases parseField_cases (field msg 8) (fun v => decide (0 ≤ v)) with
    ⟨h8, v8, p8⟩ | ⟨h8, e8, p8⟩
  swap
  · refine Or.inr ⟨?_, e8, ?_⟩
    · simp [
        validPicFields, h1, h2, h3, h4, h5, h6, h7, h8]
    · simp only [
        parsePicArgs, p1, p2, p3, p4, p5, p6, p7, p8, bind, Except.bind]
  rcases parseField_cases (field msg 9) (fun v => decide (0 ≤ v)) with
    ⟨h9, v9, p9⟩ | ⟨h9, e9, p9⟩
  swap
  · refine Or.inr ⟨?_, e9, ?_⟩
    · simp [
        validPicFields, h1, h2, h3, h4, h5, h6, h7, h8, h9]
    · simp only [
        parsePicArgs, p1, p2, p3, p4, p5, p6, p7, p8, p9, bind, Except.bind]
  rcases parseField_cases (field msg 10) (fun v => decide (0 ≤ v)) with
    ⟨h10, v10, p10⟩ | ⟨h10, e10, p10⟩
  swap
  · refine Or.inr ⟨?_, e10, ?_⟩
    · simp [
        validPicFields, h1, h2, h3, h4, h5, h6, h7, h8, h9, h10]
    · simp only [
        parsePicArgs, p1, p2, p3, p4, p5, p6, p7, p8, p9, p10, bind, Except.bind]
  rcases parseField_cases (field msg 11) (fun v => decide (0 ≤ v) && decide (v ≤ 200)) with
    ⟨h11, v11, p11⟩ | ⟨h11, e11, p11⟩
  swap
  · refine Or.inr ⟨?_, e11, ?_⟩
    · simp [
        validPicFields, h1, h2, h3, h4, h5, h6, h7, h8, h9, h10, h11]
    · simp only [
        parsePicArgs, p1, p2, p3, p4, p5, p6, p7, p8, p9, p10, p11, bind, Except.bind]
  rcases parseField_cases (field msg 12) (fun v => decide (0 ≤ v) && decide (v ≤ 200)) with
    ⟨h12, v12, p12⟩ | ⟨h12, e12, p12⟩
  swap
  · refine Or.inr ⟨?_, e12, ?_⟩
    · simp [
        validPicFields, h1, h2, h3, h4, h5, h6, h7, h8, h9, h10, h11, h12]
    · simp only [
        parsePicArgs, p1, p2, p3, p4, p5, p6, p7, p8, p9, p10, p11, p12, bind, Except.bind]
  rcases parseField_cases (field msg 13) (fun v => decide (0 ≤ v) && decide (v ≤ 200)) with
    ⟨h13, v13, p13⟩ | ⟨h13, e13, p13⟩
  swap
  · refine Or.inr ⟨?_, e13, ?_⟩
    · simp [
        validPicFields, h1, h2, h3, h4, h5, h6, h7, h8, h9, h10, h11, h12, h13]
    · simp only [
        parsePicArgs, p1, p2, p3, p4, p5, p6, p7, p8, p9, p10, p11, p12, p13, bind, Except.bind]
  rcases parseField_cases (field msg 14) (fun v => decide (0 ≤ v) && decide (v ≤ 200)) with
    ⟨h14, v14, p14⟩ | ⟨h14, e14, p14⟩
  swap
  · refine Or.inr ⟨?_, e14, ?_⟩
    · simp [
        validPicFields, h1, h2, h3, h4, h5, h6, h7, h8, h9, h10, h11, h12, h13, h14]
    · simp only [
        parsePicArgs, p1, p2, p3, p4, p5, p6, p7, p8, p9, p10, p11, p12, p13, p14, bind,
          Except.bind]
  rcases parseField_cases (field msg 15) (fun v => decide (0 ≤ v)) with
    ⟨h15, v15, p15⟩ | ⟨h15, e15, p15⟩
  swap
  · refine Or.inr ⟨?_, e15, ?_⟩
    · simp [
        validPicFields, h1, h2, h3, h4, h5, h6, h7, h8, h9, h10, h11, h12, h13, h14, h15]
    · simp only [
        parsePicArgs, p1, p2, p3, p4, p5, p6, p7, p8, p9, p10, p11, p12, p13, p14, p15, bind,
          Except.bind]
  rcases parseField_cases (field msg 16) (fun _ => true) with
    ⟨h16, v16, p16⟩ | ⟨h16, e16, p16⟩
  swap
  · refine Or.inr ⟨?_, e16, ?_⟩
    · simp [
        validPicFields, h1, h2, h3, h4, h5, h6, h7, h8, h9, h10, h11, h12, h13, h14, h15, h16]
    · simp only [
        parsePicArgs, p1, p2, p3, p4, p5, p6, p7, p8, p9, p10, p11, p12, p13, p14, p15, p16,
          bind, Except.bind]
  refine Or.inl ⟨?_,
    {
      picId := v1, positionX := v2, positionY := v3, mapX := v4, mapY := v5, panX := v6,
        panY := v7, magnify := v8, topTrans := v9, bottomTrans := v10, red := v11,
        green := v12, blue := v13, saturation := v14, effectMode := v15, effectPower := v16 }, ?_⟩
  · simp [
      validPicFields, h1, h2, h3, h4, h5, h6, h7, h8, h9, h10, h11, h12, h13, h14, h15, h16]
  · simp only [
      parsePicArgs, p1, p2, p3, p4, p5, p6, p7, p8, p9, p10, p11, p12, p13, p14, p15, p16,
        bind, Except.bind, pure, Except.pure]

/-- C27, as the code has it: a 20-field show command (`ap`) that the
validation rejects (the overlay name fails the allow-list or is empty, the
id is below 1, or a numeric field does not parse or is out of range) leaves
the client as it was, pictures included, and broadcasts nothing; but the
condition class `picture` is evaluated for it, once, with the overlay name:
`checkHubConditions` is called before the validation, and that call is the
whole trace. A show command that the validation accepts, for an id that
holds no picture, is applied: the same evaluation, then the broadcast of the
command, and the picture is stored. -/
theorem handleP_rejected_show {σ : Type} (env : Env σ) (h : Hub) (msg : List String)
    (sender : HubClient) (hlen : msg.length = 20) (hcmd : field msg 0 = "ap") :
    (validShowFields env msg = false →
      ∃ e, handleP env h msg sender =
        { sender := sender
          effects := [Effect.checkHubConditions "picture" (field msg 17)]
          exit := .returned e }) ∧
    (validShowFields env msg = true → ∀ picId, atoi (field msg 1) = .ok picId →
      sender.pictures picId = none →
      (handleP env h msg sender).effects =
        [Effect.checkHubConditions "picture" (field msg 17),
         Effect.broadcast [.str "ap", .int sender.sClient.id, .strs (msg.drop 1)]] ∧
      (handleP env h msg sender).sender.pictures picId ≠ none ∧
      (handleP env h msg sender).exit = .returned none) := by
  obtain ⟨cmd, rest, rfl⟩ : ∃ cmd rest, msg = cmd :: rest := by
    cases msg with
    | nil => simp at hlen
    | cons c r => exact ⟨c, r, rfl⟩
  have hc : cmd = "ap" := by simpa [field] using hcmd
  subst hc
  have hap : ("ap" == "ap") = true := by decide
  by_cases hname : env.isValidPicName (field ("ap" :: rest) 17) = true
  swap
  · have hn : env.isValidPicName (field ("ap" :: rest) 17) = false := by simpa using hname
    refine ⟨fun _ => ⟨none, ?_⟩, fun hv => ?_⟩
    · unfold handleP
      simp only [hap, hlen, if_true, ne_eq, not_true_eq_false, if_false, hn, Bool.not_false,
        Bool.and_self]
    · simp [validShowFields, hn] at hv
  rcases parsePicArgs_cases ("ap" :: rest) with ⟨hf, a, ha⟩ | ⟨hf, e, ha⟩
  swap
  · refine ⟨fun _ => ⟨e, ?_⟩, fun hv => ?_⟩
    · unfold handleP
      simp only [hap, hlen, if_true, ne_eq, not_true_eq_false, if_false, hname, Bool.not_true,
        Bool.and_false, Bool.false_eq_true, ha]
    · simp [validShowFields, hf] at hv
  by_cases hempty : field ("ap" :: rest) 17 = ""
  · refine ⟨fun _ => ⟨none, ?_⟩, fun hv => ?_⟩
    · unfold handleP
      simp only [hap, hlen, if_true, ne_eq, not_true_eq_false, if_false, hname, Bool.not_true,
        Bool.and_false, Bool.false_eq_true, ha, hempty, ite_self]
    · simp [validShowFields, hempty] at hv
  rcases parseField_cases (field ("ap" :: rest) 18) (fun v => decide (0 ≤ v) && decide (v ≤ 1))
    with ⟨h18, v18, p18⟩ | ⟨h18, e18, p18⟩
  swap
  · refine ⟨fun _ => ⟨e18, ?_⟩, fun hv => ?_⟩
    · unfold handleP
      simp only [hap, hlen, if_true, ne_eq, not_true_eq_false, if_false, hname, Bool.not_true,
        Bool.and_false, Bool.false_eq_true, ha, hempty, p18]
    · simp [validShowFields, h18] at hv
  rcases parseField_cases (field ("ap" :: rest) 19) (fun v => decide (0 ≤ v) && decide (v ≤ 1))
    with ⟨h19, v19, p19⟩ | ⟨h19, e19, p19⟩
  swap
  · refine ⟨fun _ => ⟨e19, ?_⟩, fun hv => ?_⟩
    · unfold handleP
      simp only [hap, hlen, if_true, ne_eq, not_true_eq_false, if_false, hname, Bool.not_true,
        Bool.and_false, Bool.false_eq_true, ha, hempty, p18, p19]
    · simp [validShowFields, h19] at hv
  refine ⟨fun hv => ?_, fun _ picId hid hfree => ?_⟩
  · simp [validShowFields, hname, hf, hempty, h18, h19] at hv
  · have hpa := (parsePicArgs_picId _ _ ha).1
    rw [hid] at hpa
    have hpid : a.picId = picId := by simpa using hpa.symm
    have hfree2 : sender.pictures a.picId = none := by rw [hpid]; exact hfree
    have key : handleP env h ("ap" :: rest) sender =
        applyPicture ("ap" :: rest) a
          (Picture.new (field ("ap" :: rest) 17) (v18 == 1) (v19 == 1)) sender
          [Effect.checkHubConditions "picture" (field ("ap" :: rest) 17)] := by
      unfold handleP
      simp only [hap, hlen, if_true, ne_eq, not_true_eq_false, if_false, hname, Bool.not_true,
        Bool.and_false, Bool.false_eq_true, ha, hempty, p18, p19, hfree2]
    rw [key]
    refine ⟨?_, ?_, rfl⟩
    · simp [applyPicture, field]
    · simp [applyPicture, mapSet, hpid]

/-- C27, witness: the example show command with the id 0 leaves a fresh
client as it was, with the evaluation of the class `picture` as whole
trace. -/
theorem handleP_rejected_show_witness :
    ∃ e, handleP exampleEnv (roomWith []) rejectedShowCommand (freshClient (roomWith [])) =
      { sender := freshClient (roomWith [])
        effects := [Effect.checkHubConditions "picture" (field rejectedShowCommand 17)]
        exit := .returned e } :=
  (handleP_rejected_show exampleEnv (roomWith []) rejectedShowCommand
    (freshClient (roomWith [])) (by decide) (by decide)).1 (by decide)

/-- C27, counterexample: the example show command with the id 0 has 20
fields and is rejected by the validation (the id is below 1), and `handleP`
evaluates the condition class `picture` for it. -/
theorem rejected_show_evaluates_conditions :
    rejectedShowCommand.length = 20 ∧ field rejectedShowCommand 0 = "ap" ∧
    atoi (field rejectedShowCommand 1) = .ok 0 ∧
    validShowFields exampleEnv rejectedShowCommand = false ∧
    (handleP exampleEnv (roomWith []) rejectedShowCommand (freshClient (roomWith []))).effects =
      [Effect.checkHubConditions "picture" "cloud"] ∧
    (handleP exampleEnv (roomWith []) rejectedShowCommand (freshClient (roomWith []))).effects ≠
      [] := by
  decide

/-! ### The target of the moderation endpoints -/

/-- The block that resolves the `user` parameter has no moderation call. -/
theorem uuidParamBlock_no_target (env : AdminEnv) (r : AdminRequest) (uuidParam : String)
    (out : List AdminEffect) (h : uuidParamBlock env r uuidParam = some out) :
    ∃ e, out = [e] ∧ ((∃ m, e = .handleError m) ∨ ∃ err, e = .handleInternalError err) := by
  unfold uuidParamBlock at h
  split at h
  · simp only [] at h
    split at h
    · simp only [Option.some.injEq] at h
      exact ⟨_, h.symm, Or.inl ⟨_, rfl⟩⟩
    · split at h
      · simp only [Option.some.injEq] at h
        exact ⟨_, h.symm, Or.inr ⟨_, rfl⟩⟩
      · split at h
        · simp only [Option.some.injEq] at h
          exact ⟨_, h.symm, Or.inl ⟨_, rfl⟩⟩
        · simp at h
  · simp at h

/-- Whatever the request, the recipient of a ban, mute, unban or unmute is
the `uuid` parameter of the request: a uuid resolved from the `user`
parameter never reaches the moderation operation. -/
theorem moderation_target_is_uuid_param (env : AdminEnv) (r : AdminRequest)
    (s t : String) :
    (AdminEffect.tryBanPlayer s t ∈ adminBan env r → t = r.query "uuid") ∧
    (AdminEffect.tryMutePlayer s t ∈ adminMute env r → t = r.query "uuid") ∧
    (AdminEffect.tryUnbanPlayer s t ∈ adminUnban env r → t = r.query "uuid") ∧
    (AdminEffect.tryUnmutePlayer s t ∈ adminUnmute env r → t = r.query "uuid") := by
  refine ⟨?_, ?_, ?_, ?_⟩
  · intro hmem
    unfold adminBan at hmem
    simp only [] at hmem
    split at hmem
    · simp at hmem
    · cases hb : uuidParamBlock env r (r.query "uuid") with
      | some out =>
        obtain ⟨e, he, hk⟩ := uuidParamBlock_no_target env r _ out hb
        rw [hb] at hmem
        simp only [he, List.mem_singleton] at hmem
        rcases hk with ⟨m, hm⟩ | ⟨err, hm⟩ <;> rw [hm] at hmem <;> cases hmem
      | none =>
        rw [hb] at hmem
        simp only [] at hmem
        split at hmem <;> simp at hmem <;> exact hmem.2
  · intro hmem
    unfold adminMute at hmem
    simp only [] at hmem
    split at hmem
    · simp at hmem
    · cases hb : uuidParamBlock env r (r.query "uuid") with
      | some out =>
        obtain ⟨e, he, hk⟩ := uuidParamBlock_no_target env r _ out hb
        rw [hb] at hmem
        simp only [he, List.mem_singleton] at hmem
        rcases hk with ⟨m, hm⟩ | ⟨err, hm⟩ <;> rw [hm] at hmem <;> cases hmem
      | none =>
        rw [hb] at hmem
        simp only [] at hmem
        split at hmem <;> simp at hmem <;> exact hmem.2
  · intro hmem
    unfold adminUnban at hmem
    simp only [] at hmem
    split at hmem
    · simp at hmem
    · cases hb : uuidParamBlock env r (r.query "uuid") with
      | some out =>
        obtain ⟨e, he, hk⟩ := uuidParamBlock_no_target env r _ out hb
        rw [hb] at hmem
        simp only [he, List.mem_singleton] at hmem
        rcases hk with ⟨m, hm⟩ | ⟨err, hm⟩ <;> rw [hm] at hmem <;> cases hmem
      | none =>
        rw [hb] at hmem
        simp only [] at hmem
        split at hmem <;> simp at hmem <;> exact hmem.2
  · intro hmem
    unfold adminUnmute at hmem
    simp only [] at hmem
    split at hmem
    · simp at hmem
    · cases hb : uuidParamBlock env r (r.query "uuid") with
      | some out =>
        obtain ⟨e, he, hk⟩ := uuidParamBlock_no_target env r _ out hb
        rw [hb] at hmem
        simp only [he, List.mem_singleton] at hmem
        rcases hk with ⟨m, hm⟩ | ⟨err, hm⟩ <;> rw [hm] at hmem <;> cases hmem
      | none =>
        rw [hb] at hmem
        simp only [] at hmem
        split at hmem <;> simp at hmem <;> exact hmem.2

/-- C28, evaluation at the failing input: the moderator (rank 1) sends a
request without `uuid` and with `user=bob`, and `bob` resolves to the uuid
`u-bob`. Each of `adminBan`, `adminMute`, `adminUnban` and `adminUnmute`
calls its moderation operation with the empty string as recipient, whereas
the request with `uuid=u-bob` calls it with `u-bob`. -/
theorem moderation_by_name_empty_target :
    (exampleAdminEnv.getPlayerDataFromToken requestByName.authorization).2 ≠ 0 ∧
    requestByName.query "uuid" = "" ∧
    exampleAdminEnv.getUuidFromName (requestByName.query "user") = ("u-bob", none) ∧
    adminBan exampleAdminEnv requestByName =
      [AdminEffect.tryBanPlayer "admin" "", AdminEffect.write "ok"] ∧
    adminBan exampleAdminEnv requestByUuid =
      [AdminEffect.tryBanPlayer "admin" "u-bob", AdminEffect.write "ok"] ∧
    adminMute exampleAdminEnv requestByName =
      [AdminEffect.tryMutePlayer "admin" "", AdminEffect.write "ok"] ∧
    adminMute exampleAdminEnv requestByUuid =
      [AdminEffect.tryMutePlayer "admin" "u-bob", AdminEffect.write "ok"] ∧
    adminUnban exampleAdminEnv requestByName =
      [AdminEffect.tryUnbanPlayer "admin" "", AdminEffect.write "ok"] ∧
    adminUnban exampleAdminEnv requestByUuid =
      [AdminEffect.tryUnbanPlayer "admin" "u-bob", AdminEffect.write "ok"] ∧
    adminUnmute exampleAdminEnv requestByName =
      [AdminEffect.tryUnmutePlayer "admin" "", AdminEffect.write "ok"] ∧
    adminUnmute exampleAdminEnv requestByUuid =
      [AdminEffect.tryUnmutePlayer "admin" "u-bob", AdminEffect.write "ok"] := by
  decide

end YnoServer
